import Mathlib

/-!
Buffered write-pool engine of the Kafka consumer.

A shallow embedding of the write path of `src/consumer/influx` and
`src/consumer/mysql`: the lazily initialised backend client (`db.go`), the
handler pool with its round-robin cursor and per-handler flush loop
(`pool.go`) and the pool registry (`init.go`).

Conventions of the embedding

* A Go `time.Time` is an `Int`, the count of nanoseconds on one time line
  whose origin is the zero `time.Time`; `Time.Add` is addition and
  `Time.After` is the strict order. A `time.Duration` is an `Int` too, the
  `int64` count of nanoseconds.
* Everything the outside world decides during a call (what `time.Now()`
  reads, whether a backend call fails) is an explicit argument of the
  embedded function.
* A Go map is an association list read with `GoMap.get` and written with
  `GoMap.set`.
* A pointer to a heap object is the index of the object in an allocation
  list.
* A goroutine's infinite `for` loop is its loop body, a step function, folded
  over the finite sequence of values the loop has received so far.
-/

namespace KafkaConsumer

/-! ## Go primitives -/

/-- Two's-complement reduction of an integer to the `int64` range. -/
def wrapInt64 (x : Int) : Int :=
  (x + 2 ^ 63) % 2 ^ 64 - 2 ^ 63

/-- The constant `time.Second`. -/
def Second : Int := 1000000000

/-- Method `Time.Add`: the instant `d` after `t`. -/
def Time.Add (t : Int) (d : Int) : Int := t + d

/-- Method `Time.After`: whether `t` is strictly later than `u`. -/
def Time.After (t u : Int) : Bool := decide (u < t)

/-- The expression `time.Duration(n) * time.Second` for an `int` number of
seconds `n` (an `int64` product, which wraps). -/
def secondsToDuration (n : Int) : Int := wrapInt64 (wrapInt64 n * Second)

/-- A Go error value: `none` is `nil`, `some msg` is an error with text `msg`. -/
abbrev GoError := Option String

/-- A Go `map[K]V` as an association list; the first pair for a key is its
entry. -/
abbrev GoMap (K V : Type) := List (K × V)

/-- The empty map of `make(map[K]V)`. -/
def GoMap.empty {K V : Type} : GoMap K V := []

/-- Map read `v, ok := m[k]`: `none` when `ok` is false. -/
def GoMap.get {K V : Type} [DecidableEq K] (m : GoMap K V) (k : K) : Option V :=
  match m with
  | [] => none
  | (k', v) :: rest => if k' = k then some v else GoMap.get rest k

/-- Map write `m[k] = v`: replaces the entry of `k` when there is one, adds it
otherwise. -/
def GoMap.set {K V : Type} [DecidableEq K] (m : GoMap K V) (k : K) (v : V) : GoMap K V :=
  match m with
  | [] => [(k, v)]
  | (k', v') :: rest => if k' = k then (k, v) :: rest else (k', v') :: GoMap.set rest k v

/-- The copy loop `for k, v := range m { copied[k] = v }` into a new map. -/
def copyMap {K V : Type} [DecidableEq K] (m : GoMap K V) : GoMap K V :=
  m.foldl (fun acc kv => GoMap.set acc kv.1 kv.2) GoMap.empty

/-- A dynamically typed Go value (`any`), by its dynamic type: nil, the
predeclared integer, floating-point, boolean and string types, and `other`
for a value of any other type (a map, a slice, `uintptr`, a named type). -/
inductive Any where
  | nil
  | int (v : Int)
  | int8 (v : Int)
  | int16 (v : Int)
  | int32 (v : Int)
  | int64 (v : Int)
  | uint (v : Nat)
  | uint8 (v : Nat)
  | uint16 (v : Nat)
  | uint32 (v : Nat)
  | uint64 (v : Nat)
  | float32 (bits : Nat)
  | float64 (bits : Nat)
  | bool (v : Bool)
  | string (v : String)
  | other (typeName : String)
  deriving DecidableEq, Repr

/-! ## config/readJsonConfig.go -/

/-- The struct `config.BaseConfig`. -/
structure BaseConfig where
  MysqlPoolSize : Nat
  MysqlMaxBufferSize : Int
  MysqlMaxIntervalTime : Int
  MysqlPoolChannelSize : Nat
  InfluxPoolSize : Nat
  InfluxMaxBufferSize : Int
  InfluxMaxIntervalTime : Int
  InfluxPoolChannelSize : Nat
  deriving DecidableEq, Repr

/-- The configuration of the constants in the source: `writeMaxBufferSize`,
`writeMaxIntervalTime` and `poolChannelSize` of influx/pool.go,
`handleMaxBufferSize`, `writeMaxIntervalTime` and `poolChannelSize` of
mysql/pool.go, and `poolSize` of mysql/init.go for both pool sizes. -/
def sourceConfig : BaseConfig :=
  { MysqlPoolSize := 80, MysqlMaxBufferSize := 10, MysqlMaxIntervalTime := 10,
    MysqlPoolChannelSize := 100, InfluxPoolSize := 80, InfluxMaxBufferSize := 5000,
    InfluxMaxIntervalTime := 5, InfluxPoolChannelSize := 100 }

/-- The configuration of the spec's first flush example: batches of at most 5
records for both backends, the rest as in `sourceConfig`. -/
def batchOfFiveConfig : BaseConfig :=
  { sourceConfig with InfluxMaxBufferSize := 5, MysqlMaxBufferSize := 5 }

/-! ## The backend client (`influx/db.go`, `mysql/db.go`) -/

/-- Constant `dbStatusOk` (both packages). -/
def dbStatusOk : Nat := 1

/-- Constant `dbStatusErr` (both packages). -/
def dbStatusErr : Nat := 2

/-- Constant `dbStatusInit` (both packages). -/
def dbStatusInit : Nat := 3

/-- A backend handle (an `influxdb1-client` client, a `*sql.DB`), by identity. -/
abbrev Handle := Nat

/-- The mutable part of the struct `Client` of either package: the atomic
`status` word (zero in a new client) and the backend handle `dbClient`
(`none` is `nil`). -/
structure Client where
  status : Nat
  dbClient : Option Handle
  deriving DecidableEq, Repr

/-- A client as `NewClient` returns it: status zero, no handle. -/
def NewClient : Client := { status := 0, dbClient := none }

/-- What a call of `Client.Init` did: the client afterwards, the error
returned, and how many connect attempts (`initDb`, respectively `connDb`) it
made. -/
structure InitResult where
  client : Client
  err : GoError
  connects : Nat
  deriving DecidableEq, Repr

namespace influx

/-- What the InfluxDB server side answers during one `initDb`:
`newHTTPClient` is the result of `client.NewHTTPClient` (a handle, or `none`
for an error with a nil handle) and `createDbOk` says whether the
`create database` query returns without error. -/
structure Backend where
  newHTTPClient : Option Handle
  createDbOk : Bool
  deriving DecidableEq, Repr

/-- Method `Client.connect` (influx/db.go:56): the handle returned by
`NewHTTPClient` is stored before the error is looked at. -/
def Client.connect (dc : Client) (b : Backend) : Client × GoError :=
  match b.newHTTPClient with
  | some c => ({ dc with dbClient := some c }, none)
  | none => ({ dc with dbClient := none }, some "NewHTTPClient failed")

/-- Method `Client.ensureDatabase` (influx/db.go:68). -/
def Client.ensureDatabase (_dc : Client) (b : Backend) : GoError :=
  if b.createDbOk then none else some "创建数据库失败"

/-- Method `Client.initDb` (influx/db.go:87): connect, then ensure the
database exists. -/
def Client.initDb (dc : Client) (b : Backend) : Client × GoError :=
  match Client.connect dc b with
  | (dc1, some e) => (dc1, some ("connect " ++ e))
  | (dc1, none) =>
    match Client.ensureDatabase dc1 b with
    | some e => (dc1, some ("ensureDatabase " ++ e))
    | none => (dc1, none)

/-- Method `Client.Init` (influx/db.go:101), run by one caller at a time: the
two status checks, the same two checks again under the lock, then the
attempt bracketed by the stores of `dbStatusInit` and of the outcome. -/
def Client.Init (dc : Client) (b : Backend) : InitResult :=
  if dc.status = dbStatusOk then { client := dc, err := none, connects := 0 }
  else if dc.status = dbStatusInit then
    { client := dc, err := some "influxdb init", connects := 0 }
  else if dc.status = dbStatusOk then { client := dc, err := none, connects := 0 }
  else if dc.status = dbStatusInit then
    { client := dc, err := some "influxdb init", connects := 0 }
  else
    let dc1 : Client := { dc with status := dbStatusInit }
    match Client.initDb dc1 b with
    | (dc2, none) =>
      { client := { dc2 with status := dbStatusOk }, err := none, connects := 1 }
    | (dc2, some _) =>
      { client := { dc2 with status := dbStatusErr },
        err := some "influxdb init error", connects := 1 }

/-- Whether a connect attempt against these answers succeeds: `NewHTTPClient`
returns a client and the `create database` query succeeds. -/
def Backend.ok (b : Backend) : Bool :=
  b.newHTTPClient.isSome && b.createDbOk

end influx

namespace mysql

/-- What the MySQL server side answers during one `connDb`: the first
`sql.Open` (`none` for an error), the `create database if not exists`
statement, the second `sql.Open` (on the database itself) and the final
`Ping`. -/
structure Backend where
  open1 : Option Handle
  createDbOk : Bool
  open2 : Option Handle
  pingOk : Bool
  deriving DecidableEq, Repr

/-- Method `Client.initDb` (mysql/db.go:91): run the
`create database if not exists` statement. -/
def Client.initDb (_dc : Client) (b : Backend) : GoError :=
  if b.createDbOk then none else some "create database failed"

/-- Method `Client.connDb` (mysql/db.go:56). -/
def Client.connDb (dc : Client) (b : Backend) : Client × GoError :=
  match b.open1 with
  | none => (dc, some "sql.Open failed")
  | some db =>
    let dc1 : Client := { dc with dbClient := some db }
    match Client.initDb dc1 b with
    | some e => (dc1, some e)
    | none =>
      match b.open2 with
      | none => (dc1, some "sql.Open failed")
      | some db2 =>
        let dc2 : Client := { dc1 with dbClient := some db2 }
        (dc2, if b.pingOk then none else some "ping failed")

/-- Method `Client.Init` (mysql/db.go:102), run by one caller at a time. -/
def Client.Init (dc : Client) (b : Backend) : InitResult :=
  if dc.status = dbStatusOk then { client := dc, err := none, connects := 0 }
  else if dc.status = dbStatusInit then
    { client := dc, err := some "mysqldb init", connects := 0 }
  else if dc.status = dbStatusOk then { client := dc, err := none, connects := 0 }
  else if dc.status = dbStatusInit then
    { client := dc, err := some "mysqldb init", connects := 0 }
  else
    let dc1 : Client := { dc with status := dbStatusInit }
    match Client.connDb dc1 b with
    | (dc2, none) =>
      { client := { dc2 with status := dbStatusOk }, err := none, connects := 1 }
    | (dc2, some _) =>
      { client := { dc2 with status := dbStatusErr },
        err := some "mysqldb init error", connects := 1 }

/-- Whether a connect attempt against these answers succeeds: both `sql.Open`
calls, the `create database` statement and the `Ping` succeed. -/
def Backend.ok (b : Backend) : Bool :=
  b.open1.isSome && b.createDbOk && b.open2.isSome && b.pingOk

end mysql

/-! ## The handler pool (`influx/pool.go`, `mysql/pool.go`) -/

/-- The struct `Handler` of either package. The channel is represented by the
sequence of values sent on it so far, oldest first; its capacity only decides
how long a sender waits. -/
structure Handler (α : Type) where
  client : Client
  channel : List α
  deriving DecidableEq, Repr

/-- The struct `Pool` of either package, for records of type `α`: the handler
array, the round-robin cursor, the time of the last flush and the database
name. The connection parameters, the debug flag and the logger, which the
write path only hands on, are left out. -/
structure Pool (α : Type) where
  dbHandlers : List (Handler α)
  currentIndex : Int
  lastWriteTime : Int
  db : String
  deriving DecidableEq, Repr

/-- Method `Pool.obtainHandler` (the same text in influx/pool.go:55 and
mysql/pool.go:73): the index of the handler returned, and the pool with the
cursor advanced. `none` is the run-time panic of an index outside the
handler array. -/
def Pool.obtainHandler {α : Type} (p : Pool α) : Option (Nat × Pool α) :=
  let cur : Int := if p.currentIndex ≥ (p.dbHandlers.length : Int) then 0 else p.currentIndex
  if 0 ≤ cur ∧ cur < (p.dbHandlers.length : Int) then
    some (cur.toNat, { p with currentIndex := cur + 1 })
  else none

/-- The channel send `handler.channel <- v` on the handler at index `i`. -/
def Pool.send {α : Type} (p : Pool α) (i : Nat) (v : α) : Pool α :=
  { p with dbHandlers :=
      p.dbHandlers.modify (fun h => { h with channel := h.channel ++ [v] }) i }

/-- A sequence of calls made one after the other on a state that a call may
crash (`none`): the state after the last call. -/
def runCalls {σ ι : Type} (f : σ → ι → Option σ) (s : σ) : List ι → Option σ
  | [] => some s
  | x :: xs =>
    match f s x with
    | none => none
    | some s1 => runCalls f s1 xs

/-- A call made by a flush loop on its handler's client. -/
inductive Call (α : Type) where
  | init (err : GoError)
  | write (records : List α) (err : GoError)
  deriving DecidableEq, Repr

/-- The batches handed to the batched write (`WriteBatch`, `RequestBatch`) in
a trace of calls, in the order of the calls. -/
def flushedBatches {α : Type} : List (Call α) → List (List α)
  | [] => []
  | Call.init _ :: cs => flushedBatches cs
  | Call.write records _ :: cs => records :: flushedBatches cs

/-- The variables one flush loop works on: its local `writeBuffer`, the
pool's `lastWriteTime` and the client of its handler. -/
structure FlushLoop (α : Type) where
  writeBuffer : List α
  lastWriteTime : Int
  client : Client
  deriving DecidableEq, Repr

/-- A flush loop when its goroutine starts: `var writeBuffer` is nil. -/
def FlushLoop.start {α : Type} (lastWriteTime : Int) (client : Client) : FlushLoop α :=
  { writeBuffer := [], lastWriteTime := lastWriteTime, client := client }

/-- What the pool's `lastWriteTime` holds when an iteration reads it: the
value another handler's loop of the same pool stored since this loop's
previous iteration, if any, else the value this loop saw last. -/
def seenLastWriteTime (own : Int) (otherFlush : Option Int) : Int :=
  match otherFlush with
  | some t => t
  | none => own

namespace influx

/-- The struct `Point` (influx/db.go:20). -/
structure Point where
  Measurement : String
  Tags : GoMap String String
  Fields : GoMap String Any
  Timestamp : Int
  deriving DecidableEq, Repr

/-- Function `NewPool` with `Pool.init` (influx/pool.go:34, 41): `poolSize`
handlers with a new client and an empty channel each, cursor zero, and
`lastWriteTime` set to the clock reading `now`. -/
def NewPool (poolSize : Nat) (dbname : String) (now : Int) : Pool Point :=
  { dbHandlers := List.replicate poolSize { client := NewClient, channel := [] },
    currentIndex := 0, lastWriteTime := now, db := dbname }

/-- The arguments of one `writeToInfluxDb` call. -/
structure WriteArgs where
  measurement : String
  tags : GoMap String String
  fields : GoMap String Any
  timestamp : Int
  deriving DecidableEq, Repr

/-- The `Point` that `writeToInfluxDb` builds from its arguments. -/
def WriteArgs.point (a : WriteArgs) : Point :=
  { Measurement := a.measurement, Tags := copyMap a.tags,
    Fields := copyMap a.fields, Timestamp := a.timestamp }

/-- Method `Pool.writeToInfluxDb` (influx/pool.go:66): copy the maps, obtain a
handler and send the point on its channel. The error returned is always
nil. -/
def Pool.writeToInfluxDb (idp : Pool Point) (a : WriteArgs) : Option (Pool Point) :=
  match Pool.obtainHandler idp with
  | none => none
  | some (i, idp1) => some (Pool.send idp1 i a.point)

/-- Method `Pool.canWriteBatch` (influx/pool.go:120), with the value of
`idp.lastWriteTime` and the reading of `time.Now()` as arguments. -/
def Pool.canWriteBatch {α : Type} (cfg : BaseConfig) (lastWriteTime now : Int)
    (writeBuffer : List α) : Bool :=
  decide ((writeBuffer.length : Int) ≥ cfg.InfluxMaxBufferSize) ||
    Time.After now (Time.Add lastWriteTime (secondsToDuration cfg.InfluxMaxIntervalTime))

/-- What one iteration of `handleInfluxDbChan` is given: the value received
from the channel, a flush of another handler in the meantime (see
`seenLastWriteTime`), the clock reading inside `canWriteBatch`, what the
backend answers should `Init` attempt to connect, the error `WriteBatch`
returns, and the clock reading stored in `lastWriteTime` after the write. -/
structure Received (α : Type) where
  value : α
  otherFlush : Option Int
  nowCheck : Int
  backend : Backend
  writeErr : GoError
  nowAfter : Int
  deriving DecidableEq, Repr

/-- One iteration of the loop of `Pool.handleInfluxDbChan` (influx/pool.go:93):
the loop variables afterwards and the calls made on the client. The result of
`Init` is dropped (`_ = handler.client.Init()`), the error of `WriteBatch` is
only logged. The iteration describes calls that return: a run-time panic inside
a call ends the process and the loop with it. -/
def Pool.handleInfluxDbChan.iteration {α : Type} (cfg : BaseConfig) (s : FlushLoop α)
    (r : Received α) : FlushLoop α × List (Call α) :=
  let last := seenLastWriteTime s.lastWriteTime r.otherFlush
  let writeBuffer := s.writeBuffer ++ [r.value]
  if !Pool.canWriteBatch cfg last r.nowCheck writeBuffer then
    ({ writeBuffer := writeBuffer, lastWriteTime := last, client := s.client }, [])
  else
    let buffer := writeBuffer
    let ir := Client.Init s.client r.backend
    ({ writeBuffer := [], lastWriteTime := r.nowAfter, client := ir.client },
      [Call.init ir.err, Call.write buffer r.writeErr])

/-- Method `Pool.handleInfluxDbChan` (influx/pool.go:91) over the values
received so far: the loop variables now and every call made, in order. -/
def Pool.handleInfluxDbChan {α : Type} (cfg : BaseConfig) (s : FlushLoop α) :
    List (Received α) → FlushLoop α × List (Call α)
  | [] => (s, [])
  | r :: rs =>
    let step := Pool.handleInfluxDbChan.iteration cfg s r
    let rest := Pool.handleInfluxDbChan cfg step.1 rs
    (rest.1, step.2 ++ rest.2)

/-- A point as added to the batch: what `client.NewPoint` was given. -/
structure BatchPoint where
  name : String
  tags : GoMap String String
  fields : GoMap String Any
  time : Int
  deriving DecidableEq, Repr

/-- The loop of `Client.WriteBatch` (influx/db.go:135) over the remaining
records, with the points added so far: `NewPoint` is given `startTime`, the
result of `startTime.Add(time.Duration(1))` is not assigned, and an error of
`NewPoint` (the verdict `newPointErr` of the library on the record) ends the
call. -/
def Client.WriteBatch.loop (newPointErr : Point → GoError) (startTime : Int)
    (bp : List BatchPoint) : List Point → Except String (List BatchPoint)
  | [] => .ok bp
  | r :: rs =>
    let p : BatchPoint :=
      { name := r.Measurement, tags := r.Tags, fields := r.Fields, time := startTime }
    let err := newPointErr r
    let _unused : Int := Time.Add startTime 1
    match err with
    | some e => .error e
    | none => Client.WriteBatch.loop newPointErr startTime (bp ++ [p]) rs

/-- Method `Client.WriteBatch` (influx/db.go:131): the batch handed to
`dbClient.Write` (`none` when the call returns before) and the error
returned. `startTime` is the reading of `time.Now()` and `writeErr` the answer
of `dbClient.Write`. -/
def Client.WriteBatch (newPointErr : Point → GoError) (startTime : Int)
    (writeErr : GoError) (records : List Point) : Option (List BatchPoint) × GoError :=
  match Client.WriteBatch.loop newPointErr startTime [] records with
  | .error e => (none, some e)
  | .ok bp => (some bp, writeErr)

/-- The registry of influx/init.go:20: the map `sharedDbPool`, whose values
point into `pools`, the pools constructed so far in construction order. -/
structure Registry where
  sharedDbPool : GoMap String Nat
  pools : List (Pool Point)
  deriving DecidableEq, Repr

/-- The registry when the package is loaded: an empty map, no pool. -/
def Registry.initial : Registry := { sharedDbPool := GoMap.empty, pools := [] }

/-- Function `obtainPool` (influx/init.go:23), run by one caller at a time:
the registry afterwards and the pool returned. `now` is the clock reading
`NewPool` takes if it is called. -/
def obtainPool (cfg : BaseConfig) (reg : Registry) (call : String × Int) : Registry × Nat :=
  match GoMap.get reg.sharedDbPool call.1 with
  | some pool => (reg, pool)
  | none =>
    let pool := reg.pools.length
    ({ sharedDbPool := GoMap.set reg.sharedDbPool call.1 pool,
       pools := reg.pools ++ [NewPool cfg.InfluxPoolSize call.1 call.2] }, pool)

/-- A sequence of `obtainPool` calls made one after the other: the registry
afterwards and the pools returned, in the order of the calls. -/
def obtainPools (cfg : BaseConfig) (reg : Registry) : List (String × Int) → Registry × List Nat
  | [] => (reg, [])
  | c :: cs =>
    let r := obtainPool cfg reg c
    let rest := obtainPools cfg r.1 cs
    (rest.1, r.2 :: rest.2)

end influx

namespace mysql

/-- The struct `InsertRequest` (mysql/db.go:21). -/
structure InsertRequest where
  Table : String
  Data : GoMap String Any
  deriving DecidableEq, Repr

/-- Function `NewPool` with `Pool.init` (mysql/pool.go:41, 61): `poolSize`
handlers with a new client and an empty channel each, cursor zero;
`lastWriteTime` is not assigned and stays the zero `time.Time`. -/
def NewPool (poolSize : Nat) (db : String) : Pool InsertRequest :=
  { dbHandlers := List.replicate poolSize { client := NewClient, channel := [] },
    currentIndex := 0, lastWriteTime := 0, db := db }

/-- The `InsertRequest` that `writeToMysqlDb` builds from its arguments. -/
def insertRequest (a : String × GoMap String Any) : InsertRequest :=
  { Table := a.1, Data := copyMap a.2 }

/-- Method `Pool.writeToMysqlDb` (mysql/pool.go:112): copy the map, obtain a
handler and send the request on its channel. The error returned is always
nil. -/
def Pool.writeToMysqlDb (mdp : Pool InsertRequest) (a : String × GoMap String Any) :
    Option (Pool InsertRequest) :=
  match Pool.obtainHandler mdp with
  | none => none
  | some (i, mdp1) => some (Pool.send mdp1 i (insertRequest a))

/-- Method `Pool.canInsertBatch` (mysql/pool.go:200), with the value of
`mdp.lastWriteTime` and the reading of `time.Now()` as arguments. -/
def Pool.canInsertBatch {α : Type} (cfg : BaseConfig) (lastWriteTime now : Int)
    (writeBuffer : List α) : Bool :=
  decide ((writeBuffer.length : Int) ≥ cfg.MysqlMaxBufferSize) ||
    Time.After now (Time.Add lastWriteTime (secondsToDuration cfg.MysqlMaxIntervalTime))

/-- What one iteration of `handleMysqlDbChan` is given: as for the influx
loop, with `writeErr` the error `RequestBatch` returns. -/
structure Received (α : Type) where
  value : α
  otherFlush : Option Int
  nowCheck : Int
  backend : Backend
  writeErr : GoError
  nowAfter : Int
  deriving DecidableEq, Repr

/-- One iteration of the loop of `Pool.handleMysqlDbChan` (mysql/pool.go:167):
the loop variables afterwards and the calls made on the client. An error of
`Init` or of `RequestBatch` is logged and followed by `continue`. -/
def Pool.handleMysqlDbChan.iteration {α : Type} (cfg : BaseConfig) (s : FlushLoop α)
    (r : Received α) : FlushLoop α × List (Call α) :=
  let last := seenLastWriteTime s.lastWriteTime r.otherFlush
  let writeBuffer := s.writeBuffer ++ [r.value]
  if !Pool.canInsertBatch cfg last r.nowCheck writeBuffer then
    ({ writeBuffer := writeBuffer, lastWriteTime := last, client := s.client }, [])
  else
    let buffer := writeBuffer
    let ir := Client.Init s.client r.backend
    match ir.err with
    | some e =>
      ({ writeBuffer := writeBuffer, lastWriteTime := last, client := ir.client },
        [Call.init (some e)])
    | none =>
      match r.writeErr with
      | some e =>
        ({ writeBuffer := writeBuffer, lastWriteTime := last, client := ir.client },
          [Call.init none, Call.write buffer (some e)])
      | none =>
        ({ writeBuffer := [], lastWriteTime := r.nowAfter, client := ir.client },
          [Call.init none, Call.write buffer none])

/-- Method `Pool.handleMysqlDbChan` (mysql/pool.go:165) over the values
received so far: the loop variables now and every call made, in order. -/
def Pool.handleMysqlDbChan {α : Type} (cfg : BaseConfig) (s : FlushLoop α) :
    List (Received α) → FlushLoop α × List (Call α)
  | [] => (s, [])
  | r :: rs =>
    let step := Pool.handleMysqlDbChan.iteration cfg s r
    let rest := Pool.handleMysqlDbChan cfg step.1 rs
    (rest.1, step.2 ++ rest.2)

end mysql

/-! ## config/init.go -/

/-- Function `strings.Split` on the characters of a string, for a separator of
one character: the pieces between the occurrences of `sep`, one more piece
than there are occurrences (the empty string gives one empty piece). -/
def splitChars (sep : Char) : List Char → List (List Char)
  | [] => [[]]
  | c :: cs =>
    if c = sep then [] :: splitChars sep cs
    else
      match splitChars sep cs with
      | [] => [[c]]
      | p :: ps => (c :: p) :: ps

/-- Function `strings.Split(s, sep)` for the one-character separators of the
source (`;`, `:`, `@`, `/`). -/
def strings.Split (s : String) (sep : Char) : List String :=
  (splitChars sep s.data).map String.mk

/-- Function `strings.Join(elems, sep)`. -/
def strings.Join : List String → String → String
  | [], _ => ""
  | [a], _ => a
  | a :: b :: rest, sep => a ++ sep ++ strings.Join (b :: rest) sep

namespace config

/-- The struct `InfluxDbConfig`. -/
structure InfluxDbConfig where
  Host : String
  Port : String
  deriving DecidableEq, Repr

/-- The struct `MysqlDbConfig`. -/
structure MysqlDbConfig where
  Host : String
  Port : String
  User : String
  Pwd : String
  deriving DecidableEq, Repr

/-- The struct `VenusDataConfig`; a new one holds zero values. -/
structure VenusDataConfig where
  KafkaBrokers : List String
  InfluxDb : InfluxDbConfig
  MysqlDb : MysqlDbConfig
  deriving DecidableEq, Repr

/-- Function `Init` (config/init.go:33) on the stored pointer `config.content`
(`none` is nil): the pointer afterwards and the error returned. The pointer is
assigned only on the last line. -/
def Init (content : Option VenusDataConfig) (kafka mysql influx : String) :
    Option VenusDataConfig × GoError :=
  let brokers := strings.Split kafka ';'
  match strings.Split influx ':' with
  | [influxHost, influxPort] =>
    match strings.Split mysql '@' with
    | [mysqlFull0, mysqlFull1] =>
      match strings.Split mysqlFull0 ':', strings.Split mysqlFull1 '/' with
      | [host, port], [user, pwd] =>
        (some { KafkaBrokers := brokers,
                InfluxDb := { Host := influxHost, Port := influxPort },
                MysqlDb := { Host := host, Port := port, User := user, Pwd := pwd } }, none)
      | _, _ => (content, some ("mysql 配置有误：" ++ mysql))
    | _ => (content, some ("mysql 配置有误：" ++ mysql))
  | _ => (content, some ("InfluxDB 配置不正确：" ++ influx))

/-- Function `Get` (config/init.go:68): the stored configuration; `none` is the
panic of dereferencing a nil `config.content`. -/
def Get (content : Option VenusDataConfig) : Option VenusDataConfig := content

end config

/-! ## The column types of mysql/db.go -/

namespace mysql

/-- Function `getColumnType` (mysql/db.go:335): a type switch on the dynamic
type of `value`; `key` says whether the column belongs to the union key. -/
def getColumnType (value : Any) (key : Bool) : String :=
  match value with
  | Any.int _ | Any.int8 _ | Any.int16 _ | Any.int32 _ | Any.int64 _ => "BIGINT"
  | Any.uint _ | Any.uint8 _ | Any.uint16 _ | Any.uint32 _ | Any.uint64 _ => "BIGINT UNSIGNED"
  | Any.float32 _ | Any.float64 _ => "FLOAT"
  | Any.bool _ => "BOOLEAN"
  | Any.string _ => if key then "VARCHAR(180)" else "VARCHAR(255)"
  | _ => "VARCHAR(255)"

/-- Function `getColumnType1` (mysql/db.go:422). -/
def getColumnType1 (value : Any) : String :=
  match value with
  | Any.int _ | Any.int8 _ | Any.int16 _ | Any.int32 _ | Any.int64 _ => "BIGINT"
  | Any.uint _ | Any.uint8 _ | Any.uint16 _ | Any.uint32 _ | Any.uint64 _ => "BIGINT UNSIGNED"
  | Any.float32 _ | Any.float64 _ => "DOUBLE"
  | Any.bool _ => "BOOLEAN"
  | Any.string _ => "VARCHAR(255)"
  | _ => "VARCHAR(255)"

end mysql

/-! ## The mysql client outside the flush loop (`mysql/db.go`, `mysql/pool.go`) -/

namespace mysql

/-- A call made on a mysql client, with the error it returned: `Init`, the
`CreateTable` statement, the insert statement of `WriteToDbBatch` for a table
and its rows, the delete statement of `clearInvalidData`. -/
inductive DbCall where
  | init (err : GoError)
  | createTable (sqlStatement : String) (err : GoError)
  | insert (table : String) (rows : List (GoMap String Any)) (err : GoError)
  | delete (table : String) (err : GoError)
  deriving DecidableEq, Repr

/-- The insert statements in a trace of calls: table, rows and outcome. -/
def inserts : List DbCall → List (String × List (GoMap String Any) × GoError)
  | [] => []
  | DbCall.insert table rows err :: cs => (table, rows, err) :: inserts cs
  | _ :: cs => inserts cs

/-- Method `Client.WriteToDbBatch` (mysql/db.go:207) as far as the backend
sees it: nothing for an empty list, else one insert statement for the table
with all the rows, whose outcome `exec` is the error returned. -/
def Client.WriteToDbBatch (exec : String → List (GoMap String Any) → GoError)
    (table : String) (data : List (GoMap String Any)) : GoError × List DbCall :=
  if data.length = 0 then (none, [])
  else (exec table data, [DbCall.insert table data (exec table data)])

/-- Method `Client.clearInvalidData` (mysql/db.go:286): nothing for the
database `venusdb`, else one delete statement whose outcome `clear` is the
error returned. -/
def Client.clearInvalidData (database : String) (clear : String → GoError)
    (table : String) : GoError × List DbCall :=
  if database = "venusdb" then (none, [])
  else (clear table, [DbCall.delete table (clear table)])

/-- The first loop of `Client.RequestBatch` (mysql/db.go:305): the map from
table to the data of its requests, in the order of the requests. -/
def Client.RequestBatch.group (requests : List InsertRequest) :
    GoMap String (List (GoMap String Any)) :=
  requests.foldl (fun requestMap req =>
    let requestMap1 :=
      match GoMap.get requestMap req.Table with
      | some _ => requestMap
      | none => GoMap.set requestMap req.Table []
    GoMap.set requestMap1 req.Table
      (((GoMap.get requestMap1 req.Table).getD []) ++ [req.Data])) GoMap.empty

/-- The second loop of `Client.RequestBatch` (mysql/db.go:313) over the entries
in the order they are visited: write the table, return at the first error,
else clear the table's old rows, whose error is only logged. -/
def Client.RequestBatch.write (database : String)
    (exec : String → List (GoMap String Any) → GoError) (clear : String → GoError) :
    List (String × List (GoMap String Any)) → GoError × List DbCall
  | [] => (none, [])
  | (table, dataMaps) :: rest =>
    match Client.WriteToDbBatch exec table dataMaps with
    | (some e, calls) => (some ("Failed to write to " ++ table ++ ": " ++ e), calls)
    | (none, calls) =>
      let cleared := Client.clearInvalidData database clear table
      let r := Client.RequestBatch.write database exec clear rest
      (r.1, calls ++ cleared.2 ++ r.2)

/-- Method `Client.RequestBatch` (mysql/db.go:302): the error returned and the
statements run. `visit` is the order in which `range requestMap` visits the
entries of the map, a permutation that Go leaves unspecified. -/
def Client.RequestBatch (database : String)
    (visit : GoMap String (List (GoMap String Any)) → List (String × List (GoMap String Any)))
    (exec : String → List (GoMap String Any) → GoError) (clear : String → GoError)
    (requests : List InsertRequest) : GoError × List DbCall :=
  Client.RequestBatch.write database exec clear (visit (Client.RequestBatch.group requests))

/-- What the MySQL server answers during one `createTable` call of a pool: the
answers to a connect attempt and the outcome of the statement. -/
structure CreateEnv where
  backend : Backend
  createErr : GoError
  deriving DecidableEq, Repr

/-- Method `Pool.createTable` (mysql/pool.go:128): obtain a handler, `Init` its
client, run the statement. The result is the pool afterwards, the error
returned and the calls made; `none` is a run-time panic. -/
def Pool.createTable {α : Type} (mdp : Pool α) (env : CreateEnv) (sqlStatement : String) :
    Option (Pool α × GoError × List DbCall) :=
  match Pool.obtainHandler mdp with
  | none => none
  | some (i, mdp1) =>
    match mdp1.dbHandlers[i]? with
    | none => none
    | some element =>
      let ir := Client.Init element.client env.backend
      let mdp2 : Pool α :=
        { mdp1 with dbHandlers :=
            mdp1.dbHandlers.modify (fun h => { h with client := ir.client }) i }
      match ir.err with
      | some e => some (mdp2, some ("初始化客户端失败: " ++ e), [DbCall.init (some e)])
      | none =>
        match env.createErr with
        | some e =>
          some (mdp2, some ("创建表失败: " ++ e),
            [DbCall.init none, DbCall.createTable sqlStatement (some e)])
        | none => some (mdp2, none, [DbCall.init none, DbCall.createTable sqlStatement none])

end mysql

/-! ## The mysql consumers (`mysql/init.go`, `mysql/general_init.go`) -/

namespace mysql

/-- Constant `poolSize` (mysql/init.go:19). -/
def poolSize : Nat := 80

/-- The struct `CreateTableMessage`. -/
structure CreateTableMessage where
  DbName : String
  TableName : String
  Sql : String
  deriving DecidableEq, Repr

/-- The struct `InsertMessage`. -/
structure InsertMessage where
  DbName : String
  TableName : String
  Data : GoMap String Any
  deriving DecidableEq, Repr

/-- The struct `CreateConsumer`: its map `pools`, whose values stand for the
pools pointed to (a pool is reached through this map only). -/
structure CreateConsumer where
  pools : GoMap String (Pool InsertRequest)
  deriving DecidableEq, Repr

/-- What `CreateConsumer.handle` and `Consume` return to the model: the
consumer afterwards, the package variable `createTableOnceMap` afterwards, the
error returned and the calls made on clients. -/
structure CreateResult where
  consumer : CreateConsumer
  createTableOnceMap : GoMap String Bool
  err : GoError
  calls : List DbCall
  deriving DecidableEq, Repr

/-- Method `CreateConsumer.handle` (mysql/init.go:54): find or construct the
pool of the database, run `createTable`, then mark the table name in
`createTableOnceMap`. `none` is a run-time panic. -/
def CreateConsumer.handle (cc : CreateConsumer) (createTableOnceMap : GoMap String Bool)
    (env : CreateEnv) (msg : CreateTableMessage) : Option CreateResult :=
  let found : Pool InsertRequest × CreateConsumer :=
    match GoMap.get cc.pools msg.DbName with
    | some pool => (pool, cc)
    | none =>
      let pool := NewPool poolSize msg.DbName
      (pool, { cc with pools := GoMap.set cc.pools msg.DbName pool })
  match Pool.createTable found.1 env msg.Sql with
  | none => none
  | some (pool1, _, calls) =>
    some { consumer := { pools := GoMap.set found.2.pools msg.DbName pool1 },
           createTableOnceMap := GoMap.set createTableOnceMap msg.TableName true,
           err := none, calls := calls }

/-- Method `CreateConsumer.Consume` (mysql/init.go:74) on the result of
`json.Unmarshal` of the message value (an error, or the decoded message). -/
def CreateConsumer.Consume (cc : CreateConsumer) (createTableOnceMap : GoMap String Bool)
    (env : CreateEnv) (decoded : Except String CreateTableMessage) : Option CreateResult :=
  match decoded with
  | .error e =>
    some { consumer := cc, createTableOnceMap := createTableOnceMap,
           err := some ("#CreateConsumer.Consume json 解析错误：" ++ e), calls := [] }
  | .ok ctMsg =>
    match GoMap.get createTableOnceMap ctMsg.TableName with
    | some _ =>
      some { consumer := cc, createTableOnceMap := createTableOnceMap, err := none, calls := [] }
    | none => CreateConsumer.handle cc createTableOnceMap env ctMsg

/-- Method `Pool.init` (mysql/pool.go:61) on a pool as a value: every slot of
the handler array is assigned a new handler with a new client and an empty
channel. -/
def Pool.init (mdp : Pool InsertRequest) : Pool InsertRequest :=
  { mdp with dbHandlers :=
      List.replicate mdp.dbHandlers.length { client := NewClient, channel := [] } }

/-- Function `GenerateCreateTableSQL` (mysql/db.go:440), with the columns in
the order the map is ranged over. -/
def GenerateCreateTableSQL (msg : InsertMessage) : String :=
  let columns := msg.Data.map (fun kv => "`" ++ kv.1 ++ "` " ++ getColumnType1 kv.2)
  let columns := columns ++ ["`create_at` DATETIME DEFAULT CURRENT_TIMESTAMP",
    "`update_at` DATETIME DEFAULT CURRENT_TIMESTAMP ON UPDATE CURRENT_TIMESTAMP"]
  "CREATE TABLE IF NOT EXISTS `" ++ msg.TableName ++ "` (" ++ strings.Join columns ", " ++ ");"

/-- The struct `ReaderConsumer` (mysql/general_init.go:12): its map `pools`. -/
structure ReaderConsumer where
  pools : GoMap String (Pool InsertRequest)
  deriving DecidableEq, Repr

/-- Method `ReaderConsumer.handlePlus` (mysql/general_init.go:45): find the
pool of the database or construct it (`NewPool` followed by `pool.init()`),
run `createTable` with the generated statement, then `writeToMysqlDb`. The
result is the consumer afterwards and the calls made on clients; `none` is a
run-time panic. -/
def ReaderConsumer.handlePlus (cfg : BaseConfig) (mc : ReaderConsumer) (env : CreateEnv)
    (msg : InsertMessage) : Option (ReaderConsumer × List DbCall) :=
  let pool : Pool InsertRequest :=
    match GoMap.get mc.pools msg.DbName with
    | some pool => pool
    | none => Pool.init (NewPool cfg.MysqlPoolSize msg.DbName)
  let createSql := GenerateCreateTableSQL msg
  match Pool.createTable pool env createSql with
  | none => none
  | some (pool1, _, calls) =>
    match Pool.writeToMysqlDb pool1 (msg.TableName, msg.Data) with
    | none => none
    | some pool2 => some ({ pools := GoMap.set mc.pools msg.DbName pool2 }, calls)

/-- A sequence of insert messages handled one after the other by
`ReaderConsumer.handlePlus`, each with the server's answers. -/
def ReaderConsumer.handleAll (cfg : BaseConfig) (mc : ReaderConsumer) :
    List (CreateEnv × InsertMessage) → Option ReaderConsumer
  | [] => some mc
  | (env, msg) :: rest =>
    match ReaderConsumer.handlePlus cfg mc env msg with
    | none => none
    | some (mc1, _) => ReaderConsumer.handleAll cfg mc1 rest

end mysql

/-! ## Handlers and flush loops as objects (`mysql/pool.go`) -/

namespace mysql

/-- One pool with the objects around it: every `Handler` constructed so far
(its address is its index), the pool's handler array (each slot nil or the
address of a handler), and, for every goroutine started by
`go mdp.handleMysqlDbChan(element)`, the address of the handler whose channel
that flush loop reads. -/
structure PoolHeap where
  handlers : List (Handler InsertRequest)
  dbHandlers : List (Option Nat)
  loops : List Nat
  deriving DecidableEq, Repr

/-- The body of the loop of `Pool.init` (mysql/pool.go:62) for slot `i`:
construct a handler, assign it to the slot, start its flush loop. -/
def PoolHeap.init.body (h : PoolHeap) (i : Nat) : PoolHeap :=
  let element := h.handlers.length
  { handlers := h.handlers ++ [{ client := NewClient, channel := [] }],
    dbHandlers := h.dbHandlers.set i (some element),
    loops := h.loops ++ [element] }

/-- The loop `for i := 0; i < len(mdp.dbHandlers); i++` of `Pool.init`, from
slot `i` with `n` slots to go. -/
def PoolHeap.init.loop (h : PoolHeap) (i : Nat) : Nat → PoolHeap
  | 0 => h
  | n + 1 => PoolHeap.init.loop (PoolHeap.init.body h i) (i + 1) n

/-- Method `Pool.init` (mysql/pool.go:61) on the objects of a pool. -/
def PoolHeap.init (h : PoolHeap) : PoolHeap :=
  PoolHeap.init.loop h 0 h.dbHandlers.length

/-- Function `NewPool` (mysql/pool.go:41) on the objects of a pool: an array of
`poolSize` nil slots, then `mdp.init()`. -/
def PoolHeap.NewPool (poolSize : Nat) : PoolHeap :=
  PoolHeap.init { handlers := [], dbHandlers := List.replicate poolSize none, loops := [] }

/-- The pool construction of `ReaderConsumer.handlePlus`, `InsertConsumer.handle`
and `ServeResourceReaderConsumer.handlePlus` for a database without a pool:
`pool = NewPool(poolSize, ...)` followed by `pool.init()`. -/
def PoolHeap.newPoolThenInit (poolSize : Nat) : PoolHeap :=
  PoolHeap.init (PoolHeap.NewPool poolSize)

end mysql

/-! ## The handlers of one pool side by side -/

/-- The flush loops of one pool: the pool's one `lastWriteTime` and, for each
handler, the `writeBuffer` of its loop and its client. -/
structure PoolLoops (α : Type) where
  lastWriteTime : Int
  loops : List (List α × Client)
  deriving DecidableEq, Repr

/-- One iteration of the influx flush loop of handler `i` within its pool: the
loop reads and writes the pool's `lastWriteTime`. -/
def influx.Pool.handlerReceives {α : Type} (cfg : BaseConfig) (s : PoolLoops α) (i : Nat)
    (r : influx.Received α) : PoolLoops α × List (Call α) :=
  match s.loops[i]? with
  | none => (s, [])
  | some (writeBuffer, client) =>
    let out := influx.Pool.handleInfluxDbChan.iteration cfg
      { writeBuffer := writeBuffer, lastWriteTime := s.lastWriteTime, client := client }
      { r with otherFlush := none }
    ({ lastWriteTime := out.1.lastWriteTime,
       loops := s.loops.set i (out.1.writeBuffer, out.1.client) }, out.2)

/-- One iteration of the mysql flush loop of handler `i` within its pool. -/
def mysql.Pool.handlerReceives {α : Type} (cfg : BaseConfig) (s : PoolLoops α) (i : Nat)
    (r : mysql.Received α) : PoolLoops α × List (Call α) :=
  match s.loops[i]? with
  | none => (s, [])
  | some (writeBuffer, client) =>
    let out := mysql.Pool.handleMysqlDbChan.iteration cfg
      { writeBuffer := writeBuffer, lastWriteTime := s.lastWriteTime, client := client }
      { r with otherFlush := none }
    ({ lastWriteTime := out.1.lastWriteTime,
       loops := s.loops.set i (out.1.writeBuffer, out.1.client) }, out.2)

/-! ## `Client.Init` called by several goroutines (`influx/db.go`, `mysql/db.go`) -/

/-- Where a goroutine stands in `Client.Init`: before the first load of the
status (`check1`), before the second (`check2`), before `dc.lock.Lock()`, then,
holding the lock, before the two repeated checks, before the store of
`dbStatusInit`, before the connect attempt, before the store of its outcome,
and before the deferred `Unlock` that precedes the return of `result`. -/
inductive InitPc where
  | check1
  | check2
  | lock
  | check3
  | check4
  | storeInit
  | attempt
  | storeResult (err : GoError)
  | unlock (result : GoError)
  | done (result : GoError)
  deriving DecidableEq, Repr

/-- Whether a goroutine at this point holds `dc.lock`. -/
def InitPc.holdsLock : InitPc → Bool
  | InitPc.check3 | InitPc.check4 | InitPc.storeInit | InitPc.attempt => true
  | InitPc.storeResult _ | InitPc.unlock _ => true
  | _ => false

/-- One client with the goroutines inside `Client.Init`: the client, the
holder of `dc.lock`, the point each goroutine has reached, and the number of
connect attempts (`initDb`, `connDb`) made so far. -/
structure InitRace where
  client : Client
  locked : Option Nat
  pc : Nat → InitPc
  connects : Nat

/-- The goroutines about to call `Init` on a client. -/
def InitRace.start (client : Client) : InitRace :=
  { client := client, locked := none, pc := fun _ => InitPc.check1, connects := 0 }

/-- Goroutine `t` moves to `pc`. -/
def InitRace.goto (s : InitRace) (t : Nat) (pc : InitPc) : InitRace :=
  { s with pc := fun u => if u = t then pc else s.pc u }

/-- One step of goroutine `t` in `Client.Init` (influx/db.go:101,
mysql/db.go:102). The loads and stores of the atomic status and the mutex
operations are the steps; a goroutine waiting for the lock does not move.
`attempt client k` is the connect attempt number `k` (from 0), `initDb` or
`connDb`; it is one step, during which the status stays `dbStatusInit`.
`busy` and `failed` are the two error texts. -/
def InitRace.step (attempt : Client → Nat → Client × GoError) (busy failed : String)
    (s : InitRace) (t : Nat) : InitRace :=
  match s.pc t with
  | InitPc.check1 =>
    if s.client.status = dbStatusOk then s.goto t (InitPc.done none) else s.goto t InitPc.check2
  | InitPc.check2 =>
    if s.client.status = dbStatusInit then s.goto t (InitPc.done (some busy))
    else s.goto t InitPc.lock
  | InitPc.lock =>
    match s.locked with
    | some _ => s
    | none => { s with locked := some t }.goto t InitPc.check3
  | InitPc.check3 =>
    if s.client.status = dbStatusOk then s.goto t (InitPc.unlock none)
    else s.goto t InitPc.check4
  | InitPc.check4 =>
    if s.client.status = dbStatusInit then s.goto t (InitPc.unlock (some busy))
    else s.goto t InitPc.storeInit
  | InitPc.storeInit =>
    { s with client := { s.client with status := dbStatusInit } }.goto t InitPc.attempt
  | InitPc.attempt =>
    { s with client := (attempt s.client s.connects).1, connects := s.connects + 1 }.goto t
      (InitPc.storeResult (attempt s.client s.connects).2)
  | InitPc.storeResult none =>
    { s with client := { s.client with status := dbStatusOk } }.goto t (InitPc.unlock none)
  | InitPc.storeResult (some _) =>
    { s with client := { s.client with status := dbStatusErr } }.goto t
      (InitPc.unlock (some failed))
  | InitPc.unlock result => { s with locked := none }.goto t (InitPc.done result)
  | InitPc.done _ => s

/-- The goroutines run in the order of `schedule`, one step at a time. -/
def InitRace.run (attempt : Client → Nat → Client × GoError) (busy failed : String)
    (s : InitRace) (schedule : List Nat) : InitRace :=
  schedule.foldl (InitRace.step attempt busy failed) s

/-- Goroutines in `Client.Init` of the influx client; `backends k` is what the
server answers to connect attempt `k`. -/
def influx.Client.Init.race (backends : Nat → influx.Backend) (s : InitRace)
    (schedule : List Nat) : InitRace :=
  InitRace.run (fun client k => influx.Client.initDb client (backends k))
    "influxdb init" "influxdb init error" s schedule

/-- Goroutines in `Client.Init` of the mysql client; `backends k` is what the
server answers to connect attempt `k`. -/
def mysql.Client.Init.race (backends : Nat → mysql.Backend) (s : InitRace)
    (schedule : List Nat) : InitRace :=
  InitRace.run (fun client k => mysql.Client.connDb client (backends k))
    "mysqldb init" "mysqldb init error" s schedule

/-- The invariant of the goroutines in `Client.Init`, for connect attempts
whose attempt number `k` succeeds exactly when `ok k`: the holder of the lock
is the one goroutine between `Lock` and `Unlock`; a goroutine past the
repeated `dbStatusOk` check has seen every attempt so far fail; so has
everyone when the status is not `dbStatusOk` and no outcome waits to be
stored; an outcome waiting to be stored is that of the latest attempt; and
every attempt but the latest has failed. -/
def InitRace.Inv (ok : Nat → Bool) (s : InitRace) : Prop :=
  (∀ t, (s.pc t).holdsLock = true ↔ s.locked = some t) ∧
  (∀ t, (s.pc t = InitPc.check4 ∨ s.pc t = InitPc.storeInit ∨ s.pc t = InitPc.attempt) →
    ∀ k, k < s.connects → ok k = false) ∧
  ((∀ t e, s.pc t ≠ InitPc.storeResult e) → s.client.status ≠ dbStatusOk →
    ∀ k, k < s.connects → ok k = false) ∧
  (∀ t e, s.pc t = InitPc.storeResult e →
    1 ≤ s.connects ∧ (e = none ↔ ok (s.connects - 1) = true)) ∧
  (∀ k, k + 1 < s.connects → ok k = false)

/-- Whether a goroutine at this point has yet to store `dbStatusInit`: it is
at one of the status checks or at `Lock`. -/
def InitPc.beforeAttempt : InitPc → Bool
  | InitPc.check1 | InitPc.check2 | InitPc.lock => true
  | InitPc.check3 | InitPc.check4 | InitPc.storeInit => true
  | _ => false

/-- What holds of the goroutines in `Client.Init` of a client that started
with status `st0` while no connect attempt has been made: either the status
is still `st0` and every goroutine is before its store of `dbStatusInit`, or
the status is `dbStatusInit`, one goroutine is about to connect, and every
other one is before that store or has returned. -/
def InitRace.Fresh (st0 : Nat) (s : InitRace) : Prop :=
  s.connects = 0 →
    (s.client.status = st0 ∧ ∀ u, (s.pc u).beforeAttempt = true) ∨
    (s.client.status = dbStatusInit ∧ (∃ h, s.pc h = InitPc.attempt) ∧
      ∀ u, (s.pc u).beforeAttempt = true ∨ s.pc u = InitPc.attempt ∨
        ∃ r, s.pc u = InitPc.done r)

/-! ## The insert statement of `WriteToDbBatch` (`mysql/db.go`) -/

/-- Function `strings.ReplaceAll(s, old, new)` for `old` and `new` of one
character each. -/
def strings.ReplaceAll (s : String) (old new : Char) : String :=
  String.mk (s.data.map (fun c => if c = old then new else c))

namespace mysql

/-- Function `fixDbName` (mysql/db.go:414): blanks, hyphens and slashes become
underscores. -/
def fixDbName (str : String) : String :=
  let str := strings.ReplaceAll str ' ' '_'
  let str := strings.ReplaceAll str '-' '_'
  let str := strings.ReplaceAll str '/' '_'
  str

/-- The first loop of `Client.WriteToDbBatch` (mysql/db.go:212): the column
names, from the keys of the first row in the order `visit` in which
`range data[0]` yields its entries. -/
def Client.WriteToDbBatch.columns (visit : GoMap String Any → List (String × Any))
    (first : GoMap String Any) : List String :=
  (visit first).map (fun kv => fixDbName kv.1)

/-- The loop building `updates` (mysql/db.go:221). -/
def Client.WriteToDbBatch.updates (columns : List String) : List String :=
  columns.map (fun column => column ++ " = VALUES(" ++ column ++ ")")

/-- The inner loop of `Client.WriteToDbBatch` (mysql/db.go:227) for one row:
the values appended, `row[column]` for every column (nil for a key the row
does not have). -/
def Client.WriteToDbBatch.rowValues (columns : List String) (row : GoMap String Any) :
    List Any :=
  columns.map (fun column => (GoMap.get row column).getD Any.nil)

/-- The inner loop of `Client.WriteToDbBatch` for one row: its placeholders. -/
def Client.WriteToDbBatch.placeholders (columns : List String) : List String :=
  columns.map (fun _ => "?")

/-- The outer loop of `Client.WriteToDbBatch` (mysql/db.go:225): the bound
values of all rows, row after row. -/
def Client.WriteToDbBatch.values (columns : List String) (data : List (GoMap String Any)) :
    List Any :=
  (data.map (Client.WriteToDbBatch.rowValues columns)).flatten

/-- The outer loop of `Client.WriteToDbBatch`: one parenthesised group of
placeholders for every row. -/
def Client.WriteToDbBatch.placeholderGroups (columns : List String)
    (data : List (GoMap String Any)) : List String :=
  data.map (fun _ =>
    "(" ++ strings.Join (Client.WriteToDbBatch.placeholders columns) ", " ++ ")")

/-- The arguments `Client.WriteToDbBatch` (mysql/db.go:207) passes to
`dc.dbClient.Exec`: the statement text and the bound values; `none` for an
empty list, for which it returns nil without a statement. -/
def Client.WriteToDbBatch.statement (database : String)
    (visit : GoMap String Any → List (String × Any)) (table : String)
    (data : List (GoMap String Any)) : Option (String × List Any) :=
  match data with
  | [] => none
  | first :: _ =>
    let columns := Client.WriteToDbBatch.columns visit first
    let placeholderGroups := Client.WriteToDbBatch.placeholderGroups columns data
    let updates := Client.WriteToDbBatch.updates columns
    let values := Client.WriteToDbBatch.values columns data
    some ("INSERT INTO " ++ database ++ "." ++ table ++ " (" ++ strings.Join columns ", " ++
        ") VALUES " ++ strings.Join placeholderGroups ", " ++ " ON DUPLICATE KEY UPDATE " ++
        strings.Join updates ", ", values)

/-- Function `NewCreateConsumer` (mysql/init.go:96): a consumer with an empty
map of pools. -/
def NewCreateConsumer : CreateConsumer := { pools := GoMap.empty }

/-- A sequence of messages consumed one after the other by
`CreateConsumer.Consume`, each with the server's answers and the result of
decoding it: the consumer and `createTableOnceMap` afterwards, and the calls
made on clients. `none` is a run-time panic. -/
def CreateConsumer.consumeAll (cc : CreateConsumer) (createTableOnceMap : GoMap String Bool) :
    List (CreateEnv × Except String CreateTableMessage) →
      Option (CreateConsumer × GoMap String Bool × List DbCall)
  | [] => some (cc, createTableOnceMap, [])
  | (env, decoded) :: rest =>
    match CreateConsumer.Consume cc createTableOnceMap env decoded with
    | none => none
    | some r =>
      match CreateConsumer.consumeAll r.consumer r.createTableOnceMap rest with
      | none => none
      | some (cc1, once1, calls) => some (cc1, once1, r.calls ++ calls)

end mysql

/-! ## Pools that `obtainHandler` can serve -/

/-- A pool whose handler array is not empty and whose cursor is not negative:
`obtainHandler` on such a pool returns a handler instead of crashing. -/
def Pool.Allocated {α : Type} (p : Pool α) : Prop :=
  0 < p.dbHandlers.length ∧ 0 ≤ p.currentIndex

instance {α : Type} (p : Pool α) : Decidable (Pool.Allocated p) := by
  unfold Pool.Allocated
  exact inferInstance

/-- A create consumer all of whose pools can serve `obtainHandler`. -/
def mysql.CreateConsumer.Allocated (cc : mysql.CreateConsumer) : Prop :=
  ∀ entry ∈ cc.pools, Pool.Allocated entry.2

instance (cc : mysql.CreateConsumer) : Decidable (mysql.CreateConsumer.Allocated cc) := by
  unfold mysql.CreateConsumer.Allocated
  exact inferInstance

/-! ## Sample inputs -/

/-- A Ready client holding backend handle 1. -/
def readyClient : Client := { status := dbStatusOk, dbClient := some 1 }

/-- A value received by an influx flush loop while no other handler flushes,
with the clock reading `now` both at the check and after the write, a server
that accepts a connection, and `writeErr` as the outcome of `WriteBatch`. -/
def influx.received {α : Type} (v : α) (now : Int) (writeErr : GoError) : influx.Received α :=
  { value := v, otherFlush := none, nowCheck := now,
    backend := { newHTTPClient := some 1, createDbOk := true },
    writeErr := writeErr, nowAfter := now }

/-- A value received by a mysql flush loop while no other handler flushes,
with the clock reading `now` both at the check and after the write, a server
that accepts a connection, and `writeErr` as the outcome of `RequestBatch`. -/
def mysql.received {α : Type} (v : α) (now : Int) (writeErr : GoError) : mysql.Received α :=
  { value := v, otherFlush := none, nowCheck := now,
    backend := { open1 := some 1, createDbOk := true, open2 := some 2, pingOk := true },
    writeErr := writeErr, nowAfter := now }

/-! ## Lemmas on the Go primitives -/

theorem wrapInt64_of_mem {x : Int} (h1 : -(2 ^ 63) ≤ x) (h2 : x < 2 ^ 63) : wrapInt64 x = x := by
  unfold wrapInt64
  have h : (x + 2 ^ 63) % 2 ^ 64 = x + 2 ^ 63 := Int.emod_eq_of_lt (by omega) (by omega)
  omega

theorem secondsToDuration_small {n : Int} (h0 : 0 ≤ n) (h1 : n ≤ 9223372036) :
    secondsToDuration n = n * 1000000000 := by
  unfold secondsToDuration Second
  rw [wrapInt64_of_mem (x := n) (by omega) (by omega), wrapInt64_of_mem (by omega) (by omega)]

theorem time_after_iff (t u : Int) : Time.After t u = true ↔ u < t := by
  simp [Time.After]

/-! ## The flush predicate -/

theorem influx_canWriteBatch_iff {α : Type} (cfg : BaseConfig) (last now : Int)
    (buf : List α) :
    influx.Pool.canWriteBatch cfg last now buf = true ↔
      (cfg.InfluxMaxBufferSize ≤ (buf.length : Int) ∨
        now - last > secondsToDuration cfg.InfluxMaxIntervalTime) := by
  unfold influx.Pool.canWriteBatch Time.After Time.Add
  simp only [Bool.or_eq_true, decide_eq_true_eq, ge_iff_le, gt_iff_lt]
  constructor <;> rintro (h | h) <;> first | exact Or.inl h | (right; omega)

theorem mysql_canInsertBatch_iff {α : Type} (cfg : BaseConfig) (last now : Int)
    (buf : List α) :
    mysql.Pool.canInsertBatch cfg last now buf = true ↔
      (cfg.MysqlMaxBufferSize ≤ (buf.length : Int) ∨
        now - last > secondsToDuration cfg.MysqlMaxIntervalTime) := by
  unfold mysql.Pool.canInsertBatch Time.After Time.Add
  simp only [Bool.or_eq_true, decide_eq_true_eq, ge_iff_le, gt_iff_lt]
  constructor <;> rintro (h | h) <;> first | exact Or.inl h | (right; omega)

/-- C3 (as stated, refuted): with the source's thresholds (5000 records and 5 s
for influx, 10 records and 10 s for mysql), an empty buffer and exactly the
interval elapsed since the last write, `now - lastWriteTime >= maxInterval`
holds and yet neither predicate asks for a flush. -/
theorem C3_counterexample :
    (5000000000 : Int) - 0 ≥ secondsToDuration sourceConfig.InfluxMaxIntervalTime ∧
    influx.Pool.canWriteBatch sourceConfig 0 5000000000 ([] : List Nat) = false ∧
    (10000000000 : Int) - 0 ≥ secondsToDuration sourceConfig.MysqlMaxIntervalTime ∧
    mysql.Pool.canInsertBatch sourceConfig 0 10000000000 ([] : List Nat) = false := by
  have h5 : secondsToDuration sourceConfig.InfluxMaxIntervalTime = 5000000000 := by
    rw [show sourceConfig.InfluxMaxIntervalTime = 5 from rfl, secondsToDuration_small] <;> norm_num
  have h10 : secondsToDuration sourceConfig.MysqlMaxIntervalTime = 10000000000 := by
    rw [show sourceConfig.MysqlMaxIntervalTime = 10 from rfl, secondsToDuration_small] <;> norm_num
  refine ⟨by rw [h5]; norm_num, ?_, by rw [h10]; norm_num, ?_⟩
  · rw [← Bool.not_eq_true, influx_canWriteBatch_iff, h5]
    simp [sourceConfig]
  · rw [← Bool.not_eq_true, mysql_canInsertBatch_iff, h10]
    simp [sourceConfig]

/-- C3 (amended): `canWriteBatch` and `canInsertBatch` are true exactly when
the buffer holds at least `maxBatchSize` records or strictly more than the
interval has passed since `lastWriteTime`; a buffer shorter than
`maxBatchSize` is not flushed at `now = lastWriteTime + maxInterval`. -/
theorem C3_flush_predicate {α : Type} (cfg : BaseConfig) (last now : Int) (buf : List α) :
    (influx.Pool.canWriteBatch cfg last now buf = true ↔
      ((buf.length : Int) ≥ cfg.InfluxMaxBufferSize ∨
        now - last > secondsToDuration cfg.InfluxMaxIntervalTime)) ∧
    (mysql.Pool.canInsertBatch cfg last now buf = true ↔
      ((buf.length : Int) ≥ cfg.MysqlMaxBufferSize ∨
        now - last > secondsToDuration cfg.MysqlMaxIntervalTime)) ∧
    (((buf.length : Int) < cfg.InfluxMaxBufferSize ∧
        now = last + secondsToDuration cfg.InfluxMaxIntervalTime) →
      influx.Pool.canWriteBatch cfg last now buf = false) ∧
    (((buf.length : Int) < cfg.MysqlMaxBufferSize ∧
        now = last + secondsToDuration cfg.MysqlMaxIntervalTime) →
      mysql.Pool.canInsertBatch cfg last now buf = false) := by
  refine ⟨influx_canWriteBatch_iff cfg last now buf, mysql_canInsertBatch_iff cfg last now buf,
    ?_, ?_⟩
  · rintro ⟨h1, h2⟩
    rw [← Bool.not_eq_true, influx_canWriteBatch_iff]
    omega
  · rintro ⟨h1, h2⟩
    rw [← Bool.not_eq_true, mysql_canInsertBatch_iff]
    omega

/-! ## The lazy initialisation of the client -/

theorem influx_initDb_err (dc : Client) (b : influx.Backend) :
    (influx.Client.initDb dc b).2 = none ↔ b.ok = true := by
  rcases b with ⟨_ | c, _ | _⟩ <;>
    simp [influx.Client.initDb, influx.Client.connect, influx.Client.ensureDatabase,
      influx.Backend.ok]

theorem mysql_connDb_err (dc : Client) (b : mysql.Backend) :
    (mysql.Client.connDb dc b).2 = none ↔ b.ok = true := by
  rcases b with ⟨_ | c, _ | _, _ | d, _ | _⟩ <;>
    simp [mysql.Client.connDb, mysql.Client.initDb, mysql.Backend.ok]

theorem influx_Init_attempt (dc : Client) (b : influx.Backend)
    (h1 : dc.status ≠ dbStatusOk) (h3 : dc.status ≠ dbStatusInit) :
    (influx.Client.Init dc b).connects = 1 ∧
    (influx.Client.Init dc b).client.status = (if b.ok then dbStatusOk else dbStatusErr) ∧
    ((influx.Client.Init dc b).err = none ↔ b.ok = true) := by
  have key := influx_initDb_err { dc with status := dbStatusInit } b
  unfold influx.Client.Init
  simp only [h1, h3, if_false]
  rcases hres : influx.Client.initDb { dc with status := dbStatusInit } b with ⟨dc2, _ | e⟩
  · rw [hres] at key
    have hok : b.ok = true := key.mp rfl
    simp [hok]
  · rw [hres] at key
    have hok : ¬ b.ok = true := fun hb => by simpa using key.mpr hb
    simp [hok]

theorem mysql_Init_attempt (dc : Client) (b : mysql.Backend)
    (h1 : dc.status ≠ dbStatusOk) (h3 : dc.status ≠ dbStatusInit) :
    (mysql.Client.Init dc b).connects = 1 ∧
    (mysql.Client.Init dc b).client.status = (if b.ok then dbStatusOk else dbStatusErr) ∧
    ((mysql.Client.Init dc b).err = none ↔ b.ok = true) := by
  have key := mysql_connDb_err { dc with status := dbStatusInit } b
  unfold mysql.Client.Init
  simp only [h1, h3, if_false]
  rcases hres : mysql.Client.connDb { dc with status := dbStatusInit } b with ⟨dc2, _ | e⟩
  · rw [hres] at key
    have hok : b.ok = true := key.mp rfl
    simp [hok]
  · rw [hres] at key
    have hok : ¬ b.ok = true := fun hb => by simpa using key.mpr hb
    simp [hok]

theorem status_retry_of (dc : Client) (h : dc.status = 0 ∨ dc.status = dbStatusErr) :
    dc.status ≠ dbStatusOk ∧ dc.status ≠ dbStatusInit := by
  rcases h with h | h <;> rw [h] <;> decide

/-- C7: `Client.Init` of either package, on a client whose status is zero
(uninitialised) or `dbStatusErr` (failed), makes exactly one connect attempt
and ends Ready with a nil result when the attempt succeeds, Failed with an
error when it fails, never Initializing; after a failed attempt a second
`Init` whose attempt succeeds leaves the client Ready. The attempt succeeds
(`Backend.ok`) exactly when `initDb`, respectively `connDb`, returns nil. -/
theorem C7_init_attempts_once_and_failed_is_not_terminal (dc : Client)
    (h : dc.status = 0 ∨ dc.status = dbStatusErr)
    (bi bi2 : influx.Backend) (bm bm2 : mysql.Backend) :
    ((influx.Client.Init dc bi).connects = 1 ∧
      (bi.ok = true → (influx.Client.Init dc bi).client.status = dbStatusOk ∧
        (influx.Client.Init dc bi).err = none) ∧
      (bi.ok = false → (influx.Client.Init dc bi).client.status = dbStatusErr ∧
        (influx.Client.Init dc bi).err ≠ none) ∧
      (influx.Client.Init dc bi).client.status ≠ dbStatusInit ∧
      (bi.ok = false → bi2.ok = true →
        (influx.Client.Init (influx.Client.Init dc bi).client bi2).client.status = dbStatusOk ∧
        (influx.Client.Init (influx.Client.Init dc bi).client bi2).err = none ∧
        (influx.Client.Init (influx.Client.Init dc bi).client bi2).connects = 1) ∧
      (bi.ok = true ↔
        (influx.Client.initDb { dc with status := dbStatusInit } bi).2 = none)) ∧
    ((mysql.Client.Init dc bm).connects = 1 ∧
      (bm.ok = true → (mysql.Client.Init dc bm).client.status = dbStatusOk ∧
        (mysql.Client.Init dc bm).err = none) ∧
      (bm.ok = false → (mysql.Client.Init dc bm).client.status = dbStatusErr ∧
        (mysql.Client.Init dc bm).err ≠ none) ∧
      (mysql.Client.Init dc bm).client.status ≠ dbStatusInit ∧
      (bm.ok = false → bm2.ok = true →
        (mysql.Client.Init (mysql.Client.Init dc bm).client bm2).client.status = dbStatusOk ∧
        (mysql.Client.Init (mysql.Client.Init dc bm).client bm2).err = none ∧
        (mysql.Client.Init (mysql.Client.Init dc bm).client bm2).connects = 1) ∧
      (bm.ok = true ↔
        (mysql.Client.connDb { dc with status := dbStatusInit } bm).2 = none)) := by
  obtain ⟨h1, h3⟩ := status_retry_of dc h
  obtain ⟨ic, is, ie⟩ := influx_Init_attempt dc bi h1 h3
  obtain ⟨mc, ms, me⟩ := mysql_Init_attempt dc bm h1 h3
  refine ⟨⟨ic, ?_, ?_, ?_, ?_, (influx_initDb_err _ bi).symm⟩,
    ⟨mc, ?_, ?_, ?_, ?_, (mysql_connDb_err _ bm).symm⟩⟩
  · intro hok
    exact ⟨by rw [is, if_pos hok], ie.mpr hok⟩
  · intro hok
    have hno : ¬ bi.ok = true := by simp [hok]
    exact ⟨by rw [is, if_neg hno], fun he => hno (ie.mp he)⟩
  · rw [is]
    split <;> decide
  · intro hok hok2
    have hno : ¬ bi.ok = true := by simp [hok]
    have hs : (influx.Client.Init dc bi).client.status = dbStatusErr := by rw [is, if_neg hno]
    obtain ⟨c2, s2, e2⟩ := influx_Init_attempt (influx.Client.Init dc bi).client bi2
      (by rw [hs]; decide) (by rw [hs]; decide)
    exact ⟨by rw [s2, if_pos hok2], e2.mpr hok2, c2⟩
  · intro hok
    exact ⟨by rw [ms, if_pos hok], me.mpr hok⟩
  · intro hok
    have hno : ¬ bm.ok = true := by simp [hok]
    exact ⟨by rw [ms, if_neg hno], fun he => hno (me.mp he)⟩
  · rw [ms]
    split <;> decide
  · intro hok hok2
    have hno : ¬ bm.ok = true := by simp [hok]
    have hs : (mysql.Client.Init dc bm).client.status = dbStatusErr := by rw [ms, if_neg hno]
    obtain ⟨c2, s2, e2⟩ := mysql_Init_attempt (mysql.Client.Init dc bm).client bm2
      (by rw [hs]; decide) (by rw [hs]; decide)
    exact ⟨by rw [s2, if_pos hok2], e2.mpr hok2, c2⟩

/-- C7 at a new client: the server refuses the first attempt (the
`create database` query fails, respectively the `Ping` fails) and accepts the
second. -/
theorem C7_witness :
    (NewClient.status = 0 ∨ NewClient.status = dbStatusErr) ∧
    (influx.Client.Init NewClient ⟨some 7, false⟩).client.status = dbStatusErr ∧
    (influx.Client.Init (influx.Client.Init NewClient ⟨some 7, false⟩).client
      ⟨some 8, true⟩).client = { status := dbStatusOk, dbClient := some 8 } ∧
    (mysql.Client.Init NewClient ⟨some 1, true, some 2, false⟩).client.status = dbStatusErr ∧
    (mysql.Client.Init (mysql.Client.Init NewClient ⟨some 1, true, some 2, false⟩).client
      ⟨some 3, true, some 4, true⟩).client = { status := dbStatusOk, dbClient := some 4 } :=
  have h := C7_init_attempts_once_and_failed_is_not_terminal NewClient (Or.inl rfl)
    ⟨some 7, false⟩ ⟨some 8, true⟩ ⟨some 1, true, some 2, false⟩ ⟨some 3, true, some 4, true⟩
  ⟨Or.inl rfl, (h.1.2.2.1 rfl).1, by decide, (h.2.2.2.1 rfl).1, by decide⟩

/-- C8: `Client.Init` of either package on a Ready client returns nil, and on
an Initializing client returns an error; in both cases it makes no connect
attempt and the client (status and backend handle) is what it was. -/
theorem C8_init_ready_and_initializing_are_no_ops (handle : Option Handle)
    (bi : influx.Backend) (bm : mysql.Backend) :
    influx.Client.Init { status := dbStatusOk, dbClient := handle } bi =
      { client := { status := dbStatusOk, dbClient := handle }, err := none, connects := 0 } ∧
    influx.Client.Init { status := dbStatusInit, dbClient := handle } bi =
      { client := { status := dbStatusInit, dbClient := handle },
        err := some "influxdb init", connects := 0 } ∧
    mysql.Client.Init { status := dbStatusOk, dbClient := handle } bm =
      { client := { status := dbStatusOk, dbClient := handle }, err := none, connects := 0 } ∧
    mysql.Client.Init { status := dbStatusInit, dbClient := handle } bm =
      { client := { status := dbStatusInit, dbClient := handle },
        err := some "mysqldb init", connects := 0 } := by
  refine ⟨?_, ?_, ?_, ?_⟩ <;> simp [influx.Client.Init, mysql.Client.Init, dbStatusOk, dbStatusInit]

/-! ## The timestamps of a batch -/

theorem influx_WriteBatch_loop_time (newPointErr : influx.Point → GoError) (startTime : Int)
    (records : List influx.Point) :
    ∀ (acc out : List influx.BatchPoint), (∀ p ∈ acc, p.time = startTime) →
      influx.Client.WriteBatch.loop newPointErr startTime acc records = .ok out →
      ∀ p ∈ out, p.time = startTime := by
  induction records with
  | nil =>
    intro acc out hacc h
    simp only [influx.Client.WriteBatch.loop, Except.ok.injEq] at h
    subst h
    exact hacc
  | cons r rs ih =>
    intro acc out hacc h
    simp only [influx.Client.WriteBatch.loop] at h
    cases hr : newPointErr r with
    | some e => simp [hr] at h
    | none =>
      rw [hr] at h
      refine ih _ out ?_ h
      intro p hp
      rcases List.mem_append.mp hp with hp | hp
      · exact hacc p hp
      · simp only [List.mem_singleton] at hp
        rw [hp]

/-- C9 (the code differs): in `Client.WriteBatch` the result of
`startTime.Add(time.Duration(1))` is dropped, so every point of a batch gets
the one reading of `time.Now()`: for a batch of two valid points written at
instant 1000 both timestamps are 1000, the second is not later than the
first. -/
theorem C9_writeBatch_gives_every_point_the_same_timestamp :
    (influx.Client.WriteBatch (fun _ => none) 1000 none
      [{ Measurement := "cpu", Tags := [], Fields := [("load", Any.float64 1)], Timestamp := 0 },
       { Measurement := "cpu", Tags := [], Fields := [("load", Any.float64 2)], Timestamp := 0 }]).1
      = some [{ name := "cpu", tags := [], fields := [("load", Any.float64 1)], time := 1000 },
              { name := "cpu", tags := [], fields := [("load", Any.float64 2)], time := 1000 }] ∧
    (∀ (newPointErr : influx.Point → GoError) (startTime : Int) (writeErr : GoError)
        (records : List influx.Point) (bp : List influx.BatchPoint),
      (influx.Client.WriteBatch newPointErr startTime writeErr records).1 = some bp →
        ∀ p ∈ bp, p.time = startTime) := by
  refine ⟨by decide, ?_⟩
  intro newPointErr startTime writeErr records bp h
  unfold influx.Client.WriteBatch at h
  cases hl : influx.Client.WriteBatch.loop newPointErr startTime [] records with
  | error e => simp [hl] at h
  | ok out =>
    rw [hl] at h
    simp only [Option.some.injEq] at h
    subst h
    exact influx_WriteBatch_loop_time newPointErr startTime records [] out (by simp) hl

/-! ## The influx flush loop keeps the sequence of records -/

theorem flushedBatches_append {α : Type} (a b : List (Call α)) :
    flushedBatches (a ++ b) = flushedBatches a ++ flushedBatches b := by
  induction a with
  | nil => rfl
  | cons c cs ih =>
    cases c with
    | init e => simpa [flushedBatches] using ih
    | write records e => simp [flushedBatches, ih]

theorem influx_iteration_conserves {α : Type} (cfg : BaseConfig) (s : FlushLoop α)
    (r : influx.Received α) :
    (flushedBatches (influx.Pool.handleInfluxDbChan.iteration cfg s r).2).flatten ++
        (influx.Pool.handleInfluxDbChan.iteration cfg s r).1.writeBuffer =
      s.writeBuffer ++ [r.value] := by
  unfold influx.Pool.handleInfluxDbChan.iteration
  by_cases h : influx.Pool.canWriteBatch cfg (seenLastWriteTime s.lastWriteTime r.otherFlush)
      r.nowCheck (s.writeBuffer ++ [r.value]) = true
  · simp [h, flushedBatches]
  · simp [h, flushedBatches]

theorem influx_loop_conserves {α : Type} (cfg : BaseConfig) (rs : List (influx.Received α)) :
    ∀ s : FlushLoop α,
      (flushedBatches (influx.Pool.handleInfluxDbChan cfg s rs).2).flatten ++
          (influx.Pool.handleInfluxDbChan cfg s rs).1.writeBuffer =
        s.writeBuffer ++ rs.map (fun r => r.value) := by
  induction rs with
  | nil => intro s; simp [influx.Pool.handleInfluxDbChan, flushedBatches]
  | cons r rs ih =>
    intro s
    have h1 := influx_iteration_conserves cfg s r
    have h2 := ih (influx.Pool.handleInfluxDbChan.iteration cfg s r).1
    simp only [influx.Pool.handleInfluxDbChan, flushedBatches_append, List.flatten_append,
      List.map_cons, List.append_assoc]
    rw [h2, ← List.append_assoc, h1]
    simp

/-- C1: for every sequence of values received by one influx flush loop, with
any clock readings, any flushes by other handlers and any outcomes of `Init`
and `WriteBatch`, the batches passed to `WriteBatch`, concatenated in the order
of the calls and followed by the accumulation buffer, are the received
sequence in its order; when the received records are pairwise distinct, no
record is in two batches nor in a batch and in the buffer. -/
theorem C1_influx_flushes_keep_the_received_sequence {α : Type} (cfg : BaseConfig)
    (lastWriteTime : Int) (client : Client) (rs : List (influx.Received α)) :
    (flushedBatches (influx.Pool.handleInfluxDbChan cfg
          (FlushLoop.start lastWriteTime client) rs).2).flatten ++
        (influx.Pool.handleInfluxDbChan cfg
          (FlushLoop.start lastWriteTime client) rs).1.writeBuffer =
      rs.map (fun r => r.value) ∧
    ((rs.map (fun r => r.value)).Nodup →
      (flushedBatches (influx.Pool.handleInfluxDbChan cfg
          (FlushLoop.start lastWriteTime client) rs).2).Pairwise List.Disjoint ∧
      ∀ b ∈ flushedBatches (influx.Pool.handleInfluxDbChan cfg
          (FlushLoop.start lastWriteTime client) rs).2,
        List.Disjoint b (influx.Pool.handleInfluxDbChan cfg
          (FlushLoop.start lastWriteTime client) rs).1.writeBuffer) := by
  have h := influx_loop_conserves cfg rs (FlushLoop.start lastWriteTime client)
  simp only [FlushLoop.start, List.nil_append] at h
  refine ⟨h, ?_⟩
  intro hnd
  rw [← h, List.nodup_append] at hnd
  obtain ⟨hj, _, hd⟩ := hnd
  refine ⟨(List.nodup_flatten.mp hj).2, ?_⟩
  intro b hb x hxb hxw
  exact hd (List.mem_flatten.mpr ⟨b, hb, hxb⟩) hxw

/-! ## Round-robin assignment -/

theorem runCalls_append {σ ι : Type} (f : σ → ι → Option σ) (xs ys : List ι) :
    ∀ s : σ, runCalls f s (xs ++ ys) = (runCalls f s xs).bind (fun s1 => runCalls f s1 ys) := by
  induction xs with
  | nil => intro s; simp [runCalls]
  | cons x xs ih =>
    intro s
    simp only [List.cons_append, runCalls]
    cases f s x with
    | none => simp
    | some s1 => simpa using ih s1

theorem obtainHandler_of_cursor {α : Type} (p : Pool α) (K r : Nat)
    (hlen : p.dbHandlers.length = K) (hr : r < K)
    (hcur : p.currentIndex = (r : Int) ∨ (p.currentIndex = (K : Int) ∧ r = 0)) :
    Pool.obtainHandler p = some (r, { p with currentIndex := (r : Int) + 1 }) := by
  unfold Pool.obtainHandler
  rw [hlen]
  rcases hcur with hc | ⟨hc, h0⟩
  · have h1 : ¬ (p.currentIndex ≥ (K : Int)) := by omega
    simp only [h1, if_false]
    have h2 : 0 ≤ p.currentIndex ∧ p.currentIndex < (K : Int) := by omega
    rw [if_pos h2, hc]
    simp
  · have h1 : p.currentIndex ≥ (K : Int) := by omega
    simp only [h1, if_true]
    have h2 : (0 : Int) ≤ 0 ∧ (0 : Int) < (K : Int) := by omega
    rw [if_pos h2, h0]
    simp

theorem mod_of_decomp (K q r : Nat) (hr : r < K) : (K * q + r) % K = r := by
  rw [Nat.mul_add_mod]
  exact Nat.mod_eq_of_lt hr

theorem enum_filter_snoc {ι α : Type} (g : ι → α) (K j : Nat) (xs : List ι) (x : ι) :
    (((xs ++ [x]).enum.filter (fun e => e.1 % K = j)).map (fun e => g e.2)) =
      ((xs.enum.filter (fun e => e.1 % K = j)).map (fun e => g e.2)) ++
        (if xs.length % K = j then [g x] else []) := by
  rw [List.enum_append, List.filter_append, List.map_append]
  congr 1
  by_cases h : xs.length % K = j <;> simp [List.enumFrom, List.filter, h]

theorem roundRobin_invariant {α ι : Type} (g : ι → α) (f : Pool α → ι → Option (Pool α))
    (hf : ∀ p x, f p x = (Pool.obtainHandler p).map (fun ip => Pool.send ip.2 ip.1 (g x)))
    (K : Nat) (hK : 1 ≤ K) (p0 : Pool α)
    (h0 : p0.dbHandlers = List.replicate K { client := NewClient, channel := [] })
    (hc : p0.currentIndex = 0) (xs : List ι) :
    ∃ (p : Pool α) (q r : Nat), runCalls f p0 xs = some p ∧ xs.length = K * q + r ∧ r < K ∧
      p.dbHandlers.length = K ∧
      (p.currentIndex = (r : Int) ∨ (p.currentIndex = (K : Int) ∧ r = 0)) ∧
      (∀ j, j < K → ∃ h, p.dbHandlers[j]? = some h ∧
        h.channel = ((xs.enum.filter (fun e => e.1 % K = j)).map (fun e => g e.2)) ∧
        h.channel.length = q + (if j < r then 1 else 0)) := by
  induction xs using List.reverseRecOn with
  | nil =>
    refine ⟨p0, 0, 0, rfl, by simp, by omega, by rw [h0]; simp, Or.inl (by simpa using hc), ?_⟩
    intro j hj
    refine ⟨{ client := NewClient, channel := [] }, ?_, by simp, by simp⟩
    rw [h0]
    simp [List.getElem?_replicate, hj]
  | append_singleton xs x ih =>
    obtain ⟨p, q, r, hrun, hn, hr, hlen, hcur, hch⟩ := ih
    have hob := obtainHandler_of_cursor p K r hlen hr hcur
    have hstep : runCalls f p0 (xs ++ [x]) =
        some (Pool.send { p with currentIndex := (r : Int) + 1 } r (g x)) := by
      rw [runCalls_append, hrun]
      simp [runCalls, hf, hob]
    have hmod : xs.length % K = r := by rw [hn]; exact mod_of_decomp K q r hr
    have hchan : ∀ j, j < K → ∃ h,
        (Pool.send { p with currentIndex := (r : Int) + 1 } r (g x)).dbHandlers[j]? = some h ∧
        h.channel = (((xs ++ [x]).enum.filter (fun e => e.1 % K = j)).map (fun e => g e.2)) ∧
        h.channel.length = q + (if j < r then 1 else 0) + (if r = j then 1 else 0) := by
      intro j hj
      obtain ⟨h, hget, hcont, hl⟩ := hch j hj
      by_cases hrj : r = j
      · refine ⟨{ h with channel := h.channel ++ [g x] }, ?_, ?_, ?_⟩
        · simp [Pool.send, List.getElem?_modify, hget, hrj]
        · rw [enum_filter_snoc, hmod, if_pos hrj, ← hcont]
        · simp [hl, hrj]
      · refine ⟨h, ?_, ?_, ?_⟩
        · simp [Pool.send, List.getElem?_modify, hget, hrj]
        · rw [enum_filter_snoc, hmod, if_neg hrj, List.append_nil, ← hcont]
        · simp [hl, hrj]
    by_cases hwrap : r + 1 < K
    · refine ⟨_, q, r + 1, hstep, by simp; omega, hwrap, by simp [Pool.send, hlen],
        Or.inl (by simp [Pool.send]), ?_⟩
      intro j hj
      obtain ⟨h, hget, hcont, hl⟩ := hchan j hj
      refine ⟨h, hget, hcont, ?_⟩
      rw [hl]
      split_ifs <;> omega
    · have hrK : r + 1 = K := by omega
      refine ⟨_, q + 1, 0, hstep, ?_, by omega, by simp [Pool.send, hlen],
        Or.inr ⟨by simp [Pool.send]; omega, rfl⟩, ?_⟩
      · rw [List.length_append, hn, Nat.mul_succ]
        simp
        omega
      · intro j hj
        obtain ⟨h, hget, hcont, hl⟩ := hchan j hj
        refine ⟨h, hget, hcont, ?_⟩
        rw [hl]
        split_ifs <;> omega

theorem roundRobin_generic {α ι : Type} (g : ι → α) (f : Pool α → ι → Option (Pool α))
    (hf : ∀ p x, f p x = (Pool.obtainHandler p).map (fun ip => Pool.send ip.2 ip.1 (g x)))
    (K : Nat) (hK : 1 ≤ K) (p0 : Pool α)
    (h0 : p0.dbHandlers = List.replicate K { client := NewClient, channel := [] })
    (hc : p0.currentIndex = 0) (xs : List ι) :
    (∃ p : Pool α, runCalls f p0 xs = some p ∧ p.dbHandlers.length = K ∧
      0 ≤ p.currentIndex ∧ p.currentIndex ≤ (K : Int) ∧
      ∀ j, j < K → ∃ h, p.dbHandlers[j]? = some h ∧
        h.channel = ((xs.enum.filter (fun e => e.1 % K = j)).map (fun e => g e.2)) ∧
        ∀ M, xs.length = K * M → h.channel.length = M) ∧
    (∀ i x, xs[i]? = some x → ∃ pi pn : Pool α, runCalls f p0 (xs.take i) = some pi ∧
      Pool.obtainHandler pi = some (i % K, pn) ∧ f pi x = some (Pool.send pn (i % K) (g x))) := by
  constructor
  · obtain ⟨p, q, r, hrun, hn, hr, hlen, hcur, hch⟩ :=
      roundRobin_invariant g f hf K hK p0 h0 hc xs
    refine ⟨p, hrun, hlen, by omega, by omega, ?_⟩
    intro j hj
    obtain ⟨h, hget, hcont, hl⟩ := hch j hj
    refine ⟨h, hget, hcont, ?_⟩
    intro M hM
    have hmod := mod_of_decomp K q r hr
    rw [← hn, hM, Nat.mul_mod_right] at hmod
    subst hmod
    have hq : q = M := by
      have h2 : K * q = K * M := by omega
      exact Nat.eq_of_mul_eq_mul_left (by omega) h2
    rw [hl, hq]
    simp
  · intro i x hix
    have hi : i < xs.length := by
      rcases Nat.lt_or_ge i xs.length with h | h
      · exact h
      · rw [List.getElem?_eq_none h] at hix
        cases hix
    obtain ⟨p, q, r, hrun, hn, hr, hlen, hcur, _⟩ :=
      roundRobin_invariant g f hf K hK p0 h0 hc (xs.take i)
    have hmod : i % K = r := by
      have h1 := mod_of_decomp K q r hr
      rw [← hn, List.length_take, Nat.min_eq_left (Nat.le_of_lt hi)] at h1
      exact h1
    have hob := obtainHandler_of_cursor p K r hlen hr hcur
    refine ⟨p, { p with currentIndex := (r : Int) + 1 }, hrun, by rw [hmod, hob], ?_⟩
    rw [hf, hob, hmod]
    rfl

theorem writeToInfluxDb_eq (idp : Pool influx.Point) (a : influx.WriteArgs) :
    influx.Pool.writeToInfluxDb idp a =
      (Pool.obtainHandler idp).map (fun ip => Pool.send ip.2 ip.1 a.point) := by
  unfold influx.Pool.writeToInfluxDb
  cases Pool.obtainHandler idp with
  | none => rfl
  | some ip => rfl

theorem writeToMysqlDb_eq (mdp : Pool mysql.InsertRequest) (a : String × GoMap String Any) :
    mysql.Pool.writeToMysqlDb mdp a =
      (Pool.obtainHandler mdp).map (fun ip => Pool.send ip.2 ip.1 (mysql.insertRequest a)) := by
  unfold mysql.Pool.writeToMysqlDb
  cases Pool.obtainHandler mdp with
  | none => rfl
  | some ip => rfl

/-- C2: on a new pool of `K >= 1` handlers (influx or mysql), any sequence of
enqueue calls made one after the other runs without an index outside the
handler array; the call number `i`, counting from 0, obtains handler
`i mod K` and sends its record there; afterwards handler `j` has been sent
exactly the records of the calls `j, j + K, j + 2K, ...` in that order, which
are `M` records when `K * M` calls were made, and the cursor lies between 0
and `K`. -/
theorem C2_round_robin_delivers_call_i_to_handler_i_mod_K (K : Nat) (hK : 1 ≤ K)
    (db : String) (now : Int) (ws : List influx.WriteArgs)
    (ms : List (String × GoMap String Any)) :
    ((∃ p : Pool influx.Point,
        runCalls influx.Pool.writeToInfluxDb (influx.NewPool K db now) ws = some p ∧
        p.dbHandlers.length = K ∧ 0 ≤ p.currentIndex ∧ p.currentIndex ≤ (K : Int) ∧
        ∀ j, j < K → ∃ h, p.dbHandlers[j]? = some h ∧
          h.channel = ((ws.enum.filter (fun e => e.1 % K = j)).map (fun e => e.2.point)) ∧
          ∀ M, ws.length = K * M → h.channel.length = M) ∧
      (∀ i a, ws[i]? = some a → ∃ pi pn : Pool influx.Point,
        runCalls influx.Pool.writeToInfluxDb (influx.NewPool K db now) (ws.take i) = some pi ∧
        Pool.obtainHandler pi = some (i % K, pn) ∧
        influx.Pool.writeToInfluxDb pi a = some (Pool.send pn (i % K) a.point))) ∧
    ((∃ p : Pool mysql.InsertRequest,
        runCalls mysql.Pool.writeToMysqlDb (mysql.NewPool K db) ms = some p ∧
        p.dbHandlers.length = K ∧ 0 ≤ p.currentIndex ∧ p.currentIndex ≤ (K : Int) ∧
        ∀ j, j < K → ∃ h, p.dbHandlers[j]? = some h ∧
          h.channel =
            ((ms.enum.filter (fun e => e.1 % K = j)).map (fun e => mysql.insertRequest e.2)) ∧
          ∀ M, ms.length = K * M → h.channel.length = M) ∧
      (∀ i a, ms[i]? = some a → ∃ pi pn : Pool mysql.InsertRequest,
        runCalls mysql.Pool.writeToMysqlDb (mysql.NewPool K db) (ms.take i) = some pi ∧
        Pool.obtainHandler pi = some (i % K, pn) ∧
        mysql.Pool.writeToMysqlDb pi a = some (Pool.send pn (i % K) (mysql.insertRequest a)))) :=
  ⟨roundRobin_generic influx.WriteArgs.point influx.Pool.writeToInfluxDb writeToInfluxDb_eq
      K hK (influx.NewPool K db now) rfl rfl ws,
    roundRobin_generic mysql.insertRequest mysql.Pool.writeToMysqlDb writeToMysqlDb_eq
      K hK (mysql.NewPool K db) rfl rfl ms⟩

/-- C2 at a pool of two handlers and four calls for each backend: every call
runs, and each handler has been sent two records. -/
theorem C2_witness :
    1 ≤ 2 ∧
    (∃ p : Pool influx.Point,
      runCalls influx.Pool.writeToInfluxDb (influx.NewPool 2 "metrics" 0)
        [⟨"cpu", [], [("v", Any.int 0)], 10⟩, ⟨"cpu", [], [("v", Any.int 1)], 11⟩,
         ⟨"cpu", [], [("v", Any.int 2)], 12⟩, ⟨"cpu", [], [("v", Any.int 3)], 13⟩] = some p ∧
      ∀ j, j < 2 → ∃ h, p.dbHandlers[j]? = some h ∧ h.channel.length = 2) ∧
    (∃ p : Pool mysql.InsertRequest,
      runCalls mysql.Pool.writeToMysqlDb (mysql.NewPool 2 "metrics")
        [("t", [("v", Any.int 0)]), ("t", [("v", Any.int 1)]),
         ("t", [("v", Any.int 2)]), ("t", [("v", Any.int 3)])] = some p ∧
      ∀ j, j < 2 → ∃ h, p.dbHandlers[j]? = some h ∧ h.channel.length = 2) :=
  have h := C2_round_robin_delivers_call_i_to_handler_i_mod_K 2 (by decide) "metrics" 0
    [⟨"cpu", [], [("v", Any.int 0)], 10⟩, ⟨"cpu", [], [("v", Any.int 1)], 11⟩,
     ⟨"cpu", [], [("v", Any.int 2)], 12⟩, ⟨"cpu", [], [("v", Any.int 3)], 13⟩]
    [("t", [("v", Any.int 0)]), ("t", [("v", Any.int 1)]),
     ("t", [("v", Any.int 2)]), ("t", [("v", Any.int 3)])]
  ⟨by decide,
    h.1.1.elim fun p hp => ⟨p, hp.1, fun j hj =>
      (hp.2.2.2.2 j hj).elim fun hd hh => ⟨hd, hh.1, hh.2.2 2 rfl⟩⟩,
    h.2.1.elim fun p hp => ⟨p, hp.1, fun j hj =>
      (hp.2.2.2.2 j hj).elim fun hd hh => ⟨hd, hh.1, hh.2.2 2 rfl⟩⟩⟩

/-! ## The pool registry -/

theorem GoMap.get_eq_none_iff {K V : Type} [DecidableEq K] (m : GoMap K V) (k : K) :
    GoMap.get m k = none ↔ k ∉ m.map Prod.fst := by
  induction m with
  | nil => simp [GoMap.get]
  | cons kv rest ih =>
    obtain ⟨k1, v1⟩ := kv
    by_cases h : k1 = k
    · simp [GoMap.get, h]
    · simp [GoMap.get, h, ih, Ne.symm h]

theorem GoMap.set_of_absent {K V : Type} [DecidableEq K] (m : GoMap K V) (k : K) (v : V)
    (h : GoMap.get m k = none) : GoMap.set m k v = m ++ [(k, v)] := by
  induction m with
  | nil => rfl
  | cons kv rest ih =>
    obtain ⟨k1, v1⟩ := kv
    by_cases hk : k1 = k
    · simp [GoMap.get, hk] at h
    · simp only [GoMap.get, hk, if_false] at h
      simp [GoMap.set, hk, ih h]

theorem GoMap.get_append_of_some {K V : Type} [DecidableEq K] (m m2 : GoMap K V) (k : K) (v : V)
    (h : GoMap.get m k = some v) : GoMap.get (m ++ m2) k = some v := by
  induction m with
  | nil => simp [GoMap.get] at h
  | cons kv rest ih =>
    obtain ⟨k1, v1⟩ := kv
    by_cases hk : k1 = k
    · simpa [GoMap.get, hk] using h
    · simp only [GoMap.get, hk, if_false] at h
      simpa [GoMap.get, hk] using ih h

theorem GoMap.get_append_of_none {K V : Type} [DecidableEq K] (m m2 : GoMap K V) (k : K)
    (h : GoMap.get m k = none) : GoMap.get (m ++ m2) k = GoMap.get m2 k := by
  induction m with
  | nil => rfl
  | cons kv rest ih =>
    obtain ⟨k1, v1⟩ := kv
    by_cases hk : k1 = k
    · simp [GoMap.get, hk] at h
    · simp only [GoMap.get, hk, if_false] at h
      simpa [GoMap.get, hk] using ih h

theorem obtainPool_present (cfg : BaseConfig) (reg : influx.Registry) (call : String × Int)
    (v : Nat) (h : GoMap.get reg.sharedDbPool call.1 = some v) :
    influx.obtainPool cfg reg call = (reg, v) := by
  simp [influx.obtainPool, h]

theorem obtainPool_absent (cfg : BaseConfig) (reg : influx.Registry) (call : String × Int)
    (h : GoMap.get reg.sharedDbPool call.1 = none) :
    influx.obtainPool cfg reg call =
      ({ sharedDbPool := reg.sharedDbPool ++ [(call.1, reg.pools.length)],
         pools := reg.pools ++ [influx.NewPool cfg.InfluxPoolSize call.1 call.2] },
        reg.pools.length) := by
  simp [influx.obtainPool, h, GoMap.set_of_absent]

theorem obtainPool_keeps (cfg : BaseConfig) (reg : influx.Registry) (call : String × Int)
    (m : String) (v : Nat) (h : GoMap.get reg.sharedDbPool m = some v) :
    GoMap.get (influx.obtainPool cfg reg call).1.sharedDbPool m = some v := by
  cases hc : GoMap.get reg.sharedDbPool call.1 with
  | some w => rw [obtainPool_present cfg reg call w hc]; exact h
  | none =>
    rw [obtainPool_absent cfg reg call hc]
    exact GoMap.get_append_of_some _ _ _ _ h

theorem obtainPool_returns_entry (cfg : BaseConfig) (reg : influx.Registry)
    (call : String × Int) :
    GoMap.get (influx.obtainPool cfg reg call).1.sharedDbPool call.1 =
      some (influx.obtainPool cfg reg call).2 := by
  cases hc : GoMap.get reg.sharedDbPool call.1 with
  | some w => rw [obtainPool_present cfg reg call w hc]; exact hc
  | none =>
    rw [obtainPool_absent cfg reg call hc]
    simp only
    rw [GoMap.get_append_of_none _ _ _ hc]
    simp [GoMap.get]

theorem obtainPools_keeps (cfg : BaseConfig) (calls : List (String × Int)) :
    ∀ (reg : influx.Registry) (m : String) (v : Nat),
      GoMap.get reg.sharedDbPool m = some v →
      GoMap.get (influx.obtainPools cfg reg calls).1.sharedDbPool m = some v := by
  induction calls with
  | nil => intro reg m v h; exact h
  | cons c cs ih =>
    intro reg m v h
    simp only [influx.obtainPools]
    exact ih _ m v (obtainPool_keeps cfg reg c m v h)

theorem obtainPools_entries (cfg : BaseConfig) (calls : List (String × Int)) :
    ∀ (reg : influx.Registry) (i : Nat) (n : String) (r : Nat),
      (calls.map Prod.fst)[i]? = some n → (influx.obtainPools cfg reg calls).2[i]? = some r →
      GoMap.get (influx.obtainPools cfg reg calls).1.sharedDbPool n = some r := by
  induction calls with
  | nil => intro reg i n r h; simp at h
  | cons c cs ih =>
    intro reg i n r hn hr
    simp only [influx.obtainPools] at hr ⊢
    cases i with
    | zero =>
      simp only [List.map_cons, List.getElem?_cons_zero, Option.some.injEq] at hn hr
      subst hn hr
      exact obtainPools_keeps cfg cs _ _ _ (obtainPool_returns_entry cfg reg c)
    | succ k =>
      simp only [List.map_cons, List.getElem?_cons_succ] at hn hr
      exact ih _ k n r hn hr

theorem obtainPool_shape (cfg : BaseConfig) (reg : influx.Registry) (call : String × Int)
    (hnd : (reg.sharedDbPool.map Prod.fst).Nodup)
    (hlen : reg.pools.length = reg.sharedDbPool.length)
    (hdb : ∀ k v, GoMap.get reg.sharedDbPool k = some v →
      ∃ pool, reg.pools[v]? = some pool ∧ pool.db = k) :
    ((influx.obtainPool cfg reg call).1.sharedDbPool.map Prod.fst).Nodup ∧
    (influx.obtainPool cfg reg call).1.pools.length =
      (influx.obtainPool cfg reg call).1.sharedDbPool.length ∧
    (∀ k v, GoMap.get (influx.obtainPool cfg reg call).1.sharedDbPool k = some v →
      ∃ pool, (influx.obtainPool cfg reg call).1.pools[v]? = some pool ∧ pool.db = k) ∧
    ((influx.obtainPool cfg reg call).1.sharedDbPool.map Prod.fst).toFinset =
      (reg.sharedDbPool.map Prod.fst).toFinset ∪ {call.1} := by
  cases hc : GoMap.get reg.sharedDbPool call.1 with
  | some w =>
    rw [obtainPool_present cfg reg call w hc]
    refine ⟨hnd, hlen, hdb, ?_⟩
    have hmem : call.1 ∈ reg.sharedDbPool.map Prod.fst := by
      by_contra hne
      rw [(GoMap.get_eq_none_iff _ _).mpr hne] at hc
      cases hc
    ext x
    simp only [List.mem_toFinset, Finset.mem_union, Finset.mem_singleton]
    constructor
    · exact Or.inl
    · rintro (h | h)
      · exact h
      · rw [h]; exact hmem
  | none =>
    rw [obtainPool_absent cfg reg call hc]
    have hnot := (GoMap.get_eq_none_iff _ _).mp hc
    refine ⟨?_, by simp [hlen], ?_, ?_⟩
    · simp only [List.map_append, List.map_cons, List.map_nil]
      rw [List.nodup_append]
      refine ⟨hnd, by simp, ?_⟩
      intro x hx hx2
      simp only [List.mem_singleton] at hx2
      exact hnot (hx2 ▸ hx)
    · intro k v hkv
      simp only at hkv ⊢
      cases hk : GoMap.get reg.sharedDbPool k with
      | some v1 =>
        rw [GoMap.get_append_of_some _ _ _ _ hk] at hkv
        obtain ⟨pool, hp, hd⟩ := hdb k v1 hk
        simp only [Option.some.injEq] at hkv
        subst hkv
        refine ⟨pool, ?_, hd⟩
        have hlt : v1 < reg.pools.length := by
          rcases Nat.lt_or_ge v1 reg.pools.length with h | h
          · exact h
          · rw [List.getElem?_eq_none h] at hp
            cases hp
        rw [List.getElem?_append_left hlt]
        exact hp
      | none =>
        rw [GoMap.get_append_of_none _ _ _ hk] at hkv
        by_cases hkc : call.1 = k
        · simp only [GoMap.get, hkc, if_true, Option.some.injEq] at hkv
          subst hkv
          refine ⟨influx.NewPool cfg.InfluxPoolSize call.1 call.2, by simp, ?_⟩
          simp [influx.NewPool, hkc]
        · simp [GoMap.get, hkc] at hkv
    · ext x
      simp only [List.map_append, List.map_cons, List.map_nil, List.mem_toFinset,
        List.mem_append, List.mem_singleton, Finset.mem_union, Finset.mem_singleton]

theorem obtainPools_shape (cfg : BaseConfig) (calls : List (String × Int)) :
    ∀ reg : influx.Registry, (reg.sharedDbPool.map Prod.fst).Nodup →
      reg.pools.length = reg.sharedDbPool.length →
      (∀ k v, GoMap.get reg.sharedDbPool k = some v →
        ∃ pool, reg.pools[v]? = some pool ∧ pool.db = k) →
      ((influx.obtainPools cfg reg calls).1.sharedDbPool.map Prod.fst).Nodup ∧
      (influx.obtainPools cfg reg calls).1.pools.length =
        (influx.obtainPools cfg reg calls).1.sharedDbPool.length ∧
      (∀ k v, GoMap.get (influx.obtainPools cfg reg calls).1.sharedDbPool k = some v →
        ∃ pool, (influx.obtainPools cfg reg calls).1.pools[v]? = some pool ∧ pool.db = k) ∧
      ((influx.obtainPools cfg reg calls).1.sharedDbPool.map Prod.fst).toFinset =
        (reg.sharedDbPool.map Prod.fst).toFinset ∪ (calls.map Prod.fst).toFinset ∧
      (influx.obtainPools cfg reg calls).2.length = calls.length := by
  induction calls with
  | nil =>
    intro reg hnd hlen hdb
    exact ⟨hnd, hlen, hdb, by simp [influx.obtainPools], rfl⟩
  | cons c cs ih =>
    intro reg hnd hlen hdb
    obtain ⟨s1, s2, s3, s4⟩ := obtainPool_shape cfg reg c hnd hlen hdb
    obtain ⟨t1, t2, t3, t4, t5⟩ := ih _ s1 s2 s3
    simp only [influx.obtainPools]
    refine ⟨t1, t2, t3, ?_, by simp [t5]⟩
    rw [t4, s4]
    ext x
    simp only [List.map_cons, List.toFinset_cons, Finset.mem_union, Finset.mem_singleton,
      Finset.mem_insert, List.mem_toFinset]
    tauto

theorem obtainPool_keeps_pools (cfg : BaseConfig) (reg : influx.Registry)
    (call : String × Int) (k : Nat) (hk : k < reg.pools.length) :
    (influx.obtainPool cfg reg call).1.pools[k]? = reg.pools[k]? := by
  cases hc : GoMap.get reg.sharedDbPool call.1 with
  | some w => rw [obtainPool_present cfg reg call w hc]
  | none =>
    rw [obtainPool_absent cfg reg call hc]
    exact List.getElem?_append_left hk

/-- C10: in any sequence of `obtainPool` calls made one after the other on the
registry as loaded, two calls with the same database name return the same
pool, the pool returned is one constructed for that name, the number of pools
constructed is the number of distinct names requested, a call for a name
that has an entry constructs nothing and changes nothing, and no call
changes the entry of any name or any pool constructed before. -/
theorem C10_obtainPool_keeps_one_pool_per_database_name (cfg : BaseConfig)
    (calls : List (String × Int)) :
    (influx.obtainPools cfg influx.Registry.initial calls).2.length = calls.length ∧
    (∀ (i j : Nat) (n : String) (r1 r2 : Nat),
      (calls.map Prod.fst)[i]? = some n → (calls.map Prod.fst)[j]? = some n →
      (influx.obtainPools cfg influx.Registry.initial calls).2[i]? = some r1 →
      (influx.obtainPools cfg influx.Registry.initial calls).2[j]? = some r2 → r1 = r2) ∧
    (∀ (i : Nat) (n : String) (r : Nat), (calls.map Prod.fst)[i]? = some n →
      (influx.obtainPools cfg influx.Registry.initial calls).2[i]? = some r →
      ∃ pool : Pool influx.Point,
        (influx.obtainPools cfg influx.Registry.initial calls).1.pools[r]? = some pool ∧
        pool.db = n) ∧
    (influx.obtainPools cfg influx.Registry.initial calls).1.pools.length =
      (calls.map Prod.fst).dedup.length ∧
    (∀ (reg : influx.Registry) (call : String × Int) (v : Nat),
      GoMap.get reg.sharedDbPool call.1 = some v → influx.obtainPool cfg reg call = (reg, v)) ∧
    (∀ (reg : influx.Registry) (call : String × Int) (m : String) (v : Nat),
      GoMap.get reg.sharedDbPool m = some v →
      GoMap.get (influx.obtainPool cfg reg call).1.sharedDbPool m = some v) ∧
    (∀ (reg : influx.Registry) (call : String × Int) (k : Nat), k < reg.pools.length →
      (influx.obtainPool cfg reg call).1.pools[k]? = reg.pools[k]?) := by
  obtain ⟨t1, t2, t3, t4, t5⟩ := obtainPools_shape cfg calls influx.Registry.initial
    (by simp [influx.Registry.initial, GoMap.empty])
    (by simp [influx.Registry.initial, GoMap.empty])
    (by intro k v h; simp [influx.Registry.initial, GoMap.empty, GoMap.get] at h)
  refine ⟨t5, ?_, ?_, ?_, obtainPool_present cfg, obtainPool_keeps cfg,
    obtainPool_keeps_pools cfg⟩
  · intro i j n r1 r2 hi hj h1 h2
    have e1 := obtainPools_entries cfg calls influx.Registry.initial i n r1 hi h1
    have e2 := obtainPools_entries cfg calls influx.Registry.initial j n r2 hj h2
    rw [e1] at e2
    exact Option.some.inj e2
  · intro i n r hi hr
    exact t3 n r (obtainPools_entries cfg calls influx.Registry.initial i n r hi hr)
  · rw [t2, ← List.length_map (influx.obtainPools cfg influx.Registry.initial calls).1.sharedDbPool
      Prod.fst, ← List.toFinset_card_of_nodup t1, t4, ← List.card_toFinset]
    simp [influx.Registry.initial, GoMap.empty]

/-! ## When a flush loop flushes -/

theorem influx_loop_append {α : Type} (cfg : BaseConfig) (xs ys : List (influx.Received α)) :
    ∀ s : FlushLoop α, influx.Pool.handleInfluxDbChan cfg s (xs ++ ys) =
      ((influx.Pool.handleInfluxDbChan cfg (influx.Pool.handleInfluxDbChan cfg s xs).1 ys).1,
        (influx.Pool.handleInfluxDbChan cfg s xs).2 ++
          (influx.Pool.handleInfluxDbChan cfg (influx.Pool.handleInfluxDbChan cfg s xs).1 ys).2) := by
  induction xs with
  | nil => intro s; simp [influx.Pool.handleInfluxDbChan]
  | cons x xs ih => intro s; simp [influx.Pool.handleInfluxDbChan, ih]

theorem mysql_loop_append {α : Type} (cfg : BaseConfig) (xs ys : List (mysql.Received α)) :
    ∀ s : FlushLoop α, mysql.Pool.handleMysqlDbChan cfg s (xs ++ ys) =
      ((mysql.Pool.handleMysqlDbChan cfg (mysql.Pool.handleMysqlDbChan cfg s xs).1 ys).1,
        (mysql.Pool.handleMysqlDbChan cfg s xs).2 ++
          (mysql.Pool.handleMysqlDbChan cfg (mysql.Pool.handleMysqlDbChan cfg s xs).1 ys).2) := by
  induction xs with
  | nil => intro s; simp [mysql.Pool.handleMysqlDbChan]
  | cons x xs ih => intro s; simp [mysql.Pool.handleMysqlDbChan, ih]

theorem influx_iteration_quiet {α : Type} (cfg : BaseConfig) (s : FlushLoop α)
    (r : influx.Received α)
    (h : influx.Pool.canWriteBatch cfg (seenLastWriteTime s.lastWriteTime r.otherFlush)
      r.nowCheck (s.writeBuffer ++ [r.value]) = false) :
    influx.Pool.handleInfluxDbChan.iteration cfg s r =
      ({ writeBuffer := s.writeBuffer ++ [r.value],
         lastWriteTime := seenLastWriteTime s.lastWriteTime r.otherFlush,
         client := s.client }, []) := by
  simp [influx.Pool.handleInfluxDbChan.iteration, h]

theorem influx_iteration_flush {α : Type} (cfg : BaseConfig) (s : FlushLoop α)
    (r : influx.Received α)
    (h : influx.Pool.canWriteBatch cfg (seenLastWriteTime s.lastWriteTime r.otherFlush)
      r.nowCheck (s.writeBuffer ++ [r.value]) = true) :
    influx.Pool.handleInfluxDbChan.iteration cfg s r =
      ({ writeBuffer := [], lastWriteTime := r.nowAfter,
         client := (influx.Client.Init s.client r.backend).client },
        [Call.init (influx.Client.Init s.client r.backend).err,
         Call.write (s.writeBuffer ++ [r.value]) r.writeErr]) := by
  simp [influx.Pool.handleInfluxDbChan.iteration, h]

theorem mysql_iteration_quiet {α : Type} (cfg : BaseConfig) (s : FlushLoop α)
    (r : mysql.Received α)
    (h : mysql.Pool.canInsertBatch cfg (seenLastWriteTime s.lastWriteTime r.otherFlush)
      r.nowCheck (s.writeBuffer ++ [r.value]) = false) :
    mysql.Pool.handleMysqlDbChan.iteration cfg s r =
      ({ writeBuffer := s.writeBuffer ++ [r.value],
         lastWriteTime := seenLastWriteTime s.lastWriteTime r.otherFlush,
         client := s.client }, []) := by
  simp [mysql.Pool.handleMysqlDbChan.iteration, h]

theorem mysql_iteration_flush {α : Type} (cfg : BaseConfig) (s : FlushLoop α)
    (r : mysql.Received α)
    (h : mysql.Pool.canInsertBatch cfg (seenLastWriteTime s.lastWriteTime r.otherFlush)
      r.nowCheck (s.writeBuffer ++ [r.value]) = true)
    (hinit : (mysql.Client.Init s.client r.backend).err = none) :
    mysql.Pool.handleMysqlDbChan.iteration cfg s r =
      (match r.writeErr with
        | some e =>
          ({ writeBuffer := s.writeBuffer ++ [r.value],
             lastWriteTime := seenLastWriteTime s.lastWriteTime r.otherFlush,
             client := (mysql.Client.Init s.client r.backend).client },
            [Call.init none, Call.write (s.writeBuffer ++ [r.value]) (some e)])
        | none =>
          ({ writeBuffer := [], lastWriteTime := r.nowAfter,
             client := (mysql.Client.Init s.client r.backend).client },
            [Call.init none, Call.write (s.writeBuffer ++ [r.value]) none])) := by
  simp [mysql.Pool.handleMysqlDbChan.iteration, h, hinit]

theorem influx_loop_quiet {α : Type} (cfg : BaseConfig) (last : Int)
    (rs : List (influx.Received α)) :
    ∀ s : FlushLoop α, s.lastWriteTime = last →
      ((s.writeBuffer.length + rs.length : Nat) : Int) < cfg.InfluxMaxBufferSize →
      (∀ x ∈ rs, x.otherFlush = none ∧ Time.After x.nowCheck
        (Time.Add last (secondsToDuration cfg.InfluxMaxIntervalTime)) = false) →
      influx.Pool.handleInfluxDbChan cfg s rs =
        ({ writeBuffer := s.writeBuffer ++ rs.map (fun r => r.value), lastWriteTime := last,
           client := s.client }, []) := by
  induction rs with
  | nil => intro s hl _ _; subst hl; simp [influx.Pool.handleInfluxDbChan]
  | cons r rs ih =>
    intro s hl hlen hq
    obtain ⟨ho, ht⟩ := hq r (List.mem_cons_self r rs)
    have hcan : influx.Pool.canWriteBatch cfg (seenLastWriteTime s.lastWriteTime r.otherFlush)
        r.nowCheck (s.writeBuffer ++ [r.value]) = false := by
      rw [ho, hl]
      simp only [influx.Pool.canWriteBatch, seenLastWriteTime, ht, Bool.or_false,
        decide_eq_false_iff_not, List.length_append, List.length_singleton]
      simp only [List.length_cons] at hlen
      push_cast at hlen ⊢
      omega
    simp only [influx.Pool.handleInfluxDbChan, influx_iteration_quiet cfg s r hcan]
    rw [ih _ (by simp [seenLastWriteTime, ho, hl])
      (by simp only [List.length_append, List.length_cons, List.length_nil] at hlen ⊢
          push_cast at hlen ⊢
          omega)
      (fun x hx => hq x (List.mem_cons_of_mem r hx))]
    simp

theorem mysql_loop_quiet {α : Type} (cfg : BaseConfig) (last : Int)
    (rs : List (mysql.Received α)) :
    ∀ s : FlushLoop α, s.lastWriteTime = last →
      ((s.writeBuffer.length + rs.length : Nat) : Int) < cfg.MysqlMaxBufferSize →
      (∀ x ∈ rs, x.otherFlush = none ∧ Time.After x.nowCheck
        (Time.Add last (secondsToDuration cfg.MysqlMaxIntervalTime)) = false) →
      mysql.Pool.handleMysqlDbChan cfg s rs =
        ({ writeBuffer := s.writeBuffer ++ rs.map (fun r => r.value), lastWriteTime := last,
           client := s.client }, []) := by
  induction rs with
  | nil => intro s hl _ _; subst hl; simp [mysql.Pool.handleMysqlDbChan]
  | cons r rs ih =>
    intro s hl hlen hq
    obtain ⟨ho, ht⟩ := hq r (List.mem_cons_self r rs)
    have hcan : mysql.Pool.canInsertBatch cfg (seenLastWriteTime s.lastWriteTime r.otherFlush)
        r.nowCheck (s.writeBuffer ++ [r.value]) = false := by
      rw [ho, hl]
      simp only [mysql.Pool.canInsertBatch, seenLastWriteTime, ht, Bool.or_false,
        decide_eq_false_iff_not, List.length_append, List.length_singleton]
      simp only [List.length_cons] at hlen
      push_cast at hlen ⊢
      omega
    simp only [mysql.Pool.handleMysqlDbChan, mysql_iteration_quiet cfg s r hcan]
    rw [ih _ (by simp [seenLastWriteTime, ho, hl])
      (by simp only [List.length_append, List.length_cons, List.length_nil] at hlen ⊢
          push_cast at hlen ⊢
          omega)
      (fun x hx => hq x (List.mem_cons_of_mem r hx))]
    simp

/-- C4 (as stated, refuted): with batches of 5 and 5 records received in a row
by a loop with an empty buffer, when more than the interval has passed since
`lastWriteTime` (6 s for influx, 11 s for mysql, whose `lastWriteTime` is the
zero time) the one flush is triggered by the first record and contains only
that record; the other four stay in the buffer. -/
theorem C4_counterexample :
    flushedBatches (influx.Pool.handleInfluxDbChan batchOfFiveConfig
      (FlushLoop.start 0 readyClient)
      [influx.received 1 6000000000 none, influx.received 2 6000000000 none,
       influx.received 3 6000000000 none, influx.received 4 6000000000 none,
       influx.received 5 6000000000 none]).2 = [[1]] ∧
    (influx.Pool.handleInfluxDbChan batchOfFiveConfig (FlushLoop.start 0 readyClient)
      [influx.received 1 6000000000 none, influx.received 2 6000000000 none,
       influx.received 3 6000000000 none, influx.received 4 6000000000 none,
       influx.received 5 6000000000 none]).1.writeBuffer = [2, 3, 4, 5] ∧
    flushedBatches (mysql.Pool.handleMysqlDbChan batchOfFiveConfig
      (FlushLoop.start 0 readyClient)
      [mysql.received 1 11000000000 none, mysql.received 2 11000000000 none,
       mysql.received 3 11000000000 none, mysql.received 4 11000000000 none,
       mysql.received 5 11000000000 none]).2 = [[1]] ∧
    (mysql.Pool.handleMysqlDbChan batchOfFiveConfig (FlushLoop.start 0 readyClient)
      [mysql.received 1 11000000000 none, mysql.received 2 11000000000 none,
       mysql.received 3 11000000000 none, mysql.received 4 11000000000 none,
       mysql.received 5 11000000000 none]).1.writeBuffer = [2, 3, 4, 5] := by
  decide

/-- C4 (amended): for every `maxBatchSize = n >= 1`, starting from an empty
buffer, when the first `n - 1` of `n` records are received while no more than
the interval has passed since `lastWriteTime` (and no other handler flushes),
no call is made for them and the `n`-th record, whatever the clock reads
then, triggers exactly one flush holding all `n` records in order; the influx
loop then has an empty buffer, and the mysql loop issues that flush provided
`Client.Init` succeeds. -/
theorem C4_nth_record_triggers_one_flush_of_all_n {α : Type} (cfg : BaseConfig) (n : Nat)
    (last : Int) (client : Client)
    (pre : List (influx.Received α)) (r : influx.Received α)
    (mpre : List (mysql.Received α)) (mr : mysql.Received α)
    (hn : pre.length + 1 = n) (hmn : mpre.length + 1 = n)
    (hcfg : cfg.InfluxMaxBufferSize = (n : Int)) (hmcfg : cfg.MysqlMaxBufferSize = (n : Int))
    (hquiet : ∀ x ∈ pre, x.otherFlush = none ∧ Time.After x.nowCheck
      (Time.Add last (secondsToDuration cfg.InfluxMaxIntervalTime)) = false)
    (hmquiet : ∀ x ∈ mpre, x.otherFlush = none ∧ Time.After x.nowCheck
      (Time.Add last (secondsToDuration cfg.MysqlMaxIntervalTime)) = false)
    (hinit : (mysql.Client.Init client mr.backend).err = none) :
    (influx.Pool.handleInfluxDbChan cfg (FlushLoop.start last client) pre).2 = [] ∧
    flushedBatches (influx.Pool.handleInfluxDbChan cfg (FlushLoop.start last client)
      (pre ++ [r])).2 = [(pre ++ [r]).map (fun x => x.value)] ∧
    (influx.Pool.handleInfluxDbChan cfg (FlushLoop.start last client)
      (pre ++ [r])).1.writeBuffer = [] ∧
    (mysql.Pool.handleMysqlDbChan cfg (FlushLoop.start last client) mpre).2 = [] ∧
    flushedBatches (mysql.Pool.handleMysqlDbChan cfg (FlushLoop.start last client)
      (mpre ++ [mr])).2 = [(mpre ++ [mr]).map (fun x => x.value)] := by
  have hq := influx_loop_quiet cfg last pre (FlushLoop.start last client) rfl
    (by simp only [FlushLoop.start, List.length_nil]; omega) hquiet
  have hmq := mysql_loop_quiet cfg last mpre (FlushLoop.start last client) rfl
    (by simp only [FlushLoop.start, List.length_nil]; omega) hmquiet
  simp only [FlushLoop.start, List.nil_append] at hq hmq
  have hcan : influx.Pool.canWriteBatch cfg (seenLastWriteTime last r.otherFlush) r.nowCheck
      (pre.map (fun x => x.value) ++ [r.value]) = true := by
    rw [influx_canWriteBatch_iff]
    left
    simp only [List.length_append, List.length_map, List.length_cons, List.length_nil]
    omega
  have hmcan : mysql.Pool.canInsertBatch cfg (seenLastWriteTime last mr.otherFlush) mr.nowCheck
      (mpre.map (fun x => x.value) ++ [mr.value]) = true := by
    rw [mysql_canInsertBatch_iff]
    left
    simp only [List.length_append, List.length_map, List.length_cons, List.length_nil]
    omega
  have hi := influx_iteration_flush cfg
    { writeBuffer := pre.map (fun x => x.value), lastWriteTime := last, client := client } r hcan
  have hm := mysql_iteration_flush cfg
    { writeBuffer := mpre.map (fun x => x.value), lastWriteTime := last, client := client } mr
    hmcan hinit
  refine ⟨by simp only [FlushLoop.start, hq], ?_, ?_, by simp only [FlushLoop.start, hmq], ?_⟩
  · simp only [FlushLoop.start, influx_loop_append, hq, influx.Pool.handleInfluxDbChan, hi]
    simp [flushedBatches]
  · simp only [FlushLoop.start, influx_loop_append, hq, influx.Pool.handleInfluxDbChan, hi]
  · simp only [FlushLoop.start, mysql_loop_append, hmq, mysql.Pool.handleMysqlDbChan, hm]
    cases mr.writeErr <;> simp [flushedBatches]

/-- C4 (amended) at the spec's case: batches of 5, five records received
within a second of the last write by a Ready client. -/
theorem C4_witness :
    flushedBatches (influx.Pool.handleInfluxDbChan batchOfFiveConfig
      (FlushLoop.start 0 readyClient)
      ([influx.received 1 1 none, influx.received 2 2 none, influx.received 3 3 none,
        influx.received 4 4 none] ++ [influx.received 5 5 none])).2 = [[1, 2, 3, 4, 5]] ∧
    flushedBatches (mysql.Pool.handleMysqlDbChan batchOfFiveConfig
      (FlushLoop.start 0 readyClient)
      ([mysql.received 1 1 none, mysql.received 2 2 none, mysql.received 3 3 none,
        mysql.received 4 4 none] ++ [mysql.received 5 5 none])).2 = [[1, 2, 3, 4, 5]] :=
  have h := C4_nth_record_triggers_one_flush_of_all_n batchOfFiveConfig 5 0 readyClient
    [influx.received 1 1 none, influx.received 2 2 none, influx.received 3 3 none,
      influx.received 4 4 none] (influx.received 5 5 none)
    [mysql.received 1 1 none, mysql.received 2 2 none, mysql.received 3 3 none,
      mysql.received 4 4 none] (mysql.received 5 5 none)
    rfl rfl rfl rfl (by decide) (by decide) (by decide)
  ⟨h.2.1, h.2.2.2.2⟩

/-- C5 (as stated, refuted): with `maxInterval = 5 s` and
`maxBatchSize = 5000`, a single record received one second after the last
write, with nothing received after it, is all the loop ever runs on: it makes
no call at all and the record stays in the buffer. The loop acts only when it
receives a value; there is no timer. -/
theorem C5_counterexample :
    influx.Pool.handleInfluxDbChan sourceConfig (FlushLoop.start 0 readyClient)
      [influx.received 1 1000000000 none] =
      ({ writeBuffer := [1], lastWriteTime := 0, client := readyClient }, []) := by
  decide

/-- C5 (amended): for any interval and any `maxBatchSize > 1`, a single record
received by a loop with an empty buffer no later than `maxInterval` after the
pool's `lastWriteTime` as the loop reads it then (its own last value or the
one another handler of the pool has stored since) causes no call, however
long nothing else is received: it stays in the buffer. When the next record
is received, the clock is compared with the pool's `lastWriteTime` as it
stands then: if more than `maxInterval` has passed since it, exactly one
`Init` and one batched write are made, the write holding both records, and
the buffer is empty afterwards; if not, as when another handler has flushed
in between, and `maxBatchSize > 2`, again no call is made and both records
stay in the buffer. -/
theorem C5_single_record_is_flushed_with_the_next_record {α : Type} (cfg : BaseConfig)
    (last : Int) (client : Client) (v v2 : α) (other other2 : Option Int)
    (now now2 after after2 : Int) (b b2 : influx.Backend) (e e2 : GoError)
    (hsize : 1 < cfg.InfluxMaxBufferSize)
    (hnow : now - seenLastWriteTime last other ≤
      secondsToDuration cfg.InfluxMaxIntervalTime) :
    influx.Pool.handleInfluxDbChan cfg (FlushLoop.start last client)
      [{ value := v, otherFlush := other, nowCheck := now, backend := b, writeErr := e,
         nowAfter := after }] =
      ({ writeBuffer := [v], lastWriteTime := seenLastWriteTime last other, client := client },
        []) ∧
    (now2 - seenLastWriteTime (seenLastWriteTime last other) other2 >
        secondsToDuration cfg.InfluxMaxIntervalTime →
      influx.Pool.handleInfluxDbChan cfg (FlushLoop.start last client)
        [{ value := v, otherFlush := other, nowCheck := now, backend := b, writeErr := e,
           nowAfter := after },
         { value := v2, otherFlush := other2, nowCheck := now2, backend := b2, writeErr := e2,
           nowAfter := after2 }] =
        ({ writeBuffer := [], lastWriteTime := after2,
           client := (influx.Client.Init client b2).client },
          [Call.init (influx.Client.Init client b2).err, Call.write [v, v2] e2]) ∧
      flushedBatches (influx.Pool.handleInfluxDbChan cfg (FlushLoop.start last client)
        [{ value := v, otherFlush := other, nowCheck := now, backend := b, writeErr := e,
           nowAfter := after },
         { value := v2, otherFlush := other2, nowCheck := now2, backend := b2, writeErr := e2,
           nowAfter := after2 }]).2 = [[v, v2]]) ∧
    (2 < cfg.InfluxMaxBufferSize →
      now2 - seenLastWriteTime (seenLastWriteTime last other) other2 ≤
        secondsToDuration cfg.InfluxMaxIntervalTime →
      influx.Pool.handleInfluxDbChan cfg (FlushLoop.start last client)
        [{ value := v, otherFlush := other, nowCheck := now, backend := b, writeErr := e,
           nowAfter := after },
         { value := v2, otherFlush := other2, nowCheck := now2, backend := b2, writeErr := e2,
           nowAfter := after2 }] =
        ({ writeBuffer := [v, v2],
           lastWriteTime := seenLastWriteTime (seenLastWriteTime last other) other2,
           client := client }, [])) := by
  have hcan : influx.Pool.canWriteBatch cfg (seenLastWriteTime last other) now [v] = false := by
    rw [← Bool.not_eq_true, influx_canWriteBatch_iff]
    simp only [List.length_cons, List.length_nil]
    omega
  refine ⟨?_, ?_, ?_⟩
  · simp [influx.Pool.handleInfluxDbChan, influx.Pool.handleInfluxDbChan.iteration,
      FlushLoop.start, hcan]
  · intro hnow2
    have hcan2 : influx.Pool.canWriteBatch cfg
        (seenLastWriteTime (seenLastWriteTime last other) other2) now2 [v, v2] = true := by
      rw [influx_canWriteBatch_iff]
      exact Or.inr hnow2
    constructor
    · simp [influx.Pool.handleInfluxDbChan, influx.Pool.handleInfluxDbChan.iteration,
        FlushLoop.start, hcan, hcan2]
    · simp [influx.Pool.handleInfluxDbChan, influx.Pool.handleInfluxDbChan.iteration,
        FlushLoop.start, hcan, hcan2, flushedBatches]
  · intro hsize2 hnow2
    have hcan2 : influx.Pool.canWriteBatch cfg
        (seenLastWriteTime (seenLastWriteTime last other) other2) now2 [v, v2] = false := by
      rw [← Bool.not_eq_true, influx_canWriteBatch_iff]
      simp only [List.length_cons, List.length_nil]
      omega
    simp [influx.Pool.handleInfluxDbChan, influx.Pool.handleInfluxDbChan.iteration,
      FlushLoop.start, hcan, hcan2]

/-- C5 (amended) at the spec's case, 5 s and 5000 records, with a record
received one second after the last write: when the next record is received
six seconds later it is written together with the first; when another
handler of the pool has flushed at second four, the next record received at
second seven causes no write and both records stay in the buffer. -/
theorem C5_witness :
    (influx.Pool.handleInfluxDbChan sourceConfig (FlushLoop.start 0 readyClient)
      [{ value := 1, otherFlush := none, nowCheck := 1000000000,
         backend := ⟨some 1, true⟩, writeErr := none, nowAfter := 1000000000 }] =
      ({ writeBuffer := [1], lastWriteTime := 0, client := readyClient }, []) ∧
    flushedBatches (influx.Pool.handleInfluxDbChan sourceConfig (FlushLoop.start 0 readyClient)
      [{ value := 1, otherFlush := none, nowCheck := 1000000000,
         backend := ⟨some 1, true⟩, writeErr := none, nowAfter := 1000000000 },
       { value := 2, otherFlush := none, nowCheck := 7000000000,
         backend := ⟨some 1, true⟩, writeErr := none, nowAfter := 7000000000 }]).2 =
      [[1, 2]]) ∧
    influx.Pool.handleInfluxDbChan sourceConfig (FlushLoop.start 0 readyClient)
      [{ value := 1, otherFlush := none, nowCheck := 1000000000,
         backend := ⟨some 1, true⟩, writeErr := none, nowAfter := 1000000000 },
       { value := 2, otherFlush := some 4000000000, nowCheck := 7000000000,
         backend := ⟨some 1, true⟩, writeErr := none, nowAfter := 7000000000 }] =
      ({ writeBuffer := [1, 2], lastWriteTime := 4000000000, client := readyClient }, []) :=
  have h := C5_single_record_is_flushed_with_the_next_record sourceConfig 0 readyClient 1 2
    none none 1000000000 7000000000 1000000000 7000000000 ⟨some 1, true⟩ ⟨some 1, true⟩
    none none (by decide) (by decide)
  have h2 := C5_single_record_is_flushed_with_the_next_record sourceConfig 0 readyClient 1 2
    none (some 4000000000) 1000000000 7000000000 1000000000 7000000000 ⟨some 1, true⟩
    ⟨some 1, true⟩ none none (by decide) (by decide)
  ⟨⟨h.1, (h.2.1 (by decide)).2⟩, h2.2.2 (by decide) (by decide)⟩

/-- C6 (the code differs): in the mysql flush loop a failed `RequestBatch` is
followed by `continue`, which skips the reset. With a Ready client and the
source's thresholds, record 1 is flushed on its own (the pool's
`lastWriteTime` is still the zero time) and the write fails: the buffer still
holds record 1 and `lastWriteTime` is unchanged; the next record triggers a
`RequestBatch` of records 1 and 2, so record 1 is submitted a second time. -/
theorem C6_mysql_failed_batch_is_kept_and_submitted_again :
    mysql.Pool.handleMysqlDbChan sourceConfig (FlushLoop.start 0 readyClient)
      [mysql.received 1 20000000000 (some "write failed")] =
      ({ writeBuffer := [1], lastWriteTime := 0, client := readyClient },
        [Call.init none, Call.write [1] (some "write failed")]) ∧
    flushedBatches (mysql.Pool.handleMysqlDbChan sourceConfig (FlushLoop.start 0 readyClient)
      [mysql.received 1 20000000000 (some "write failed"),
       mysql.received 2 21000000000 none]).2 = [[1], [1, 2]] ∧
    flushedBatches (influx.Pool.handleInfluxDbChan sourceConfig (FlushLoop.start 0 readyClient)
      [influx.received 1 20000000000 (some "write failed"),
       influx.received 2 41000000000 none]).2 = [[1], [2]] := by
  decide

/-! ## The configuration descriptors -/

theorem splitChars_ne_nil (sep : Char) (cs : List Char) : splitChars sep cs ≠ [] := by
  cases cs with
  | nil => simp [splitChars]
  | cons c cs =>
    by_cases h : c = sep
    · simp [splitChars, h]
    · cases hs : splitChars sep cs <;> simp [splitChars, h, hs]

theorem splitChars_length (sep : Char) (cs : List Char) :
    (splitChars sep cs).length = cs.count sep + 1 := by
  induction cs with
  | nil => simp [splitChars]
  | cons c cs ih =>
    by_cases h : c = sep
    · simp [splitChars, h, ih]
    · have hne : (c == sep) = false := by simpa using h
      cases hs : splitChars sep cs with
      | nil => exact absurd hs (splitChars_ne_nil sep cs)
      | cons p ps =>
        rw [hs] at ih
        simp only [splitChars, h, if_false, hs, List.length_cons] at ih ⊢
        rw [List.count_cons, hne]
        simpa using ih

theorem string_mk_append (a b : List Char) : String.mk a ++ String.mk b = String.mk (a ++ b) :=
  rfl

theorem join_split (sep : Char) (cs : List Char) :
    strings.Join ((splitChars sep cs).map String.mk) (String.mk [sep]) = String.mk cs := by
  induction cs with
  | nil => simp [splitChars, strings.Join]
  | cons c cs ih =>
    cases hs : splitChars sep cs with
    | nil => exact absurd hs (splitChars_ne_nil sep cs)
    | cons p ps =>
      rw [hs] at ih
      by_cases h : c = sep
      · simp only [splitChars, h, if_true, hs, List.map_cons, strings.Join]
        simp only [List.map_cons] at ih
        rw [ih, string_mk_append, string_mk_append]
        rfl
      · simp only [splitChars, h, if_false, hs, List.map_cons]
        cases ps with
        | nil =>
          simp only [List.map_cons, List.map_nil, strings.Join] at ih ⊢
          have hp : p = cs := congrArg String.data ih
          rw [hp]
        | cons q qs =>
          simp only [List.map_cons, strings.Join] at ih ⊢
          rw [String.append_assoc] at ih ⊢
          rw [show String.mk (c :: p) = String.mk [c] ++ String.mk p from rfl,
            String.append_assoc, ih]
          rfl

theorem split_join (s : String) (sep : Char) :
    strings.Join (strings.Split s sep) (String.mk [sep]) = s := by
  unfold strings.Split
  rw [join_split]

theorem split_pair (s a b : String) (sep : Char) (h : strings.Split s sep = [a, b]) :
    a ++ String.mk [sep] ++ b = s := by
  have hj := split_join s sep
  rw [h] at hj
  simpa [strings.Join] using hj

theorem split_length (s : String) (sep : Char) :
    (strings.Split s sep).length = s.data.count sep + 1 := by
  simp [strings.Split, splitChars_length]

theorem config_Init_cases (content : Option config.VenusDataConfig)
    (kafka mysql influx : String) :
    (∃ ih ip l r mh mp mu mw, strings.Split influx ':' = [ih, ip] ∧
      strings.Split mysql '@' = [l, r] ∧ strings.Split l ':' = [mh, mp] ∧
      strings.Split r '/' = [mu, mw] ∧
      config.Init content kafka mysql influx =
        (some { KafkaBrokers := strings.Split kafka ';',
                InfluxDb := { Host := ih, Port := ip },
                MysqlDb := { Host := mh, Port := mp, User := mu, Pwd := mw } }, none)) ∨
    (((config.Init content kafka mysql influx).1 = content ∧
        (config.Init content kafka mysql influx).2 ≠ none) ∧
      ((strings.Split influx ':').length ≠ 2 ∨
        ¬ ∃ l r, strings.Split mysql '@' = [l, r] ∧ (strings.Split l ':').length = 2 ∧
          (strings.Split r '/').length = 2)) := by
  rcases hi : strings.Split influx ':' with _ | ⟨ih, _ | ⟨ip, _ | ⟨x, xs⟩⟩⟩
  · exact Or.inr ⟨by simp [config.Init, hi], Or.inl (by simp)⟩
  · exact Or.inr ⟨by simp [config.Init, hi], Or.inl (by simp)⟩
  · rcases hm : strings.Split mysql '@' with _ | ⟨l, _ | ⟨r, _ | ⟨x, xs⟩⟩⟩
    · exact Or.inr ⟨by simp [config.Init, hi, hm], Or.inr (by simp)⟩
    · exact Or.inr ⟨by simp [config.Init, hi, hm], Or.inr (by simp)⟩
    · have hbad : (strings.Split l ':').length ≠ 2 ∨ (strings.Split r '/').length ≠ 2 →
          ¬ ∃ l1 r1, [l, r] = [l1, r1] ∧ (strings.Split l1 ':').length = 2 ∧
            (strings.Split r1 '/').length = 2 := by
        rintro hne ⟨l1, r1, heq, h1, h2⟩
        simp only [List.cons.injEq, and_true] at heq
        obtain ⟨rfl, rfl⟩ := heq
        rcases hne with hne | hne
        · exact hne h1
        · exact hne h2
      rcases hl : strings.Split l ':' with _ | ⟨mh, _ | ⟨mp, _ | ⟨x, xs⟩⟩⟩
      · exact Or.inr ⟨by simp [config.Init, hi, hm, hl], Or.inr (hbad (Or.inl (by simp [hl])))⟩
      · exact Or.inr ⟨by simp [config.Init, hi, hm, hl], Or.inr (hbad (Or.inl (by simp [hl])))⟩
      · rcases hr : strings.Split r '/' with _ | ⟨mu, _ | ⟨mw, _ | ⟨x, xs⟩⟩⟩
        · exact Or.inr ⟨by simp [config.Init, hi, hm, hl, hr],
            Or.inr (hbad (Or.inr (by simp [hr])))⟩
        · exact Or.inr ⟨by simp [config.Init, hi, hm, hl, hr],
            Or.inr (hbad (Or.inr (by simp [hr])))⟩
        · exact Or.inl ⟨ih, ip, l, r, mh, mp, mu, mw, rfl, rfl, hl, hr,
            by simp [config.Init, hi, hm, hl, hr]⟩
        · exact Or.inr ⟨by simp [config.Init, hi, hm, hl, hr],
            Or.inr (hbad (Or.inr (by simp [hr])))⟩
      · exact Or.inr ⟨by simp [config.Init, hi, hm, hl], Or.inr (hbad (Or.inl (by simp [hl])))⟩
    · exact Or.inr ⟨by simp [config.Init, hi, hm], Or.inr (by simp)⟩
  · exact Or.inr ⟨by simp [config.Init, hi], Or.inl (by simp)⟩

theorem config_Init_ok (content : Option config.VenusDataConfig) (kafka mysql influx : String)
    (h : (config.Init content kafka mysql influx).2 = none) :
    ∃ ih ip l r mh mp mu mw, strings.Split influx ':' = [ih, ip] ∧
      strings.Split mysql '@' = [l, r] ∧ strings.Split l ':' = [mh, mp] ∧
      strings.Split r '/' = [mu, mw] ∧
      (config.Init content kafka mysql influx).1 =
        some { KafkaBrokers := strings.Split kafka ';',
               InfluxDb := { Host := ih, Port := ip },
               MysqlDb := { Host := mh, Port := mp, User := mu, Pwd := mw } } := by
  rcases config_Init_cases content kafka mysql influx with
    ⟨ih, ip, l, r, mh, mp, mu, mw, h1, h2, h3, h4, h5⟩ | ⟨⟨_, hne⟩, _⟩
  · exact ⟨ih, ip, l, r, mh, mp, mu, mw, h1, h2, h3, h4, by rw [h5]⟩
  · exact absurd h hne

theorem config_Init_err_of (content : Option config.VenusDataConfig)
    (kafka mysql influx : String)
    (h : (strings.Split influx ':').length ≠ 2 ∨
      ¬ ∃ l r, strings.Split mysql '@' = [l, r] ∧ (strings.Split l ':').length = 2 ∧
        (strings.Split r '/').length = 2) :
    (config.Init content kafka mysql influx).2 ≠ none := by
  intro hnone
  obtain ⟨ih, ip, l, r, mh, mp, mu, mw, h1, h2, h3, h4, _⟩ :=
    config_Init_ok content kafka mysql influx hnone
  rcases h with h | h
  · exact h (by rw [h1]; rfl)
  · exact h ⟨l, r, h2, by rw [h3]; rfl, by rw [h4]; rfl⟩

theorem config_Init_err_keeps (content : Option config.VenusDataConfig)
    (kafka mysql influx : String)
    (h : (config.Init content kafka mysql influx).2 ≠ none) :
    (config.Init content kafka mysql influx).1 = content ∧
    ((strings.Split influx ':').length ≠ 2 ∨
      ¬ ∃ l r, strings.Split mysql '@' = [l, r] ∧ (strings.Split l ':').length = 2 ∧
        (strings.Split r '/').length = 2) := by
  rcases config_Init_cases content kafka mysql influx with
    ⟨ih, ip, l, r, mh, mp, mu, mw, h1, h2, h3, h4, h5⟩ | ⟨⟨hc, _⟩, hbad⟩
  · rw [h5] at h
    exact absurd rfl h
  · exact ⟨hc, hbad⟩

/-- C14: whenever `config.Init(kafka, mysql, influx)` returns nil, `Get` returns
a configuration that parses its arguments without loss: the mysql fields
satisfy `Host + ":" + Port + "@" + User + "/" + Pwd = mysql`, the influx fields
`Host + ":" + Port = influx`, and `KafkaBrokers` are the pieces of `kafka`
between its semicolons, in order, one more than there are semicolons, and
joined with `";"` they give `kafka` back. -/
theorem C14_config_Init_parses_without_loss (content : Option config.VenusDataConfig)
    (kafka mysql influx : String)
    (h : (config.Init content kafka mysql influx).2 = none) :
    ∃ c : config.VenusDataConfig,
      config.Get (config.Init content kafka mysql influx).1 = some c ∧
      c.MysqlDb.Host ++ ":" ++ c.MysqlDb.Port ++ "@" ++ c.MysqlDb.User ++ "/" ++ c.MysqlDb.Pwd
        = mysql ∧
      c.InfluxDb.Host ++ ":" ++ c.InfluxDb.Port = influx ∧
      strings.Join c.KafkaBrokers ";" = kafka ∧
      c.KafkaBrokers = strings.Split kafka ';' ∧
      c.KafkaBrokers.length = kafka.data.count ';' + 1 := by
  obtain ⟨ih, ip, l, r, mh, mp, mu, mw, h1, h2, h3, h4, hc⟩ :=
    config_Init_ok content kafka mysql influx h
  refine ⟨_, by rw [hc]; rfl, ?_, ?_, split_join kafka ';', rfl, split_length kafka ';'⟩
  · have e2 := split_pair mysql l r '@' h2
    have e3 := split_pair l mh mp ':' h3
    have e4 := split_pair r mu mw '/' h4
    simp only
    rw [← e2, ← e3, ← e4]
    simp only [String.append_assoc]
  · exact split_pair influx ih ip ':' h1

/-- C14 at the descriptors of a local deployment. -/
theorem C14_witness :
    ∃ c : config.VenusDataConfig,
      config.Get (config.Init none "k1:9092;k2:9092" "127.0.0.1:3306@root/secret"
        "127.0.0.1:8086").1 = some c ∧
      c.MysqlDb.Host ++ ":" ++ c.MysqlDb.Port ++ "@" ++ c.MysqlDb.User ++ "/" ++ c.MysqlDb.Pwd
        = "127.0.0.1:3306@root/secret" ∧
      c.InfluxDb.Host ++ ":" ++ c.InfluxDb.Port = "127.0.0.1:8086" ∧
      strings.Join c.KafkaBrokers ";" = "k1:9092;k2:9092" ∧
      c.KafkaBrokers = strings.Split "k1:9092;k2:9092" ';' ∧
      c.KafkaBrokers.length = ("k1:9092;k2:9092" : String).data.count ';' + 1 :=
  C14_config_Init_parses_without_loss none "k1:9092;k2:9092" "127.0.0.1:3306@root/secret"
    "127.0.0.1:8086" (by decide)

/-- C15: `config.Init` returns an error exactly when the influx argument does
not split on `:` into exactly two parts, or the mysql argument does not split
on `@` into exactly two parts of which the left splits on `:` and the right
on `/` into exactly two parts each (the number of parts being the number of
separators plus one); and whenever it returns an error the stored
configuration is what it was. -/
theorem C15_config_Init_errors_exactly_on_malformed_descriptors
    (content : Option config.VenusDataConfig) (kafka mysql influx : String) :
    ((config.Init content kafka mysql influx).2 ≠ none ↔
      ((strings.Split influx ':').length ≠ 2 ∨
        ¬ ∃ l r, strings.Split mysql '@' = [l, r] ∧ (strings.Split l ':').length = 2 ∧
          (strings.Split r '/').length = 2)) ∧
    ((config.Init content kafka mysql influx).2 ≠ none →
      config.Get (config.Init content kafka mysql influx).1 = config.Get content) ∧
    (∀ (s : String) (sep : Char), (strings.Split s sep).length = s.data.count sep + 1) :=
  ⟨⟨fun h => (config_Init_err_keeps content kafka mysql influx h).2,
      config_Init_err_of content kafka mysql influx⟩,
    fun h => congrArg config.Get (config_Init_err_keeps content kafka mysql influx h).1,
    split_length⟩

/-! ## The column types -/

/-- C16: `getColumnType` and `getColumnType1` are total and map every signed
integer type to BIGINT, every unsigned integer type to BIGINT UNSIGNED,
`float32` and `float64` to FLOAT, respectively DOUBLE, `bool` to BOOLEAN, a
string to VARCHAR(180) for a union-key column of `getColumnType` and to
VARCHAR(255) otherwise, and nil and every other type to VARCHAR(255). -/
theorem C16_column_type_of_every_value (n : Int) (u bits : Nat) (b key : Bool)
    (s typeName : String) :
    (∀ v ∈ [Any.int n, Any.int8 n, Any.int16 n, Any.int32 n, Any.int64 n],
      mysql.getColumnType v key = "BIGINT" ∧ mysql.getColumnType1 v = "BIGINT") ∧
    (∀ v ∈ [Any.uint u, Any.uint8 u, Any.uint16 u, Any.uint32 u, Any.uint64 u],
      mysql.getColumnType v key = "BIGINT UNSIGNED" ∧
      mysql.getColumnType1 v = "BIGINT UNSIGNED") ∧
    (∀ v ∈ [Any.float32 bits, Any.float64 bits],
      mysql.getColumnType v key = "FLOAT" ∧ mysql.getColumnType1 v = "DOUBLE") ∧
    (mysql.getColumnType (Any.bool b) key = "BOOLEAN" ∧
      mysql.getColumnType1 (Any.bool b) = "BOOLEAN") ∧
    (mysql.getColumnType (Any.string s) true = "VARCHAR(180)" ∧
      mysql.getColumnType (Any.string s) false = "VARCHAR(255)" ∧
      mysql.getColumnType1 (Any.string s) = "VARCHAR(255)") ∧
    (∀ v ∈ [Any.nil, Any.other typeName],
      mysql.getColumnType v key = "VARCHAR(255)" ∧ mysql.getColumnType1 v = "VARCHAR(255)") ∧
    (∀ v : Any, mysql.getColumnType v key ∈
        ["BIGINT", "BIGINT UNSIGNED", "FLOAT", "BOOLEAN", "VARCHAR(180)", "VARCHAR(255)"] ∧
      mysql.getColumnType1 v ∈
        ["BIGINT", "BIGINT UNSIGNED", "DOUBLE", "BOOLEAN", "VARCHAR(255)"]) := by
  refine ⟨?_, ?_, ?_, ⟨rfl, rfl⟩, ⟨rfl, rfl, rfl⟩, ?_, ?_⟩
  · intro v hv
    simp only [List.mem_cons, List.mem_singleton, List.not_mem_nil, or_false] at hv
    rcases hv with h | h | h | h | h <;> subst h <;> exact ⟨rfl, rfl⟩
  · intro v hv
    simp only [List.mem_cons, List.mem_singleton, List.not_mem_nil, or_false] at hv
    rcases hv with h | h | h | h | h <;> subst h <;> exact ⟨rfl, rfl⟩
  · intro v hv
    simp only [List.mem_cons, List.mem_singleton, List.not_mem_nil, or_false] at hv
    rcases hv with h | h <;> subst h <;> exact ⟨rfl, rfl⟩
  · intro v hv
    simp only [List.mem_cons, List.mem_singleton, List.not_mem_nil, or_false] at hv
    rcases hv with h | h <;> subst h <;> exact ⟨rfl, rfl⟩
  · intro v
    cases v <;> cases key <;> simp [mysql.getColumnType, mysql.getColumnType1]

/-! ## Create-table messages -/

/-- C11: `CreateConsumer.Consume` on a create-table message whose table name
has an entry in `createTableOnceMap` returns nil, makes no call on any client
(no `Init`, no `CreateTable`) and leaves `createTableOnceMap` and the
consumer's pools as they were; so consuming the message again does the
same. -/
theorem C11_consume_of_a_created_table_is_a_no_op (cc : mysql.CreateConsumer)
    (createTableOnceMap : GoMap String Bool) (env env2 : mysql.CreateEnv)
    (msg : mysql.CreateTableMessage) (v : Bool)
    (h : GoMap.get createTableOnceMap msg.TableName = some v) :
    mysql.CreateConsumer.Consume cc createTableOnceMap env (.ok msg) =
      some { consumer := cc, createTableOnceMap := createTableOnceMap, err := none,
             calls := [] } ∧
    (mysql.CreateConsumer.Consume cc createTableOnceMap env (.ok msg)).bind
        (fun r => mysql.CreateConsumer.Consume r.consumer r.createTableOnceMap env2 (.ok msg)) =
      mysql.CreateConsumer.Consume cc createTableOnceMap env (.ok msg) := by
  have h1 : mysql.CreateConsumer.Consume cc createTableOnceMap env (.ok msg) =
      some { consumer := cc, createTableOnceMap := createTableOnceMap, err := none,
             calls := [] } := by
    simp [mysql.CreateConsumer.Consume, h]
  have h2 : mysql.CreateConsumer.Consume cc createTableOnceMap env2 (.ok msg) =
      some { consumer := cc, createTableOnceMap := createTableOnceMap, err := none,
             calls := [] } := by
    simp [mysql.CreateConsumer.Consume, h]
  refine ⟨h1, ?_⟩
  rw [h1]
  exact h2

/-- C11 at a consumer without pools, the table `t` marked created, and a
server that would accept the statement. -/
theorem C11_witness :
    mysql.CreateConsumer.Consume { pools := [] } [("t", true)]
        ⟨⟨some 1, true, some 2, true⟩, none⟩ (.ok ⟨"d", "t", "CREATE TABLE t (a INT)"⟩) =
      some { consumer := { pools := [] }, createTableOnceMap := [("t", true)], err := none,
             calls := [] } :=
  (C11_consume_of_a_created_table_is_a_no_op { pools := [] } [("t", true)]
    ⟨⟨some 1, true, some 2, true⟩, none⟩ ⟨⟨some 1, true, some 2, true⟩, none⟩
    ⟨"d", "t", "CREATE TABLE t (a INT)"⟩ true rfl).1

/-! ## The batched write of the mysql client -/

theorem inserts_append (a b : List mysql.DbCall) :
    mysql.inserts (a ++ b) = mysql.inserts a ++ mysql.inserts b := by
  induction a with
  | nil => rfl
  | cons c cs ih => cases c <;> simp [mysql.inserts, ih]

theorem inserts_clearInvalidData (database : String) (clear : String → GoError)
    (table : String) :
    mysql.inserts (mysql.Client.clearInvalidData database clear table).2 = [] := by
  unfold mysql.Client.clearInvalidData
  split <;> rfl

theorem WriteToDbBatch_cases (exec : String → List (GoMap String Any) → GoError)
    (table : String) (data : List (GoMap String Any)) :
    (mysql.Client.WriteToDbBatch exec table data = (none, []) ∧ data.length = 0) ∨
    (mysql.Client.WriteToDbBatch exec table data =
      (exec table data, [mysql.DbCall.insert table data (exec table data)]) ∧
      data.length ≠ 0) := by
  unfold mysql.Client.WriteToDbBatch
  by_cases h : data.length = 0
  · exact Or.inl ⟨by rw [if_pos h], h⟩
  · exact Or.inr ⟨by rw [if_neg h], h⟩

theorem RequestBatch_write_trace (database : String)
    (exec : String → List (GoMap String Any) → GoError) (clear : String → GoError)
    (entries : List (String × List (GoMap String Any))) :
    ((mysql.Client.RequestBatch.write database exec clear entries).1 = none →
      ∀ x ∈ mysql.inserts (mysql.Client.RequestBatch.write database exec clear entries).2,
        x.2.2 = none) ∧
    ((mysql.Client.RequestBatch.write database exec clear entries).1 ≠ none →
      ∃ pre table rows e,
        mysql.inserts (mysql.Client.RequestBatch.write database exec clear entries).2 =
          pre ++ [(table, rows, some e)] ∧ ∀ x ∈ pre, x.2.2 = none) := by
  induction entries with
  | nil => simp [mysql.Client.RequestBatch.write, mysql.inserts]
  | cons entry rest ih =>
    obtain ⟨table, dataMaps⟩ := entry
    rcases WriteToDbBatch_cases exec table dataMaps with ⟨hw, _⟩ | ⟨hw, _⟩
    · simp only [mysql.Client.RequestBatch.write, hw, List.nil_append, inserts_append,
        inserts_clearInvalidData]
      exact ih
    · cases he : exec table dataMaps with
      | some e =>
        rw [he] at hw
        simp only [mysql.Client.RequestBatch.write, hw, mysql.inserts]
        refine ⟨fun h => by simp at h, fun _ => ⟨[], table, dataMaps, e, rfl, by simp⟩⟩
      | none =>
        rw [he] at hw
        simp only [mysql.Client.RequestBatch.write, hw, inserts_append,
          inserts_clearInvalidData, mysql.inserts, List.append_nil, List.singleton_append]
        constructor
        · intro hn x hx
          rcases List.mem_cons.mp hx with hx | hx
          · rw [hx]
          · exact ih.1 hn x hx
        · intro hn
          obtain ⟨pre, t, rows, e, heq, hpre⟩ := ih.2 hn
          refine ⟨(table, dataMaps, none) :: pre, t, rows, e, by rw [heq]; rfl, ?_⟩
          intro x hx
          rcases List.mem_cons.mp hx with hx | hx
          · rw [hx]
          · exact hpre x hx

theorem RequestBatch_group_one_table (t : String) (requests : List mysql.InsertRequest)
    (hall : ∀ r ∈ requests, r.Table = t) :
    ∀ m : GoMap String (List (GoMap String Any)), (m = [] ∨ ∃ d, m = [(t, d)]) →
      (requests.foldl (fun requestMap req =>
        let requestMap1 :=
          match GoMap.get requestMap req.Table with
          | some _ => requestMap
          | none => GoMap.set requestMap req.Table []
        GoMap.set requestMap1 req.Table
          (((GoMap.get requestMap1 req.Table).getD []) ++ [req.Data])) m).length ≤ 1 := by
  induction requests with
  | nil =>
    intro m hm
    rcases hm with hm | ⟨d, hm⟩ <;> simp [hm]
  | cons r rs ih =>
    intro m hm
    have hr : r.Table = t := hall r (List.mem_cons_self r rs)
    simp only [List.foldl_cons]
    apply ih (fun x hx => hall x (List.mem_cons_of_mem r hx))
    rcases hm with hm | ⟨d, hm⟩
    · right
      exact ⟨[r.Data], by simp [hm, hr, GoMap.get, GoMap.set]⟩
    · right
      exact ⟨d ++ [r.Data], by simp [hm, hr, GoMap.get, GoMap.set]⟩

theorem RequestBatch_write_inserts_length (database : String)
    (exec : String → List (GoMap String Any) → GoError) (clear : String → GoError)
    (entries : List (String × List (GoMap String Any))) :
    (mysql.inserts (mysql.Client.RequestBatch.write database exec clear entries).2).length ≤
      entries.length := by
  induction entries with
  | nil => simp [mysql.Client.RequestBatch.write, mysql.inserts]
  | cons entry rest ih =>
    obtain ⟨table, dataMaps⟩ := entry
    rcases WriteToDbBatch_cases exec table dataMaps with ⟨hw, _⟩ | ⟨hw, _⟩
    · simp only [mysql.Client.RequestBatch.write, hw, List.nil_append, inserts_append,
        inserts_clearInvalidData, List.length_cons]
      omega
    · cases he : exec table dataMaps with
      | some e =>
        rw [he] at hw
        simp [mysql.Client.RequestBatch.write, hw, mysql.inserts]
      | none =>
        rw [he] at hw
        simp only [mysql.Client.RequestBatch.write, hw, inserts_append,
          inserts_clearInvalidData, mysql.inserts, List.append_nil, List.singleton_append,
          List.length_cons]
        omega

/-- C12 (as stated, refuted): a batch with one request for table `a` and one
for table `b`, visited in that order, where the insert for `b` fails:
`RequestBatch` returns an error although the insert statement for `a`, issued
by the same invocation, has succeeded and its row is written. -/
theorem C12_counterexample :
    mysql.Client.RequestBatch "metrics" id
        (fun table _ => if table = "b" then some "Error 1146" else none) (fun _ => none)
        [{ Table := "a", Data := [("x", Any.int 1)] },
         { Table := "b", Data := [("y", Any.int 2)] }] =
      (some "Failed to write to b: Error 1146",
        [mysql.DbCall.insert "a" [[("x", Any.int 1)]] none,
         mysql.DbCall.delete "a" none,
         mysql.DbCall.insert "b" [[("y", Any.int 2)]] (some "Error 1146")]) := by
  decide

/-- C12 (amended): `RequestBatch` issues one insert statement per table and
returns at the first that fails, without undoing anything: whenever it
returns an error, the last insert statement it issued is the one that
failed and every insert statement issued before it succeeded; when all the
requests of the batch are for one table, no insert statement of the
invocation succeeded. -/
theorem C12_requestBatch_stops_at_the_first_failed_insert (database : String)
    (visit : GoMap String (List (GoMap String Any)) → List (String × List (GoMap String Any)))
    (exec : String → List (GoMap String Any) → GoError) (clear : String → GoError)
    (requests : List mysql.InsertRequest)
    (herr : (mysql.Client.RequestBatch database visit exec clear requests).1 ≠ none) :
    (∃ pre table rows e,
      mysql.inserts (mysql.Client.RequestBatch database visit exec clear requests).2 =
        pre ++ [(table, rows, some e)] ∧ ∀ x ∈ pre, x.2.2 = none) ∧
    (∀ t : String, (∀ r ∈ requests, r.Table = t) →
      (visit (mysql.Client.RequestBatch.group requests)).Perm
        (mysql.Client.RequestBatch.group requests) →
      ∀ x ∈ mysql.inserts (mysql.Client.RequestBatch database visit exec clear requests).2,
        x.2.2 ≠ none) := by
  unfold mysql.Client.RequestBatch at herr ⊢
  have hmain := (RequestBatch_write_trace database exec clear
    (visit (mysql.Client.RequestBatch.group requests))).2 herr
  refine ⟨hmain, ?_⟩
  intro t hall hperm x hx
  obtain ⟨pre, table, rows, e, heq, _⟩ := hmain
  have hlen := RequestBatch_write_inserts_length database exec clear
    (visit (mysql.Client.RequestBatch.group requests))
  have hone : (mysql.Client.RequestBatch.group requests).length ≤ 1 :=
    RequestBatch_group_one_table t requests hall GoMap.empty (Or.inl rfl)
  rw [hperm.length_eq, heq] at hlen
  have hpre : pre = [] := by
    cases pre with
    | nil => rfl
    | cons a as =>
      simp only [List.length_append, List.length_cons, List.length_nil] at hlen
      omega
  rw [heq, hpre] at hx
  simp only [List.nil_append, List.mem_singleton] at hx
  rw [hx]
  simp

/-- C12 (amended) at a batch for the tables `a` and `b` whose insert for `b`
fails after the insert for `a` succeeded. -/
theorem C12_witness :
    ∃ pre table rows e,
      mysql.inserts (mysql.Client.RequestBatch "metrics" id
        (fun table _ => if table = "b" then some "Error 1146" else none) (fun _ => none)
        [{ Table := "a", Data := [("x", Any.int 1)] },
         { Table := "b", Data := [("y", Any.int 2)] }]).2 =
        pre ++ [(table, rows, some e)] ∧ ∀ x ∈ pre, x.2.2 = none :=
  (C12_requestBatch_stops_at_the_first_failed_insert "metrics" id
    (fun table _ => if table = "b" then some "Error 1146" else none) (fun _ => none)
    [{ Table := "a", Data := [("x", Any.int 1)] },
     { Table := "b", Data := [("y", Any.int 2)] }] (by decide)).1

/-! ## Writing on a client that failed to initialise -/

/-- C17 (the code differs): the influx flush loop drops the result of `Init`
and calls `WriteBatch` all the same. With a new client and a server that
refuses the `create database` query, the first flush attempt has `Init`
return an error and leave the client Failed, and `WriteBatch` is still called
with the batch; every flushing iteration makes the `WriteBatch` call whatever
`Init` returned. The mysql loop on the same input makes no write call. -/
theorem C17_influx_writes_after_a_failed_init :
    influx.Pool.handleInfluxDbChan sourceConfig (FlushLoop.start 0 NewClient)
        [{ value := 1, otherFlush := none, nowCheck := 6000000000,
           backend := { newHTTPClient := some 1, createDbOk := false },
           writeErr := some "connection refused", nowAfter := 6000000000 }] =
      ({ writeBuffer := [], lastWriteTime := 6000000000,
         client := { status := dbStatusErr, dbClient := some 1 } },
        [Call.init (some "influxdb init error"),
         Call.write [1] (some "connection refused")]) ∧
    (∀ (cfg : BaseConfig) (s : FlushLoop Nat) (r : influx.Received Nat),
      influx.Pool.canWriteBatch cfg (seenLastWriteTime s.lastWriteTime r.otherFlush)
        r.nowCheck (s.writeBuffer ++ [r.value]) = true →
      (influx.Pool.handleInfluxDbChan.iteration cfg s r).2 =
        [Call.init (influx.Client.Init s.client r.backend).err,
         Call.write (s.writeBuffer ++ [r.value]) r.writeErr]) ∧
    mysql.Pool.handleMysqlDbChan sourceConfig (FlushLoop.start 0 NewClient)
        [{ value := 1, otherFlush := none, nowCheck := 11000000000,
           backend := { open1 := some 1, createDbOk := false, open2 := some 2,
                        pingOk := true },
           writeErr := some "connection refused", nowAfter := 11000000000 }] =
      ({ writeBuffer := [1], lastWriteTime := 0,
         client := { status := dbStatusErr, dbClient := some 1 } },
        [Call.init (some "mysqldb init error")]) := by
  refine ⟨by decide, ?_, by decide⟩
  intro cfg s r h
  rw [influx_iteration_flush cfg s r h]

/-! ## The handlers and flush loops a pool construction makes -/

theorem PoolHeap_init_loop_spec (n : Nat) :
    ∀ (h : mysql.PoolHeap) (i : Nat),
      (mysql.PoolHeap.init.loop h i n).handlers.length = h.handlers.length + n ∧
      (mysql.PoolHeap.init.loop h i n).loops = h.loops ++ List.range' h.handlers.length n ∧
      (mysql.PoolHeap.init.loop h i n).dbHandlers.length = h.dbHandlers.length ∧
      ∀ j, (mysql.PoolHeap.init.loop h i n).dbHandlers[j]? =
        if i ≤ j ∧ j < i + n ∧ j < h.dbHandlers.length
        then some (some (h.handlers.length + (j - i))) else h.dbHandlers[j]? := by
  induction n with
  | zero =>
    intro h i
    refine ⟨rfl, by simp [mysql.PoolHeap.init.loop], rfl, ?_⟩
    intro j
    have hno : ¬ (i ≤ j ∧ j < i + 0 ∧ j < h.dbHandlers.length) := by omega
    rw [if_neg hno]
    rfl
  | succ n ih =>
    intro h i
    obtain ⟨h1, h2, h3, h4⟩ := ih (mysql.PoolHeap.init.body h i) (i + 1)
    simp only [mysql.PoolHeap.init.loop]
    refine ⟨?_, ?_, ?_, ?_⟩
    · rw [h1]
      simp only [mysql.PoolHeap.init.body, List.length_append, List.length_cons,
        List.length_nil]
      omega
    · rw [h2]
      simp only [mysql.PoolHeap.init.body, List.length_append, List.length_cons,
        List.length_nil, List.append_assoc, List.singleton_append, Nat.zero_add]
      rw [List.range'_succ]
    · rw [h3]
      simp [mysql.PoolHeap.init.body]
    · intro j
      rw [h4]
      simp only [mysql.PoolHeap.init.body, List.length_append, List.length_cons,
        List.length_nil, List.length_set, List.getElem?_set, Nat.zero_add]
      by_cases hij : i = j
      · subst hij
        by_cases hlen : i < h.dbHandlers.length
        · have c1 : ¬ (i + 1 ≤ i ∧ i < i + 1 + n ∧ i < h.dbHandlers.length) := by omega
          have c2 : i ≤ i ∧ i < i + (n + 1) ∧ i < h.dbHandlers.length := by omega
          simp [c1, c2, hlen]
        · have c1 : ¬ (i + 1 ≤ i ∧ i < i + 1 + n ∧ i < h.dbHandlers.length) := by omega
          have c2 : ¬ (i ≤ i ∧ i < i + (n + 1) ∧ i < h.dbHandlers.length) := by omega
          rw [if_neg c1, if_neg c2, if_pos rfl, if_neg hlen]
          exact (List.getElem?_eq_none (by omega)).symm
      · by_cases hc : i + 1 ≤ j ∧ j < i + 1 + n ∧ j < h.dbHandlers.length
        · have c2 : i ≤ j ∧ j < i + (n + 1) ∧ j < h.dbHandlers.length := by omega
          rw [if_pos hc, if_pos c2]
          congr 2
          omega
        · have c2 : ¬ (i ≤ j ∧ j < i + (n + 1) ∧ j < h.dbHandlers.length) := by omega
          rw [if_neg hc, if_neg c2, if_neg hij]

theorem PoolHeap_NewPool_spec (N : Nat) :
    (mysql.PoolHeap.NewPool N).handlers.length = N ∧
    (mysql.PoolHeap.NewPool N).loops = List.range' 0 N ∧
    (mysql.PoolHeap.NewPool N).dbHandlers.length = N ∧
    ∀ j, (mysql.PoolHeap.NewPool N).dbHandlers[j]? = if j < N then some (some j) else none := by
  obtain ⟨h1, h2, h3, h4⟩ := PoolHeap_init_loop_spec N
    { handlers := [], dbHandlers := List.replicate N none, loops := [] } 0
  simp only [List.length_replicate, List.length_nil, Nat.zero_add, List.nil_append] at h1 h2 h3 h4
  unfold mysql.PoolHeap.NewPool mysql.PoolHeap.init
  simp only [List.length_replicate]
  refine ⟨h1, h2, h3, ?_⟩
  intro j
  rw [h4 j]
  by_cases hj : j < N
  · have c : 0 ≤ j ∧ j < N ∧ j < N := by omega
    simp [c, hj]
  · have c : ¬ (0 ≤ j ∧ j < N ∧ j < N) := by omega
    simp [c, hj, List.getElem?_replicate]

theorem PoolHeap_newPoolThenInit_spec (N : Nat) :
    (mysql.PoolHeap.newPoolThenInit N).handlers.length = N + N ∧
    (mysql.PoolHeap.newPoolThenInit N).loops = List.range' 0 N ++ List.range' N N ∧
    ∀ j, (mysql.PoolHeap.newPoolThenInit N).dbHandlers[j]? =
      if j < N then some (some (N + j)) else none := by
  obtain ⟨n1, n2, n3, n4⟩ := PoolHeap_NewPool_spec N
  obtain ⟨h1, h2, _, h4⟩ := PoolHeap_init_loop_spec N (mysql.PoolHeap.NewPool N) 0
  unfold mysql.PoolHeap.newPoolThenInit mysql.PoolHeap.init
  rw [n3]
  rw [n1] at h1 h2 h4
  rw [n2] at h2
  refine ⟨h1, h2, ?_⟩
  intro j
  rw [h4 j, n3, n4 j]
  by_cases hj : j < N
  · have c : 0 ≤ j ∧ j < 0 + N ∧ j < N := by omega
    simp [c, hj]
  · have c : ¬ (0 ≤ j ∧ j < 0 + N ∧ j < N) := by omega
    simp [c, hj]

/-- C18 (the code differs): the three mysql consumers construct the pool of a
new database with `NewPool(N, ...)` followed by `pool.init()`, and `NewPool`
has already run `init`: `2N` handlers are constructed and `2N` flush loops
started, and the first `N` loops read handlers that are no longer in the
pool's handler array. `NewPool` alone, as `CreateConsumer.handle` calls it,
constructs `N` handlers and starts `N` loops, each on a handler of the array.
For `N = 2` the array holds the handlers 2 and 3 and the loops read the
handlers 0, 1, 2 and 3. -/
theorem C18_pool_is_initialised_twice (N : Nat) :
    (mysql.PoolHeap.newPoolThenInit N).handlers.length = 2 * N ∧
    (mysql.PoolHeap.newPoolThenInit N).loops.length = 2 * N ∧
    (∀ a, a < N → a ∈ (mysql.PoolHeap.newPoolThenInit N).loops ∧
      some a ∉ (mysql.PoolHeap.newPoolThenInit N).dbHandlers) ∧
    ((mysql.PoolHeap.NewPool N).handlers.length = N ∧
      (mysql.PoolHeap.NewPool N).loops.length = N ∧
      ∀ a ∈ (mysql.PoolHeap.NewPool N).loops, some a ∈ (mysql.PoolHeap.NewPool N).dbHandlers) ∧
    ((mysql.PoolHeap.newPoolThenInit 2).handlers.length = 4 ∧
      (mysql.PoolHeap.newPoolThenInit 2).dbHandlers = [some 2, some 3] ∧
      (mysql.PoolHeap.newPoolThenInit 2).loops = [0, 1, 2, 3]) := by
  obtain ⟨n1, n2, n3, n4⟩ := PoolHeap_NewPool_spec N
  obtain ⟨h1, h2, h4⟩ := PoolHeap_newPoolThenInit_spec N
  refine ⟨by omega, by rw [h2]; simp; omega, ?_, ⟨n1, by rw [n2]; simp, ?_⟩, by decide⟩
  · intro a ha
    constructor
    · rw [h2]
      exact List.mem_append_left _ (List.mem_range'_1.mpr (by omega))
    · intro hmem
      obtain ⟨j, hj⟩ := List.mem_iff_getElem?.mp hmem
      rw [h4 j] at hj
      by_cases hjn : j < N
      · rw [if_pos hjn] at hj
        simp only [Option.some.injEq] at hj
        omega
      · rw [if_neg hjn] at hj
        cases hj
  · intro a ha
    rw [n2] at ha
    have haN : a < N := by
      have := List.mem_range'_1.mp ha
      omega
    exact List.mem_iff_getElem?.mpr ⟨a, by rw [n4 a, if_pos haN]⟩

/-! ## Round robin under `ReaderConsumer.handlePlus` -/

/-- C19 (the code differs): `ReaderConsumer.handlePlus` obtains a handler twice
for every insert message, once in `createTable` and once in `writeToMysqlDb`,
so the cursor advances by two per record. With a pool of 2 handlers, 2
messages for one database deliver both records to handler 1 and none to
handler 0; with a pool of 3 handlers, 3 messages deliver one record to each
handler, in the order 1, 0, 2. -/
theorem C19_handlePlus_advances_the_cursor_twice_per_record :
    ((mysql.ReaderConsumer.handleAll { sourceConfig with MysqlPoolSize := 2 } { pools := [] }
        [(⟨⟨some 1, true, some 2, true⟩, none⟩, ⟨"d", "t", [("v", Any.int 0)]⟩),
         (⟨⟨some 1, true, some 2, true⟩, none⟩, ⟨"d", "t", [("v", Any.int 1)]⟩)]).bind
      (fun mc => GoMap.get mc.pools "d")).map
        (fun pool => (pool.currentIndex, pool.dbHandlers.map (fun h => h.channel))) =
      some (2, [[], [⟨"t", [("v", Any.int 0)]⟩, ⟨"t", [("v", Any.int 1)]⟩]]) ∧
    ((mysql.ReaderConsumer.handleAll { sourceConfig with MysqlPoolSize := 3 } { pools := [] }
        [(⟨⟨some 1, true, some 2, true⟩, none⟩, ⟨"d", "t", [("v", Any.int 0)]⟩),
         (⟨⟨some 1, true, some 2, true⟩, none⟩, ⟨"d", "t", [("v", Any.int 1)]⟩),
         (⟨⟨some 1, true, some 2, true⟩, none⟩, ⟨"d", "t", [("v", Any.int 2)]⟩)]).bind
      (fun mc => GoMap.get mc.pools "d")).map
        (fun pool => (pool.currentIndex, pool.dbHandlers.map (fun h => h.channel))) =
      some (3, [[⟨"t", [("v", Any.int 1)]⟩], [⟨"t", [("v", Any.int 0)]⟩],
        [⟨"t", [("v", Any.int 2)]⟩]]) := by
  decide

/-! ## The last write time of a pool -/

theorem seenLastWriteTime_none (own : Int) : seenLastWriteTime own none = own := rfl

theorem getElem?_set_ne {β : Type} (l : List β) (i j : Nat) (x : β) (h : j ≠ i) :
    (l.set i x)[j]? = l[j]? := by
  rw [List.getElem?_set, if_neg (fun e => h e.symm)]

theorem influx_handlerReceives_spec {α : Type} (cfg : BaseConfig) (s : PoolLoops α) (i : Nat)
    (r : influx.Received α) :
    (∀ j, j ≠ i → (influx.Pool.handlerReceives cfg s i r).1.loops[j]? = s.loops[j]?) ∧
    ((influx.Pool.handlerReceives cfg s i r).2 = [] →
      (influx.Pool.handlerReceives cfg s i r).1.lastWriteTime = s.lastWriteTime) ∧
    ((influx.Pool.handlerReceives cfg s i r).2 ≠ [] →
      (influx.Pool.handlerReceives cfg s i r).1.lastWriteTime = r.nowAfter) := by
  unfold influx.Pool.handlerReceives
  cases hl : s.loops[i]? with
  | none => simp
  | some bc =>
    obtain ⟨buf, client⟩ := bc
    simp only
    cases hcan : influx.Pool.canWriteBatch cfg s.lastWriteTime r.nowCheck (buf ++ [r.value]) with
    | false =>
      rw [influx_iteration_quiet cfg _ _ (by simpa [seenLastWriteTime_none] using hcan)]
      exact ⟨fun j hj => getElem?_set_ne _ _ _ _ hj, fun _ => rfl, fun h => absurd rfl h⟩
    | true =>
      rw [influx_iteration_flush cfg _ _ (by simpa [seenLastWriteTime_none] using hcan)]
      exact ⟨fun j hj => getElem?_set_ne _ _ _ _ hj, fun h => by simp at h, fun _ => rfl⟩

theorem mysql_handlerReceives_spec {α : Type} (cfg : BaseConfig) (s : PoolLoops α) (i : Nat)
    (r : mysql.Received α) :
    (∀ j, j ≠ i → (mysql.Pool.handlerReceives cfg s i r).1.loops[j]? = s.loops[j]?) ∧
    ((∀ buf, (mysql.Pool.handlerReceives cfg s i r).2 ≠
        [Call.init none, Call.write buf none]) →
      (mysql.Pool.handlerReceives cfg s i r).1.lastWriteTime = s.lastWriteTime) ∧
    ((∃ buf, (mysql.Pool.handlerReceives cfg s i r).2 =
        [Call.init none, Call.write buf none]) →
      (mysql.Pool.handlerReceives cfg s i r).1.lastWriteTime = r.nowAfter) := by
  unfold mysql.Pool.handlerReceives
  cases hl : s.loops[i]? with
  | none => simp
  | some bc =>
    obtain ⟨buf, client⟩ := bc
    simp only
    cases hcan : mysql.Pool.canInsertBatch cfg s.lastWriteTime r.nowCheck (buf ++ [r.value]) with
    | false =>
      rw [mysql_iteration_quiet cfg _ _ (by simpa [seenLastWriteTime_none] using hcan)]
      exact ⟨fun j hj => getElem?_set_ne _ _ _ _ hj, fun _ => rfl, fun h => by simp at h⟩
    | true =>
      cases hinit : (mysql.Client.Init client r.backend).err with
      | some e =>
        simp only [mysql.Pool.handleMysqlDbChan.iteration, seenLastWriteTime_none, hcan,
          hinit, Bool.not_true, Bool.false_eq_true, if_false]
        refine ⟨fun j hj => getElem?_set_ne _ _ _ _ hj, ?_, ?_⟩ <;> intro h <;>
          first | trivial | rfl | (simp at h)
      | none =>
        cases hw : r.writeErr with
        | some e =>
          simp only [mysql.Pool.handleMysqlDbChan.iteration, seenLastWriteTime_none, hcan,
            hinit, hw, Bool.not_true, Bool.false_eq_true, if_false]
          refine ⟨fun j hj => getElem?_set_ne _ _ _ _ hj, ?_, ?_⟩ <;> intro h <;>
            first | trivial | rfl | (simp at h)
        | none =>
          simp only [mysql.Pool.handleMysqlDbChan.iteration, seenLastWriteTime_none, hcan,
            hinit, hw, Bool.not_true, Bool.false_eq_true, if_false]
          refine ⟨fun j hj => getElem?_set_ne _ _ _ _ hj, ?_, ?_⟩ <;> intro h <;>
            first | trivial | rfl | exact absurd rfl (h (buf ++ [r.value]))

/-- C20 (as stated, refuted): in a pool of two handlers whose `lastWriteTime`
is 0, handler 1 would flush a buffer of one record at clock reading 7 s (12 s
for mysql); after handler 0 has flushed at 6 s (11 s) the pool's
`lastWriteTime` is that instant and handler 1, for the same buffer and the
same clock reading, does not flush. -/
theorem C20_counterexample :
    influx.Pool.canWriteBatch sourceConfig
      (⟨0, [([], readyClient), ([], readyClient)]⟩ : PoolLoops Nat).lastWriteTime
      7000000000 [2] = true ∧
    influx.Pool.canWriteBatch sourceConfig
      (influx.Pool.handlerReceives sourceConfig ⟨0, [([], readyClient), ([], readyClient)]⟩ 0
        (influx.received 1 6000000000 none)).1.lastWriteTime 7000000000 [2] = false ∧
    mysql.Pool.canInsertBatch sourceConfig
      (⟨0, [([], readyClient), ([], readyClient)]⟩ : PoolLoops Nat).lastWriteTime
      12000000000 [2] = true ∧
    mysql.Pool.canInsertBatch sourceConfig
      (mysql.Pool.handlerReceives sourceConfig ⟨0, [([], readyClient), ([], readyClient)]⟩ 0
        (mysql.received 1 11000000000 none)).1.lastWriteTime 12000000000 [2] = false := by
  decide

/-- C20 (amended): the last-flush timestamp belongs to the pool and is shared by
its handlers. An iteration of handler `i` leaves the buffer and the client of
every other handler as they were; when it does not flush (for mysql: does not
complete a write) the pool's `lastWriteTime`, and with it every flush
decision, is unchanged; when it flushes, `lastWriteTime` becomes the clock
reading after the write, and the decision any handler then takes for a buffer
and a clock reading `now` is `len(buffer) >= maxBatchSize` or
`now - (that reading) > maxInterval`; a buffer of at least `maxBatchSize`
records is flushed before and after. -/
theorem C20_lastWriteTime_is_shared_by_the_handlers_of_a_pool {α : Type} (cfg : BaseConfig)
    (s : PoolLoops α) (i : Nat) (r : influx.Received α) (mr : mysql.Received α) :
    ((∀ j, j ≠ i → (influx.Pool.handlerReceives cfg s i r).1.loops[j]? = s.loops[j]?) ∧
      ((influx.Pool.handlerReceives cfg s i r).2 = [] → ∀ (now : Int) (buf : List α),
        influx.Pool.canWriteBatch cfg (influx.Pool.handlerReceives cfg s i r).1.lastWriteTime
          now buf = influx.Pool.canWriteBatch cfg s.lastWriteTime now buf) ∧
      ((influx.Pool.handlerReceives cfg s i r).2 ≠ [] → ∀ (now : Int) (buf : List α),
        (influx.Pool.canWriteBatch cfg (influx.Pool.handlerReceives cfg s i r).1.lastWriteTime
          now buf = true ↔
          ((buf.length : Int) ≥ cfg.InfluxMaxBufferSize ∨
            now - r.nowAfter > secondsToDuration cfg.InfluxMaxIntervalTime))) ∧
      (∀ (now : Int) (buf : List α), (buf.length : Int) ≥ cfg.InfluxMaxBufferSize →
        influx.Pool.canWriteBatch cfg (influx.Pool.handlerReceives cfg s i r).1.lastWriteTime
          now buf = true ∧ influx.Pool.canWriteBatch cfg s.lastWriteTime now buf = true)) ∧
    ((∀ j, j ≠ i → (mysql.Pool.handlerReceives cfg s i mr).1.loops[j]? = s.loops[j]?) ∧
      ((∀ b, (mysql.Pool.handlerReceives cfg s i mr).2 ≠ [Call.init none, Call.write b none]) →
        ∀ (now : Int) (buf : List α),
        mysql.Pool.canInsertBatch cfg (mysql.Pool.handlerReceives cfg s i mr).1.lastWriteTime
          now buf = mysql.Pool.canInsertBatch cfg s.lastWriteTime now buf) ∧
      ((∃ b, (mysql.Pool.handlerReceives cfg s i mr).2 = [Call.init none, Call.write b none]) →
        ∀ (now : Int) (buf : List α),
        (mysql.Pool.canInsertBatch cfg (mysql.Pool.handlerReceives cfg s i mr).1.lastWriteTime
          now buf = true ↔
          ((buf.length : Int) ≥ cfg.MysqlMaxBufferSize ∨
            now - mr.nowAfter > secondsToDuration cfg.MysqlMaxIntervalTime))) ∧
      (∀ (now : Int) (buf : List α), (buf.length : Int) ≥ cfg.MysqlMaxBufferSize →
        mysql.Pool.canInsertBatch cfg (mysql.Pool.handlerReceives cfg s i mr).1.lastWriteTime
          now buf = true ∧ mysql.Pool.canInsertBatch cfg s.lastWriteTime now buf = true)) := by
  obtain ⟨i1, i2, i3⟩ := influx_handlerReceives_spec cfg s i r
  obtain ⟨m1, m2, m3⟩ := mysql_handlerReceives_spec cfg s i mr
  refine ⟨⟨i1, ?_, ?_, ?_⟩, ⟨m1, ?_, ?_, ?_⟩⟩
  · intro h now buf
    rw [i2 h]
  · intro h now buf
    rw [i3 h]
    exact influx_canWriteBatch_iff cfg r.nowAfter now buf
  · intro now buf hlen
    exact ⟨(influx_canWriteBatch_iff cfg _ now buf).mpr (Or.inl hlen),
      (influx_canWriteBatch_iff cfg _ now buf).mpr (Or.inl hlen)⟩
  · intro h now buf
    rw [m2 h]
  · intro h now buf
    rw [m3 h]
    exact mysql_canInsertBatch_iff cfg mr.nowAfter now buf
  · intro now buf hlen
    exact ⟨(mysql_canInsertBatch_iff cfg _ now buf).mpr (Or.inl hlen),
      (mysql_canInsertBatch_iff cfg _ now buf).mpr (Or.inl hlen)⟩

/-! ## `Client.Init` called by several goroutines -/

theorem InitRace_start_inv (ok : Nat → Bool) (client : Client) :
    InitRace.Inv ok (InitRace.start client) := by
  refine ⟨?_, ?_, ?_, ?_, ?_⟩
  · intro t; simp [InitRace.start, InitPc.holdsLock]
  · intro t h; simp [InitRace.start] at h
  · intro _ _ k hk; simp [InitRace.start] at hk
  · intro t e h; simp [InitRace.start] at h
  · intro k hk; simp [InitRace.start] at hk

theorem InitRace_goto_inv (ok : Nat → Bool) (s : InitRace) (t : Nat) (x : InitPc)
    (hinv : InitRace.Inv ok s) (hl : x.holdsLock = (s.pc t).holdsLock)
    (h4 : (x = InitPc.check4 ∨ x = InitPc.storeInit ∨ x = InitPc.attempt) →
      ∀ k, k < s.connects → ok k = false)
    (h5 : (∀ e, s.pc t ≠ InitPc.storeResult e) ∨
      (s.client.status ≠ dbStatusOk → ∀ k, k < s.connects → ok k = false))
    (h6 : ∀ e, x ≠ InitPc.storeResult e) :
    InitRace.Inv ok (s.goto t x) := by
  obtain ⟨i1, i4, i5, i6, i7⟩ := hinv
  refine ⟨?_, ?_, ?_, ?_, i7⟩
  · intro u
    simp only [InitRace.goto]
    by_cases hu : u = t
    · subst hu
      simp only [if_true]
      rw [hl]
      exact i1 u
    · simp only [hu, if_false]
      exact i1 u
  · intro u hu k hk
    simp only [InitRace.goto] at hu hk
    by_cases hut : u = t
    · subst hut
      simp only [if_true] at hu
      exact h4 hu k hk
    · simp only [hut, if_false] at hu
      exact i4 u hu k hk
  · intro hno hst k hk
    simp only [InitRace.goto] at hno hst hk
    rcases h5 with h5 | h5
    · refine i5 ?_ hst k hk
      intro u e hue
      by_cases hut : u = t
      · subst hut
        exact h5 e hue
      · have := hno u e
        simp only [hut, if_false] at this
        exact this hue
    · exact h5 hst k hk
  · intro u e hue
    simp only [InitRace.goto] at hue ⊢
    by_cases hut : u = t
    · subst hut
      simp only [if_true] at hue
      exact absurd hue (h6 e)
    · simp only [hut, if_false] at hue
      exact i6 u e hue

theorem InitRace_setStatus_inv (ok : Nat → Bool) (s : InitRace) (st : Nat)
    (hinv : InitRace.Inv ok s)
    (h : st ≠ dbStatusOk → (∀ t e, s.pc t ≠ InitPc.storeResult e) →
      ∀ k, k < s.connects → ok k = false) :
    InitRace.Inv ok { s with client := { s.client with status := st } } := by
  obtain ⟨i1, i4, _, i6, i7⟩ := hinv
  exact ⟨i1, i4, fun hno hst => h hst hno, i6, i7⟩

theorem InitRace_step_inv (attempt : Client → Nat → Client × GoError) (busy failed : String)
    (ok : Nat → Bool)
    (hatt : ∀ c k, (attempt c k).2 = none ↔ ok k = true)
    (s : InitRace) (t : Nat) (hinv : InitRace.Inv ok s) :
    InitRace.Inv ok (InitRace.step attempt busy failed s t) := by
  have hinv0 := hinv
  obtain ⟨i1, i4, i5, i6, i7⟩ := hinv
  have uniq : ∀ u, (s.pc t).holdsLock = true → (s.pc u).holdsLock = true → u = t := by
    intro u ht hu
    have a := (i1 t).mp ht
    have b := (i1 u).mp hu
    rw [a] at b
    exact (Option.some.inj b).symm
  have nores : (s.pc t).holdsLock = true → (∀ e, s.pc t ≠ InitPc.storeResult e) →
      ∀ u e, s.pc u ≠ InitPc.storeResult e := by
    intro ht hne u e hue
    have hu : (s.pc u).holdsLock = true := by rw [hue]; rfl
    have := uniq u ht hu
    subst this
    exact hne e hue
  unfold InitRace.step
  cases hpc : s.pc t with
  | check1 =>
    simp only
    split
    · exact InitRace_goto_inv ok s t _ hinv0 (by rw [hpc]; rfl) (by simp)
        (Or.inl (by simp [hpc])) (by simp)
    · exact InitRace_goto_inv ok s t _ hinv0 (by rw [hpc]; rfl) (by simp)
        (Or.inl (by simp [hpc])) (by simp)
  | check2 =>
    simp only
    split
    · exact InitRace_goto_inv ok s t _ hinv0 (by rw [hpc]; rfl) (by simp)
        (Or.inl (by simp [hpc])) (by simp)
    · exact InitRace_goto_inv ok s t _ hinv0 (by rw [hpc]; rfl) (by simp)
        (Or.inl (by simp [hpc])) (by simp)
  | lock =>
    simp only
    cases hl : s.locked with
    | some holder => exact hinv0
    | none =>
      simp only
      have nohold : ∀ u, (s.pc u).holdsLock = false := by
        intro u
        cases hh : (s.pc u).holdsLock with
        | false => rfl
        | true =>
          have := (i1 u).mp hh
          rw [hl] at this
          cases this
      refine ⟨?_, ?_, ?_, ?_, i7⟩
      · intro u
        simp only [InitRace.goto]
        by_cases hu : u = t
        · subst hu
          simp [InitPc.holdsLock]
        · simp only [hu, if_false, nohold u]
          constructor
          · intro h; cases h
          · intro h
            exact absurd (Option.some.inj h).symm hu
      · intro u hu k hk
        simp only [InitRace.goto] at hu hk
        by_cases hut : u = t
        · subst hut
          simp at hu
        · simp only [hut, if_false] at hu
          exact i4 u hu k hk
      · intro hno hst k hk
        simp only [InitRace.goto] at hno hst hk
        refine i5 ?_ hst k hk
        intro u e hue
        have := nohold u
        rw [hue] at this
        cases this
      · intro u e hue
        simp only [InitRace.goto] at hue ⊢
        by_cases hut : u = t
        · subst hut
          simp at hue
        · simp only [hut, if_false] at hue
          exact i6 u e hue
  | check3 =>
    simp only
    have ht : (s.pc t).holdsLock = true := by rw [hpc]; rfl
    split
    · exact InitRace_goto_inv ok s t _ hinv0 (by rw [hpc]; rfl) (by simp)
        (Or.inl (by simp [hpc])) (by simp)
    · rename_i hst
      refine InitRace_goto_inv ok s t _ hinv0 (by rw [hpc]; rfl) ?_
        (Or.inl (by simp [hpc])) (by simp)
      intro _
      exact i5 (nores ht (by simp [hpc])) hst
  | check4 =>
    simp only
    split
    · exact InitRace_goto_inv ok s t _ hinv0 (by rw [hpc]; rfl) (by simp)
        (Or.inl (by simp [hpc])) (by simp)
    · exact InitRace_goto_inv ok s t _ hinv0 (by rw [hpc]; rfl)
        (fun _ => i4 t (Or.inl hpc)) (Or.inl (by simp [hpc])) (by simp)
  | storeInit =>
    simp only
    have hF := i4 t (Or.inr (Or.inl hpc))
    exact InitRace_goto_inv ok _ t _
      (InitRace_setStatus_inv ok s dbStatusInit hinv0 (fun _ _ => hF))
      (by simp only [hpc]; rfl) (fun _ => hF) (Or.inl (by simp [hpc])) (by simp)
  | attempt =>
    simp only
    have ht : (s.pc t).holdsLock = true := by rw [hpc]; rfl
    have hF := i4 t (Or.inr (Or.inr hpc))
    refine ⟨?_, ?_, ?_, ?_, ?_⟩
    · intro u
      simp only [InitRace.goto]
      by_cases hu : u = t
      · subst hu
        simp only [if_true]
        rw [← i1 u, hpc]
        rfl
      · simp only [hu, if_false]
        exact i1 u
    · intro u hu k hk
      simp only [InitRace.goto] at hu hk
      by_cases hut : u = t
      · subst hut
        simp at hu
      · simp only [hut, if_false] at hu
        have hh : (s.pc u).holdsLock = true := by
          rcases hu with h | h | h <;> rw [h] <;> rfl
        exact absurd (uniq u ht hh) hut
    · intro hno
      have := hno t (attempt s.client s.connects).2
      simp [InitRace.goto] at this
    · intro u e hue
      simp only [InitRace.goto] at hue ⊢
      by_cases hut : u = t
      · subst hut
        simp only [if_true, InitPc.storeResult.injEq] at hue
        subst hue
        exact ⟨by omega, by simpa using hatt s.client s.connects⟩
      · simp only [hut, if_false] at hue
        have hh : (s.pc u).holdsLock = true := by rw [hue]; rfl
        exact absurd (uniq u ht hh) hut
    · intro k hk
      simp only [InitRace.goto] at hk
      exact hF k (by omega)
  | storeResult e =>
    have ht : (s.pc t).holdsLock = true := by rw [hpc]; rfl
    obtain ⟨hc1, hiff⟩ := i6 t e hpc
    cases e with
    | none =>
      simp only
      exact InitRace_goto_inv ok _ t _
        (InitRace_setStatus_inv ok s dbStatusOk hinv0 (fun h => absurd rfl h))
        (by simp only [hpc]; rfl) (by simp) (Or.inr (fun h => absurd rfl h)) (by simp)
    | some msg =>
      simp only
      have hlast : ok (s.connects - 1) = false := by
        cases hk : ok (s.connects - 1) with
        | false => rfl
        | true =>
          have := hiff.mpr hk
          cases this
      have hF : ∀ k, k < s.connects → ok k = false := by
        intro k hk
        by_cases hlt : k + 1 < s.connects
        · exact i7 k hlt
        · have : k = s.connects - 1 := by omega
          rw [this]
          exact hlast
      exact InitRace_goto_inv ok _ t _
        (InitRace_setStatus_inv ok s dbStatusErr hinv0 (fun _ hno => absurd hpc (hno t _)))
        (by simp only [hpc]; rfl) (by simp) (Or.inr (fun _ => hF)) (by simp)
  | unlock result =>
    simp only
    have ht : (s.pc t).holdsLock = true := by rw [hpc]; rfl
    refine ⟨?_, ?_, ?_, ?_, i7⟩
    · intro u
      simp only [InitRace.goto]
      by_cases hu : u = t
      · subst hu
        simp [InitPc.holdsLock]
      · simp only [hu, if_false]
        constructor
        · intro hh
          exact absurd (uniq u ht hh) hu
        · intro h; cases h
    · intro u hu k hk
      simp only [InitRace.goto] at hu hk
      by_cases hut : u = t
      · subst hut
        simp at hu
      · simp only [hut, if_false] at hu
        exact i4 u hu k hk
    · intro hno hst k hk
      simp only [InitRace.goto] at hno hst hk
      exact i5 (nores ht (by simp [hpc])) hst k hk
    · intro u e hue
      simp only [InitRace.goto] at hue ⊢
      by_cases hut : u = t
      · subst hut
        simp at hue
      · simp only [hut, if_false] at hue
        exact i6 u e hue
  | done result => exact hinv0

theorem InitRace_run_inv (attempt : Client → Nat → Client × GoError) (busy failed : String)
    (ok : Nat → Bool)
    (hatt : ∀ c k, (attempt c k).2 = none ↔ ok k = true)
    (schedule : List Nat) :
    ∀ s : InitRace, InitRace.Inv ok s →
      InitRace.Inv ok (InitRace.run attempt busy failed s schedule) := by
  induction schedule with
  | nil => intro s h; exact h
  | cons t ts ih =>
    intro s h
    exact ih _ (InitRace_step_inv attempt busy failed ok hatt s t h)

theorem InitRace_start_fresh (client : Client) :
    InitRace.Fresh client.status (InitRace.start client) := by
  intro _
  exact Or.inl ⟨rfl, fun _ => rfl⟩

theorem InitRace_goto_fresh (st0 : Nat) (s : InitRace) (t : Nat) (x : InitPc)
    (h3 : st0 ≠ dbStatusInit) (hf : InitRace.Fresh st0 s)
    (hx : x.beforeAttempt = true ∨ (s.client.status = dbStatusInit ∧ ∃ r, x = InitPc.done r))
    (hpc : s.pc t ≠ InitPc.attempt) : InitRace.Fresh st0 (s.goto t x) := by
  intro hc
  rcases hf hc with ⟨hs, hall⟩ | ⟨hs, ⟨h, hh⟩, hall⟩
  · rcases hx with hx | ⟨hinit, _⟩
    · refine Or.inl ⟨hs, fun u => ?_⟩
      show (if u = t then x else s.pc u).beforeAttempt = true
      by_cases hu : u = t
      · rw [if_pos hu]
        exact hx
      · rw [if_neg hu]
        exact hall u
    · exact absurd (hs.symm.trans hinit) h3
  · have hht : h ≠ t := by
      intro heq
      rw [heq] at hh
      exact hpc hh
    refine Or.inr ⟨hs, ⟨h, ?_⟩, fun u => ?_⟩
    · show (if h = t then x else s.pc h) = InitPc.attempt
      rw [if_neg hht]
      exact hh
    · show (if u = t then x else s.pc u).beforeAttempt = true ∨
        (if u = t then x else s.pc u) = InitPc.attempt ∨
        ∃ r, (if u = t then x else s.pc u) = InitPc.done r
      by_cases hu : u = t
      · simp only [if_pos hu]
        rcases hx with hx | ⟨_, r, hr⟩
        · exact Or.inl hx
        · exact Or.inr (Or.inr ⟨r, hr⟩)
      · simp only [if_neg hu]
        exact hall u

theorem InitRace_fresh_status (st0 : Nat) (s : InitRace) (h1 : st0 ≠ dbStatusOk)
    (hf : InitRace.Fresh st0 s) (hc : s.connects = 0) : s.client.status ≠ dbStatusOk := by
  intro hst
  rcases hf hc with ⟨hs, _⟩ | ⟨hs, _⟩
  · exact h1 (hs.symm.trans hst)
  · rw [hs] at hst
    exact absurd hst (by decide)

theorem InitRace_fresh_pc (st0 : Nat) (s : InitRace) (t : Nat)
    (hf : InitRace.Fresh st0 s) (hc : s.connects = 0) :
    (s.pc t).beforeAttempt = true ∨ s.pc t = InitPc.attempt ∨ ∃ r, s.pc t = InitPc.done r := by
  rcases hf hc with ⟨_, hall⟩ | ⟨_, _, hall⟩
  · exact Or.inl (hall t)
  · exact hall t

theorem InitRace_step_fresh (attempt : Client → Nat → Client × GoError) (busy failed : String)
    (ok : Nat → Bool) (st0 : Nat) (h1 : st0 ≠ dbStatusOk) (h3 : st0 ≠ dbStatusInit)
    (s : InitRace) (t : Nat) (hinv : InitRace.Inv ok s) (hf : InitRace.Fresh st0 s) :
    InitRace.Fresh st0 (InitRace.step attempt busy failed s t) := by
  unfold InitRace.step
  cases hpc : s.pc t with
  | check1 =>
    simp only
    by_cases hst : s.client.status = dbStatusOk
    · rw [if_pos hst]
      intro hc
      exact absurd hst (InitRace_fresh_status st0 s h1 hf hc)
    · rw [if_neg hst]
      exact InitRace_goto_fresh st0 s t _ h3 hf (Or.inl rfl) (by rw [hpc]; simp)
  | check2 =>
    simp only
    by_cases hst : s.client.status = dbStatusInit
    · rw [if_pos hst]
      exact InitRace_goto_fresh st0 s t _ h3 hf (Or.inr ⟨hst, _, rfl⟩) (by rw [hpc]; simp)
    · rw [if_neg hst]
      exact InitRace_goto_fresh st0 s t _ h3 hf (Or.inl rfl) (by rw [hpc]; simp)
  | lock =>
    simp only
    cases hl : s.locked with
    | some holder => exact hf
    | none =>
      exact InitRace_goto_fresh st0 { s with locked := some t } t _ h3 hf (Or.inl rfl)
        (by show s.pc t ≠ InitPc.attempt; rw [hpc]; simp)
  | check3 =>
    simp only
    by_cases hst : s.client.status = dbStatusOk
    · rw [if_pos hst]
      intro hc
      exact absurd hst (InitRace_fresh_status st0 s h1 hf hc)
    · rw [if_neg hst]
      exact InitRace_goto_fresh st0 s t _ h3 hf (Or.inl rfl) (by rw [hpc]; simp)
  | check4 =>
    simp only
    by_cases hst : s.client.status = dbStatusInit
    · rw [if_pos hst]
      intro hc
      exfalso
      rcases hf hc with ⟨hs, _⟩ | ⟨_, ⟨h, hh⟩, _⟩
      · exact h3 (hs.symm.trans hst)
      · have a := (hinv.1 h).mp (by rw [hh]; rfl)
        have b := (hinv.1 t).mp (by rw [hpc]; rfl)
        rw [a] at b
        have heq : h = t := Option.some.inj b
        rw [heq, hpc] at hh
        cases hh
    · rw [if_neg hst]
      exact InitRace_goto_fresh st0 s t _ h3 hf (Or.inl rfl) (by rw [hpc]; simp)
  | storeInit =>
    simp only
    intro hc
    have hall := fun u => InitRace_fresh_pc st0 s u hf hc
    refine Or.inr ⟨rfl, ⟨t, ?_⟩, fun u => ?_⟩
    · show (if t = t then InitPc.attempt else s.pc t) = InitPc.attempt
      rw [if_pos rfl]
    · show (if u = t then InitPc.attempt else s.pc u).beforeAttempt = true ∨
        (if u = t then InitPc.attempt else s.pc u) = InitPc.attempt ∨
        ∃ r, (if u = t then InitPc.attempt else s.pc u) = InitPc.done r
      by_cases hu : u = t
      · rw [if_pos hu]
        exact Or.inr (Or.inl rfl)
      · simp only [if_neg hu]
        exact hall u
  | attempt =>
    simp only
    intro hc
    exact absurd hc (Nat.succ_ne_zero _)
  | storeResult e =>
    intro hc
    exfalso
    have hc0 : s.connects = 0 := by
      cases e <;> exact hc
    rcases InitRace_fresh_pc st0 s t hf hc0 with h | h | ⟨r, h⟩ <;> rw [hpc] at h <;> cases h
  | unlock r =>
    simp only
    intro hc
    exfalso
    have hc0 : s.connects = 0 := hc
    rcases InitRace_fresh_pc st0 s t hf hc0 with h | h | ⟨r, h⟩ <;> rw [hpc] at h <;> cases h
  | done r => exact hf

theorem InitRace_run_fresh (attempt : Client → Nat → Client × GoError) (busy failed : String)
    (ok : Nat → Bool) (hatt : ∀ c k, (attempt c k).2 = none ↔ ok k = true)
    (st0 : Nat) (h1 : st0 ≠ dbStatusOk) (h3 : st0 ≠ dbStatusInit) (schedule : List Nat) :
    ∀ s, InitRace.Inv ok s → InitRace.Fresh st0 s →
      InitRace.Fresh st0 (InitRace.run attempt busy failed s schedule) := by
  induction schedule with
  | nil => intro s _ h; exact h
  | cons t ts ih =>
    intro s hinv hf
    exact ih _ (InitRace_step_inv attempt busy failed ok hatt s t hinv)
      (InitRace_step_fresh attempt busy failed ok st0 h1 h3 s t hinv hf)

theorem InitRace_returned_connects (ok : Nat → Bool) (st0 : Nat) (s : InitRace) (t : Nat)
    (r : GoError) (hinv : InitRace.Inv ok s) (hf : InitRace.Fresh st0 s)
    (hpc : s.pc t = InitPc.done r) (hl : s.locked = none) : 1 ≤ s.connects := by
  by_contra hlt
  have hc : s.connects = 0 := by omega
  rcases hf hc with ⟨_, hall⟩ | ⟨_, ⟨h, hh⟩, _⟩
  · have := hall t
    rw [hpc] at this
    cases this
  · have a := (hinv.1 h).mp (by rw [hh]; rfl)
    rw [hl] at a
    cases a

theorem InitRace_check2_to_lock (attempt : Client → Nat → Client × GoError)
    (busy failed : String) (s : InitRace) (t : Nat) (hpc : s.pc t = InitPc.check2)
    (hst : s.client.status ≠ dbStatusInit) :
    InitRace.run attempt busy failed s [t] = s.goto t InitPc.lock := by
  simp [InitRace.run, InitRace.step, hpc, hst]

theorem InitRace_lock_waits (attempt : Client → Nat → Client × GoError)
    (busy failed : String) (s : InitRace) (t u : Nat) (hpc : s.pc t = InitPc.lock)
    (hl : s.locked = some u) : InitRace.run attempt busy failed s [t] = s := by
  simp [InitRace.run, InitRace.step, hpc, hl]

theorem InitRace_lock_takes (attempt : Client → Nat → Client × GoError)
    (busy failed : String) (s : InitRace) (t : Nat) (hpc : s.pc t = InitPc.lock)
    (hl : s.locked = none) :
    InitRace.run attempt busy failed s [t] =
      { s with locked := some t }.goto t InitPc.check3 := by
  simp [InitRace.run, InitRace.step, hpc, hl]

theorem InitRace_lock_after_success (attempt : Client → Nat → Client × GoError)
    (busy failed : String) (s : InitRace) (t : Nat) (hpc : s.pc t = InitPc.lock)
    (hl : s.locked = none) (hst : s.client.status = dbStatusOk) :
    (InitRace.run attempt busy failed s [t, t, t]).pc t = InitPc.done none ∧
    (InitRace.run attempt busy failed s [t, t, t]).connects = s.connects ∧
    (InitRace.run attempt busy failed s [t, t, t]).locked = none ∧
    (InitRace.run attempt busy failed s [t, t, t]).client = s.client := by
  simp [InitRace.run, InitRace.step, InitRace.goto, hpc, hl, hst]

theorem InitRace_lock_retry (attempt : Client → Nat → Client × GoError)
    (busy failed : String) (ok : Nat → Bool)
    (hatt : ∀ c k, (attempt c k).2 = none ↔ ok k = true) (s : InitRace) (t : Nat)
    (hpc : s.pc t = InitPc.lock) (hl : s.locked = none)
    (h1 : s.client.status ≠ dbStatusOk) (h3 : s.client.status ≠ dbStatusInit) :
    (InitRace.run attempt busy failed s [t, t, t, t, t, t, t]).connects = s.connects + 1 ∧
    (InitRace.run attempt busy failed s [t, t, t, t, t, t, t]).pc t =
      InitPc.done (if ok s.connects = true then none else some failed) ∧
    (InitRace.run attempt busy failed s [t, t, t, t, t, t, t]).client.status =
      (if ok s.connects = true then dbStatusOk else dbStatusErr) ∧
    (InitRace.run attempt busy failed s [t, t, t, t, t, t, t]).locked = none := by
  have hok := hatt { s.client with status := dbStatusInit } s.connects
  rcases hres : attempt { s.client with status := dbStatusInit } s.connects with ⟨c2, _ | e⟩
  · rw [hres] at hok
    have hk : ok s.connects = true := hok.mp rfl
    simp [InitRace.run, InitRace.step, InitRace.goto, hpc, hl, h1, h3, hres, hk]
  · rw [hres] at hok
    have hk : ok s.connects = false := by
      cases h : ok s.connects with
      | false => rfl
      | true => exact absurd (hok.mpr h) (by simp)
    simp [InitRace.run, InitRace.step, InitRace.goto, hpc, hl, h1, h3, hres, hk]

theorem InitRace_run_cons (attempt : Client → Nat → Client × GoError) (busy failed : String)
    (s : InitRace) (t : Nat) (ts : List Nat) :
    InitRace.run attempt busy failed s (t :: ts) =
      InitRace.run attempt busy failed (InitRace.step attempt busy failed s t) ts := rfl

theorem InitRace_release_done (attempt : Client → Nat → Client × GoError)
    (busy failed : String) (u : Nat) (n : Nat) :
    ∀ (s : InitRace) (r : GoError), s.pc u = InitPc.done r → s.locked = none →
      (InitRace.run attempt busy failed s (List.replicate n u)).locked = none ∧
      ∃ r, (InitRace.run attempt busy failed s (List.replicate n u)).pc u = InitPc.done r := by
  induction n with
  | zero =>
    intro s r hpc hl
    exact ⟨hl, r, hpc⟩
  | succ n ih =>
    intro s r hpc hl
    have hs : InitRace.step attempt busy failed s u = s := by simp [InitRace.step, hpc]
    rw [List.replicate_succ, InitRace_run_cons, hs]
    exact ih s r hpc hl

theorem InitRace_release_unlock (attempt : Client → Nat → Client × GoError)
    (busy failed : String) (u : Nat) (n : Nat) (s : InitRace) (r : GoError)
    (hpc : s.pc u = InitPc.unlock r) :
    (InitRace.run attempt busy failed s (List.replicate (n + 1) u)).locked = none ∧
    ∃ r, (InitRace.run attempt busy failed s (List.replicate (n + 1) u)).pc u =
      InitPc.done r := by
  have hs : InitRace.step attempt busy failed s u =
      { s with locked := none }.goto u (InitPc.done r) := by simp [InitRace.step, hpc]
  rw [List.replicate_succ, InitRace_run_cons, hs]
  exact InitRace_release_done attempt busy failed u n _ r (by simp [InitRace.goto]) rfl

theorem InitRace_release_storeResult (attempt : Client → Nat → Client × GoError)
    (busy failed : String) (u : Nat) (n : Nat) (s : InitRace) (e : GoError)
    (hpc : s.pc u = InitPc.storeResult e) :
    (InitRace.run attempt busy failed s (List.replicate (n + 2) u)).locked = none ∧
    ∃ r, (InitRace.run attempt busy failed s (List.replicate (n + 2) u)).pc u =
      InitPc.done r := by
  rw [List.replicate_succ, InitRace_run_cons]
  cases e with
  | none =>
    have hs : InitRace.step attempt busy failed s u =
        { s with client := { s.client with status := dbStatusOk } }.goto u
          (InitPc.unlock none) := by simp [InitRace.step, hpc]
    rw [hs]
    exact InitRace_release_unlock attempt busy failed u n _ none (by simp [InitRace.goto])
  | some e =>
    have hs : InitRace.step attempt busy failed s u =
        { s with client := { s.client with status := dbStatusErr } }.goto u
          (InitPc.unlock (some failed)) := by simp [InitRace.step, hpc]
    rw [hs]
    exact InitRace_release_unlock attempt busy failed u n _ (some failed)
      (by simp [InitRace.goto])

theorem InitRace_release_attempt (attempt : Client → Nat → Client × GoError)
    (busy failed : String) (u : Nat) (n : Nat) (s : InitRace)
    (hpc : s.pc u = InitPc.attempt) :
    (InitRace.run attempt busy failed s (List.replicate (n + 3) u)).locked = none ∧
    ∃ r, (InitRace.run attempt busy failed s (List.replicate (n + 3) u)).pc u =
      InitPc.done r := by
  have hs : InitRace.step attempt busy failed s u =
      { s with client := (attempt s.client s.connects).1,
               connects := s.connects + 1 }.goto u
        (InitPc.storeResult (attempt s.client s.connects).2) := by
    simp [InitRace.step, hpc]
  rw [List.replicate_succ, InitRace_run_cons, hs]
  exact InitRace_release_storeResult attempt busy failed u n _
    (attempt s.client s.connects).2 (by simp [InitRace.goto])

theorem InitRace_release_storeInit (attempt : Client → Nat → Client × GoError)
    (busy failed : String) (u : Nat) (n : Nat) (s : InitRace)
    (hpc : s.pc u = InitPc.storeInit) :
    (InitRace.run attempt busy failed s (List.replicate (n + 4) u)).locked = none ∧
    ∃ r, (InitRace.run attempt busy failed s (List.replicate (n + 4) u)).pc u =
      InitPc.done r := by
  have hs : InitRace.step attempt busy failed s u =
      { s with client := { s.client with status := dbStatusInit } }.goto u InitPc.attempt := by
    simp [InitRace.step, hpc]
  rw [List.replicate_succ, InitRace_run_cons, hs]
  exact InitRace_release_attempt attempt busy failed u n _ (by simp [InitRace.goto])

theorem InitRace_release_check4 (attempt : Client → Nat → Client × GoError)
    (busy failed : String) (u : Nat) (n : Nat) (s : InitRace)
    (hpc : s.pc u = InitPc.check4) :
    (InitRace.run attempt busy failed s (List.replicate (n + 5) u)).locked = none ∧
    ∃ r, (InitRace.run attempt busy failed s (List.replicate (n + 5) u)).pc u =
      InitPc.done r := by
  rw [List.replicate_succ, InitRace_run_cons]
  by_cases hst : s.client.status = dbStatusInit
  · have hs : InitRace.step attempt busy failed s u = s.goto u (InitPc.unlock (some busy)) := by
      simp [InitRace.step, hpc, hst]
    rw [hs]
    exact InitRace_release_unlock attempt busy failed u (n + 3) _ (some busy)
      (by simp [InitRace.goto])
  · have hs : InitRace.step attempt busy failed s u = s.goto u InitPc.storeInit := by
      simp [InitRace.step, hpc, hst]
    rw [hs]
    exact InitRace_release_storeInit attempt busy failed u n _ (by simp [InitRace.goto])

theorem InitRace_release_check3 (attempt : Client → Nat → Client × GoError)
    (busy failed : String) (u : Nat) (n : Nat) (s : InitRace)
    (hpc : s.pc u = InitPc.check3) :
    (InitRace.run attempt busy failed s (List.replicate (n + 6) u)).locked = none ∧
    ∃ r, (InitRace.run attempt busy failed s (List.replicate (n + 6) u)).pc u =
      InitPc.done r := by
  rw [List.replicate_succ, InitRace_run_cons]
  by_cases hst : s.client.status = dbStatusOk
  · have hs : InitRace.step attempt busy failed s u = s.goto u (InitPc.unlock none) := by
      simp [InitRace.step, hpc, hst]
    rw [hs]
    exact InitRace_release_unlock attempt busy failed u (n + 4) _ none
      (by simp [InitRace.goto])
  · have hs : InitRace.step attempt busy failed s u = s.goto u InitPc.check4 := by
      simp [InitRace.step, hpc, hst]
    rw [hs]
    exact InitRace_release_check4 attempt busy failed u n _ (by simp [InitRace.goto])

theorem InitRace_holder_releases (attempt : Client → Nat → Client × GoError)
    (busy failed : String) (s : InitRace) (u : Nat) (hh : (s.pc u).holdsLock = true) :
    (InitRace.run attempt busy failed s (List.replicate 6 u)).locked = none ∧
    ∃ r, (InitRace.run attempt busy failed s (List.replicate 6 u)).pc u = InitPc.done r := by
  cases hpc : s.pc u with
  | check1 => rw [hpc] at hh; cases hh
  | check2 => rw [hpc] at hh; cases hh
  | lock => rw [hpc] at hh; cases hh
  | done r => rw [hpc] at hh; cases hh
  | check3 => exact InitRace_release_check3 attempt busy failed u 0 s hpc
  | check4 => exact InitRace_release_check4 attempt busy failed u 1 s hpc
  | storeInit => exact InitRace_release_storeInit attempt busy failed u 2 s hpc
  | attempt => exact InitRace_release_attempt attempt busy failed u 3 s hpc
  | storeResult e => exact InitRace_release_storeResult attempt busy failed u 4 s e hpc
  | unlock r => exact InitRace_release_unlock attempt busy failed u 5 s r hpc

/-- C13 (as stated, refuted): two goroutines call `Init` on a new influx client
whose first connect attempt the server refuses. In the first schedule
goroutine 1 makes its first status check while the attempt of goroutine 0 is
in progress (status `dbStatusInit`) and its second after the attempt has
failed: it takes the lock and connects again. In the second schedule both
pass the two checks before goroutine 0 stores `dbStatusInit`: goroutine 1
waits for the mutex and, the attempt having failed, connects again. Either
way there are two connect attempts and goroutine 1 does not get the
transient error. -/
theorem C13_counterexample :
    (influx.Client.Init.race (fun k => if k = 0 then ⟨some 1, false⟩ else ⟨some 2, true⟩)
      (InitRace.start NewClient) [0, 0, 0, 0, 0, 0]).client.status = dbStatusInit ∧
    (influx.Client.Init.race (fun k => if k = 0 then ⟨some 1, false⟩ else ⟨some 2, true⟩)
      (InitRace.start NewClient) [0, 0, 0, 0, 0, 0]).pc 1 = InitPc.check1 ∧
    (influx.Client.Init.race (fun k => if k = 0 then ⟨some 1, false⟩ else ⟨some 2, true⟩)
      (InitRace.start NewClient)
      [0, 0, 0, 0, 0, 0, 1, 0, 0, 0, 1, 1, 1, 1, 1, 1, 1, 1]).connects = 2 ∧
    (influx.Client.Init.race (fun k => if k = 0 then ⟨some 1, false⟩ else ⟨some 2, true⟩)
      (InitRace.start NewClient)
      [0, 0, 0, 0, 0, 0, 1, 0, 0, 0, 1, 1, 1, 1, 1, 1, 1, 1]).pc 1 = InitPc.done none ∧
    (influx.Client.Init.race (fun k => if k = 0 then ⟨some 1, false⟩ else ⟨some 2, true⟩)
      (InitRace.start NewClient) [0, 0, 1, 1, 0, 0, 0, 0, 1]).pc 1 = InitPc.lock ∧
    (influx.Client.Init.race (fun k => if k = 0 then ⟨some 1, false⟩ else ⟨some 2, true⟩)
      (InitRace.start NewClient) [0, 0, 1, 1, 0, 0, 0, 0, 1]).locked = some 0 ∧
    (influx.Client.Init.race (fun k => if k = 0 then ⟨some 1, false⟩ else ⟨some 2, true⟩)
      (InitRace.start NewClient)
      [0, 0, 1, 1, 0, 0, 0, 0, 1, 1, 0, 0, 0, 1, 1, 1, 1, 1, 1, 1]).connects = 2 ∧
    (mysql.Client.Init.race
      (fun k => if k = 0 then ⟨some 1, true, some 2, false⟩ else ⟨some 3, true, some 4, true⟩)
      (InitRace.start NewClient)
      [0, 0, 1, 1, 0, 0, 0, 0, 1, 1, 0, 0, 0, 1, 1, 1, 1, 1, 1, 1]).connects = 2 := by
  decide

/-- C13 (amended): for goroutines calling `Init` on a new client in any
interleaving, with any answers of the server: the goroutine between `Lock`
and `Unlock` is the holder of the mutex, so connect attempts are made one at
a time; a further attempt is made only when every earlier one has failed, so
there is at most one attempt when the first succeeds; and a goroutine that
reads `dbStatusInit` at its first check goes on to the second, and one that
reads it at its second check returns the transient error, in both cases
without touching the mutex, the client or the count of attempts. Once a
goroutine has returned and the mutex is free, at least one attempt has been
made: exactly one when the first succeeds. A goroutine that reads another
status at its second check goes on to `Lock`; there it does not move while
another goroutine holds the mutex, which that one releases within six steps
of its own; with the mutex free it takes it, and then, alone for the next
steps, it returns nil without connecting if the status is `dbStatusOk`, and
if the status is neither `dbStatusOk` nor `dbStatusInit` (an earlier attempt
has failed, or none was made) it makes one more connect attempt, stores its
outcome, releases the mutex and returns that outcome. -/
theorem C13_concurrent_Init_attempts_one_at_a_time (ib : Nat → influx.Backend)
    (mb : Nat → mysql.Backend) (schedule : List Nat) (t : Nat) :
    ((∀ u, ((influx.Client.Init.race ib (InitRace.start NewClient) schedule).pc u).holdsLock
        = true ↔
        (influx.Client.Init.race ib (InitRace.start NewClient) schedule).locked = some u) ∧
      (∀ k, k + 1 < (influx.Client.Init.race ib (InitRace.start NewClient) schedule).connects →
        (ib k).ok = false) ∧
      ((ib 0).ok = true →
        (influx.Client.Init.race ib (InitRace.start NewClient) schedule).connects ≤ 1) ∧
      (∀ s : InitRace, s.client.status = dbStatusInit →
        (s.pc t = InitPc.check1 → influx.Client.Init.race ib s [t] = s.goto t InitPc.check2) ∧
        (s.pc t = InitPc.check2 →
          influx.Client.Init.race ib s [t] = s.goto t (InitPc.done (some "influxdb init")))) ∧
      (∀ r, (influx.Client.Init.race ib (InitRace.start NewClient) schedule).pc t =
          InitPc.done r →
        (influx.Client.Init.race ib (InitRace.start NewClient) schedule).locked = none →
        1 ≤ (influx.Client.Init.race ib (InitRace.start NewClient) schedule).connects ∧
        ((ib 0).ok = true →
          (influx.Client.Init.race ib (InitRace.start NewClient) schedule).connects = 1)) ∧
      (∀ s : InitRace,
        (s.pc t = InitPc.check2 → s.client.status ≠ dbStatusInit →
          influx.Client.Init.race ib s [t] = s.goto t InitPc.lock) ∧
        (s.pc t = InitPc.lock →
          (∀ u, s.locked = some u →
            influx.Client.Init.race ib s [t] = s ∧
            ((s.pc u).holdsLock = true →
              (influx.Client.Init.race ib s [u, u, u, u, u, u]).locked = none)) ∧
          (s.locked = none →
            influx.Client.Init.race ib s [t] =
              { s with locked := some t }.goto t InitPc.check3 ∧
            (s.client.status = dbStatusOk →
              (influx.Client.Init.race ib s [t, t, t]).pc t = InitPc.done none ∧
              (influx.Client.Init.race ib s [t, t, t]).connects = s.connects ∧
              (influx.Client.Init.race ib s [t, t, t]).locked = none ∧
              (influx.Client.Init.race ib s [t, t, t]).client = s.client) ∧
            (s.client.status ≠ dbStatusOk → s.client.status ≠ dbStatusInit →
              (influx.Client.Init.race ib s [t, t, t, t, t, t, t]).connects =
                s.connects + 1 ∧
              (influx.Client.Init.race ib s [t, t, t, t, t, t, t]).pc t =
                InitPc.done (if (ib s.connects).ok = true then none
                  else some "influxdb init error") ∧
              (influx.Client.Init.race ib s [t, t, t, t, t, t, t]).client.status =
                (if (ib s.connects).ok = true then dbStatusOk else dbStatusErr) ∧
              (influx.Client.Init.race ib s [t, t, t, t, t, t, t]).locked = none))))) ∧
    ((∀ u, ((mysql.Client.Init.race mb (InitRace.start NewClient) schedule).pc u).holdsLock
        = true ↔
        (mysql.Client.Init.race mb (InitRace.start NewClient) schedule).locked = some u) ∧
      (∀ k, k + 1 < (mysql.Client.Init.race mb (InitRace.start NewClient) schedule).connects →
        (mb k).ok = false) ∧
      ((mb 0).ok = true →
        (mysql.Client.Init.race mb (InitRace.start NewClient) schedule).connects ≤ 1) ∧
      (∀ s : InitRace, s.client.status = dbStatusInit →
        (s.pc t = InitPc.check1 → mysql.Client.Init.race mb s [t] = s.goto t InitPc.check2) ∧
        (s.pc t = InitPc.check2 →
          mysql.Client.Init.race mb s [t] = s.goto t (InitPc.done (some "mysqldb init")))) ∧
      (∀ r, (mysql.Client.Init.race mb (InitRace.start NewClient) schedule).pc t =
          InitPc.done r →
        (mysql.Client.Init.race mb (InitRace.start NewClient) schedule).locked = none →
        1 ≤ (mysql.Client.Init.race mb (InitRace.start NewClient) schedule).connects ∧
        ((mb 0).ok = true →
          (mysql.Client.Init.race mb (InitRace.start NewClient) schedule).connects = 1)) ∧
      (∀ s : InitRace,
        (s.pc t = InitPc.check2 → s.client.status ≠ dbStatusInit →
          mysql.Client.Init.race mb s [t] = s.goto t InitPc.lock) ∧
        (s.pc t = InitPc.lock →
          (∀ u, s.locked = some u →
            mysql.Client.Init.race mb s [t] = s ∧
            ((s.pc u).holdsLock = true →
              (mysql.Client.Init.race mb s [u, u, u, u, u, u]).locked = none)) ∧
          (s.locked = none →
            mysql.Client.Init.race mb s [t] =
              { s with locked := some t }.goto t InitPc.check3 ∧
            (s.client.status = dbStatusOk →
              (mysql.Client.Init.race mb s [t, t, t]).pc t = InitPc.done none ∧
              (mysql.Client.Init.race mb s [t, t, t]).connects = s.connects ∧
              (mysql.Client.Init.race mb s [t, t, t]).locked = none ∧
              (mysql.Client.Init.race mb s [t, t, t]).client = s.client) ∧
            (s.client.status ≠ dbStatusOk → s.client.status ≠ dbStatusInit →
              (mysql.Client.Init.race mb s [t, t, t, t, t, t, t]).connects =
                s.connects + 1 ∧
              (mysql.Client.Init.race mb s [t, t, t, t, t, t, t]).pc t =
                InitPc.done (if (mb s.connects).ok = true then none
                  else some "mysqldb init error") ∧
              (mysql.Client.Init.race mb s [t, t, t, t, t, t, t]).client.status =
                (if (mb s.connects).ok = true then dbStatusOk else dbStatusErr) ∧
              (mysql.Client.Init.race mb s [t, t, t, t, t, t, t]).locked = none))))) := by
  have hi := InitRace_run_inv (fun client k => influx.Client.initDb client (ib k))
    "influxdb init" "influxdb init error" (fun k => (ib k).ok)
    (fun c k => influx_initDb_err c (ib k)) schedule (InitRace.start NewClient)
    (InitRace_start_inv _ NewClient)
  have hm := InitRace_run_inv (fun client k => mysql.Client.connDb client (mb k))
    "mysqldb init" "mysqldb init error" (fun k => (mb k).ok)
    (fun c k => mysql_connDb_err c (mb k)) schedule (InitRace.start NewClient)
    (InitRace_start_inv _ NewClient)
  have fi := InitRace_run_fresh (fun client k => influx.Client.initDb client (ib k))
    "influxdb init" "influxdb init error" (fun k => (ib k).ok)
    (fun c k => influx_initDb_err c (ib k)) NewClient.status (by decide) (by decide) schedule
    (InitRace.start NewClient) (InitRace_start_inv _ NewClient) (InitRace_start_fresh NewClient)
  have fm := InitRace_run_fresh (fun client k => mysql.Client.connDb client (mb k))
    "mysqldb init" "mysqldb init error" (fun k => (mb k).ok)
    (fun c k => mysql_connDb_err c (mb k)) NewClient.status (by decide) (by decide) schedule
    (InitRace.start NewClient) (InitRace_start_inv _ NewClient) (InitRace_start_fresh NewClient)
  have hne : dbStatusInit ≠ dbStatusOk := by decide
  have bi : (ib 0).ok = true →
      (influx.Client.Init.race ib (InitRace.start NewClient) schedule).connects ≤ 1 := by
    intro hok
    by_contra hgt
    have := hi.2.2.2.2 0 (by
      show 0 + 1 < (influx.Client.Init.race ib (InitRace.start NewClient) schedule).connects
      omega)
    simp only at this
    rw [hok] at this
    cases this
  have bm : (mb 0).ok = true →
      (mysql.Client.Init.race mb (InitRace.start NewClient) schedule).connects ≤ 1 := by
    intro hok
    by_contra hgt
    have := hm.2.2.2.2 0 (by
      show 0 + 1 < (mysql.Client.Init.race mb (InitRace.start NewClient) schedule).connects
      omega)
    simp only at this
    rw [hok] at this
    cases this
  refine ⟨⟨hi.1, hi.2.2.2.2, bi, ?_, ?_, ?_⟩, ⟨hm.1, hm.2.2.2.2, bm, ?_, ?_, ?_⟩⟩
  · intro s hst
    constructor
    · intro hpc
      simp [influx.Client.Init.race, InitRace.run, InitRace.step, hpc, hst, hne]
    · intro hpc
      simp [influx.Client.Init.race, InitRace.run, InitRace.step, hpc, hst]
  · intro r hpc hl
    have h1 := InitRace_returned_connects _ _ _ t r hi fi hpc hl
    exact ⟨h1, fun hok => Nat.le_antisymm (bi hok) h1⟩
  · intro s
    refine ⟨fun hpc hst => InitRace_check2_to_lock _ _ _ s t hpc hst, fun hpc => ⟨?_, ?_⟩⟩
    · intro u hl
      exact ⟨InitRace_lock_waits _ _ _ s t u hpc hl,
        fun hh => (InitRace_holder_releases _ _ _ s u hh).1⟩
    · intro hl
      exact ⟨InitRace_lock_takes _ _ _ s t hpc hl,
        fun hst => InitRace_lock_after_success _ _ _ s t hpc hl hst,
        fun h1 h3 => InitRace_lock_retry _ _ _ (fun k => (ib k).ok)
          (fun c k => influx_initDb_err c (ib k)) s t hpc hl h1 h3⟩
  · intro s hst
    constructor
    · intro hpc
      simp [mysql.Client.Init.race, InitRace.run, InitRace.step, hpc, hst, hne]
    · intro hpc
      simp [mysql.Client.Init.race, InitRace.run, InitRace.step, hpc, hst]
  · intro r hpc hl
    have h1 := InitRace_returned_connects _ _ _ t r hm fm hpc hl
    exact ⟨h1, fun hok => Nat.le_antisymm (bm hok) h1⟩
  · intro s
    refine ⟨fun hpc hst => InitRace_check2_to_lock _ _ _ s t hpc hst, fun hpc => ⟨?_, ?_⟩⟩
    · intro u hl
      exact ⟨InitRace_lock_waits _ _ _ s t u hpc hl,
        fun hh => (InitRace_holder_releases _ _ _ s u hh).1⟩
    · intro hl
      exact ⟨InitRace_lock_takes _ _ _ s t hpc hl,
        fun hst => InitRace_lock_after_success _ _ _ s t hpc hl hst,
        fun h1 h3 => InitRace_lock_retry _ _ _ (fun k => (mb k).ok)
          (fun c k => mysql_connDb_err c (mb k)) s t hpc hl h1 h3⟩

theorem influx_Init_race_alone (c : Client) (b : influx.Backend) :
    (influx.Client.Init.race (fun _ => b) (InitRace.start c) (List.replicate 10 0)).pc 0 =
      InitPc.done (influx.Client.Init c b).err ∧
    (influx.Client.Init.race (fun _ => b) (InitRace.start c) (List.replicate 10 0)).client =
      (influx.Client.Init c b).client ∧
    (influx.Client.Init.race (fun _ => b) (InitRace.start c) (List.replicate 10 0)).connects =
      (influx.Client.Init c b).connects ∧
    (influx.Client.Init.race (fun _ => b) (InitRace.start c) (List.replicate 10 0)).locked =
      none := by
  have e1 : dbStatusInit ≠ dbStatusOk := by decide
  by_cases h1 : c.status = dbStatusOk
  · simp [influx.Client.Init.race, InitRace.run, InitRace.step, InitRace.goto, InitRace.start,
      influx.Client.Init, List.replicate, h1]
  · by_cases h3 : c.status = dbStatusInit
    · simp [influx.Client.Init.race, InitRace.run, InitRace.step, InitRace.goto, InitRace.start,
        influx.Client.Init, List.replicate, h1, h3, e1]
    · rcases hres : influx.Client.initDb { c with status := dbStatusInit } b with ⟨c2, _ | e⟩ <;>
        simp [influx.Client.Init.race, InitRace.run, InitRace.step, InitRace.goto,
          InitRace.start, influx.Client.Init, List.replicate, h1, h3, e1, hres]

theorem mysql_Init_race_alone (c : Client) (b : mysql.Backend) :
    (mysql.Client.Init.race (fun _ => b) (InitRace.start c) (List.replicate 10 0)).pc 0 =
      InitPc.done (mysql.Client.Init c b).err ∧
    (mysql.Client.Init.race (fun _ => b) (InitRace.start c) (List.replicate 10 0)).client =
      (mysql.Client.Init c b).client ∧
    (mysql.Client.Init.race (fun _ => b) (InitRace.start c) (List.replicate 10 0)).connects =
      (mysql.Client.Init c b).connects ∧
    (mysql.Client.Init.race (fun _ => b) (InitRace.start c) (List.replicate 10 0)).locked =
      none := by
  have e1 : dbStatusInit ≠ dbStatusOk := by decide
  by_cases h1 : c.status = dbStatusOk
  · simp [mysql.Client.Init.race, InitRace.run, InitRace.step, InitRace.goto, InitRace.start,
      mysql.Client.Init, List.replicate, h1]
  · by_cases h3 : c.status = dbStatusInit
    · simp [mysql.Client.Init.race, InitRace.run, InitRace.step, InitRace.goto, InitRace.start,
        mysql.Client.Init, List.replicate, h1, h3, e1]
    · rcases hres : mysql.Client.connDb { c with status := dbStatusInit } b with ⟨c2, _ | e⟩ <;>
        simp [mysql.Client.Init.race, InitRace.run, InitRace.step, InitRace.goto,
          InitRace.start, mysql.Client.Init, List.replicate, h1, h3, e1, hres]

/-! ## More on Go maps -/

theorem GoMap.get_set_self {K V : Type} [DecidableEq K] (m : GoMap K V) (k : K) (v : V) :
    GoMap.get (GoMap.set m k v) k = some v := by
  induction m with
  | nil => simp [GoMap.set, GoMap.get]
  | cons kv rest ih =>
    obtain ⟨k1, v1⟩ := kv
    by_cases h : k1 = k
    · simp [GoMap.set, GoMap.get, h]
    · simp [GoMap.set, GoMap.get, h, ih]

theorem GoMap.get_set_ne {K V : Type} [DecidableEq K] (m : GoMap K V) (k k2 : K) (v : V)
    (hne : k2 ≠ k) : GoMap.get (GoMap.set m k v) k2 = GoMap.get m k2 := by
  induction m with
  | nil => simp [GoMap.set, GoMap.get, Ne.symm hne]
  | cons kv rest ih =>
    obtain ⟨k1, v1⟩ := kv
    by_cases h : k1 = k
    · subst h
      simp [GoMap.set, GoMap.get, Ne.symm hne]
    · by_cases h2 : k1 = k2
      · subst h2
        simp [GoMap.set, GoMap.get, h]
      · simp [GoMap.set, GoMap.get, h, h2, ih]

theorem GoMap.keys_set_present {K V : Type} [DecidableEq K] (m : GoMap K V) (k : K) (v : V)
    (h : k ∈ m.map Prod.fst) : (GoMap.set m k v).map Prod.fst = m.map Prod.fst := by
  induction m with
  | nil => simp at h
  | cons kv rest ih =>
    obtain ⟨k1, v1⟩ := kv
    by_cases hk : k1 = k
    · simp [GoMap.set, hk]
    · have hrest : k ∈ rest.map Prod.fst := by
        simp only [List.map_cons, List.mem_cons] at h
        rcases h with h | h
        · exact absurd h.symm hk
        · exact h
      simp [GoMap.set, hk, ih hrest]

theorem GoMap.get_of_mem_nodup {K V : Type} [DecidableEq K] (m : GoMap K V) (k : K) (v : V)
    (hnd : (m.map Prod.fst).Nodup) (hmem : (k, v) ∈ m) : GoMap.get m k = some v := by
  induction m with
  | nil => simp at hmem
  | cons kv rest ih =>
    obtain ⟨k1, v1⟩ := kv
    simp only [List.map_cons, List.nodup_cons] at hnd
    rcases List.mem_cons.mp hmem with h | h
    · simp only [Prod.mk.injEq] at h
      simp [GoMap.get, h.1, h.2]
    · have hk : k1 ≠ k := by
        intro e
        apply hnd.1
        rw [e]
        exact List.mem_map.mpr ⟨(k, v), h, rfl⟩
      simp [GoMap.get, hk, ih hnd.2 h]

theorem GoMap.mem_of_get {K V : Type} [DecidableEq K] (m : GoMap K V) (k : K) (v : V)
    (h : GoMap.get m k = some v) : (k, v) ∈ m := by
  induction m with
  | nil => simp [GoMap.get] at h
  | cons kv rest ih =>
    obtain ⟨k1, v1⟩ := kv
    by_cases hk : k1 = k
    · simp only [GoMap.get, hk, if_true, Option.some.injEq] at h
      simp [hk, h]
    · simp only [GoMap.get, hk, if_false] at h
      exact List.mem_cons_of_mem _ (ih h)

/-! ## The insert statement of `WriteToDbBatch` -/

theorem flatten_uniform_length {β : Type} (n : Nat) (ls : List (List β))
    (hl : ∀ l ∈ ls, l.length = n) : ls.flatten.length = ls.length * n := by
  induction ls with
  | nil => simp
  | cons l rest ih =>
    simp only [List.flatten_cons, List.length_append, List.length_cons]
    rw [ih (fun x hx => hl x (List.mem_cons_of_mem l hx)), hl l (List.mem_cons_self l rest),
      Nat.succ_mul]
    omega

theorem flatten_uniform_getElem? {β : Type} (n : Nat) (ls : List (List β))
    (hl : ∀ l ∈ ls, l.length = n) :
    ∀ (r c : Nat) (l : List β), ls[r]? = some l → c < n → ls.flatten[r * n + c]? = l[c]? := by
  induction ls with
  | nil => intro r c l h; simp at h
  | cons l0 rest ih =>
    intro r c l h hc
    have h0 : l0.length = n := hl l0 (List.mem_cons_self l0 rest)
    cases r with
    | zero =>
      simp only [List.getElem?_cons_zero, Option.some.injEq] at h
      subst h
      simp only [List.flatten_cons, Nat.zero_mul, Nat.zero_add]
      exact List.getElem?_append_left (by omega)
    | succ k =>
      simp only [List.getElem?_cons_succ] at h
      simp only [List.flatten_cons]
      rw [List.getElem?_append_right (by rw [h0, Nat.succ_mul]; omega)]
      have e : (k + 1) * n + c - l0.length = k * n + c := by
        rw [h0, Nat.succ_mul]
        omega
      rw [e]
      exact ih (fun x hx => hl x (List.mem_cons_of_mem l0 hx)) k c l h hc

theorem map_eq_self_iff_chars (g : Char → Char) (l : List Char) :
    l.map g = l ↔ ∀ c ∈ l, g c = c := by
  induction l with
  | nil => simp
  | cons a as ih => simp [ih]

theorem fixDbName_data (s : String) :
    (mysql.fixDbName s).data =
      s.data.map (fun c => if c = ' ' ∨ c = '-' ∨ c = '/' then '_' else c) := by
  simp only [mysql.fixDbName, strings.ReplaceAll, List.map_map]
  apply List.map_congr_left
  intro c _
  simp only [Function.comp]
  by_cases h1 : c = ' '
  · subst h1; decide
  · by_cases h2 : c = '-'
    · subst h2; decide
    · by_cases h3 : c = '/'
      · subst h3; decide
      · simp [h1, h2, h3]

theorem fixDbName_eq_self_iff (s : String) :
    mysql.fixDbName s = s ↔ (' ' ∉ s.data ∧ '-' ∉ s.data ∧ '/' ∉ s.data) := by
  have hd := fixDbName_data s
  constructor
  · intro h
    rw [h] at hd
    have hall := (map_eq_self_iff_chars _ s.data).mp hd.symm
    refine ⟨fun hm => ?_, fun hm => ?_, fun hm => ?_⟩
    · have := hall _ hm
      simp at this
    · have := hall _ hm
      simp at this
    · have := hall _ hm
      simp at this
  · rintro ⟨h1, h2, h3⟩
    have hall : ∀ c ∈ s.data, (if c = ' ' ∨ c = '-' ∨ c = '/' then '_' else c) = c := by
      intro c hc
      have c1 : c ≠ ' ' := fun e => h1 (e ▸ hc)
      have c2 : c ≠ '-' := fun e => h2 (e ▸ hc)
      have c3 : c ≠ '/' := fun e => h3 (e ▸ hc)
      simp [c1, c2, c3]
    rw [(map_eq_self_iff_chars _ s.data).mpr hall] at hd
    exact String.ext hd

theorem rowValues_length (columns : List String) (row : GoMap String Any) :
    (mysql.Client.WriteToDbBatch.rowValues columns row).length = columns.length := by
  simp [mysql.Client.WriteToDbBatch.rowValues]

theorem values_getElem? (columns : List String) (data : List (GoMap String Any))
    (r c : Nat) (row : GoMap String Any) (column : String)
    (hr : data[r]? = some row) (hc : columns[c]? = some column) :
    (mysql.Client.WriteToDbBatch.values columns data)[r * columns.length + c]? =
      some ((GoMap.get row column).getD Any.nil) := by
  have hlt : c < columns.length := by
    rcases Nat.lt_or_ge c columns.length with h | h
    · exact h
    · rw [List.getElem?_eq_none h] at hc
      cases hc
  unfold mysql.Client.WriteToDbBatch.values
  rw [flatten_uniform_getElem? columns.length _ ?_ r c
    (mysql.Client.WriteToDbBatch.rowValues columns row) ?_ hlt]
  · simp [mysql.Client.WriteToDbBatch.rowValues, hc]
  · intro l hl
    obtain ⟨x, _, rfl⟩ := List.mem_map.mp hl
    exact rowValues_length columns x
  · simp [hr]

/-- C21: for a non-empty list of rows `Client.WriteToDbBatch` passes to `Exec`
one statement whose columns are the `fixDbName` of the keys of the first row
(in the order the map yields them), with one group of one placeholder per
column for every row and `rows * columns` bound values in row-major order,
the value for a row and a column being the row's entry under the sanitized
column name, nil when the row has none. So for a key that `fixDbName` leaves
unchanged (no blank, hyphen or slash) the value is the row's own entry under
that key, and for a key it rewrites the value is nil unless the row has the
rewritten key. For an empty list there is no statement and the result is
nil. The last part is the statement for two rows of which the first has the
key `host name` and the second the key `host_name`. -/
theorem C21_writeToDbBatch_binds_values_by_sanitized_column (database table : String)
    (visit : GoMap String Any → List (String × Any))
    (exec : String → List (GoMap String Any) → GoError)
    (first : GoMap String Any) (rest : List (GoMap String Any)) :
    mysql.Client.WriteToDbBatch.statement database visit table (first :: rest) =
      some ("INSERT INTO " ++ database ++ "." ++ table ++ " (" ++
          strings.Join ((visit first).map (fun kv => mysql.fixDbName kv.1)) ", " ++
          ") VALUES " ++
          strings.Join (List.replicate (rest.length + 1)
            ("(" ++ strings.Join (List.replicate (visit first).length "?") ", " ++ ")")) ", " ++
          " ON DUPLICATE KEY UPDATE " ++
          strings.Join ((visit first).map (fun kv =>
            mysql.fixDbName kv.1 ++ " = VALUES(" ++ mysql.fixDbName kv.1 ++ ")")) ", ",
        mysql.Client.WriteToDbBatch.values
          ((visit first).map (fun kv => mysql.fixDbName kv.1)) (first :: rest)) ∧
    ((visit first).Perm first →
      ((visit first).map (fun kv => mysql.fixDbName kv.1)).Perm
        (first.map (fun kv => mysql.fixDbName kv.1))) ∧
    (mysql.Client.WriteToDbBatch.values
        ((visit first).map (fun kv => mysql.fixDbName kv.1)) (first :: rest)).length =
      (rest.length + 1) * (visit first).length ∧
    (∀ (r c : Nat) (row : GoMap String Any) (kv : String × Any),
      (first :: rest)[r]? = some row → (visit first)[c]? = some kv →
      (mysql.Client.WriteToDbBatch.values
          ((visit first).map (fun kv => mysql.fixDbName kv.1))
          (first :: rest))[r * (visit first).length + c]? =
        some ((GoMap.get row (mysql.fixDbName kv.1)).getD Any.nil) ∧
      (mysql.fixDbName kv.1 = kv.1 →
        (mysql.Client.WriteToDbBatch.values
            ((visit first).map (fun kv => mysql.fixDbName kv.1))
            (first :: rest))[r * (visit first).length + c]? =
          some ((GoMap.get row kv.1).getD Any.nil)) ∧
      (mysql.fixDbName kv.1 ≠ kv.1 → GoMap.get row (mysql.fixDbName kv.1) = none →
        (mysql.Client.WriteToDbBatch.values
            ((visit first).map (fun kv => mysql.fixDbName kv.1))
            (first :: rest))[r * (visit first).length + c]? = some Any.nil)) ∧
    ((first.map Prod.fst).Nodup → (visit first).Perm first →
      ∀ (c : Nat) (kv : String × Any), (visit first)[c]? = some kv →
        mysql.fixDbName kv.1 = kv.1 →
        (mysql.Client.WriteToDbBatch.values
            ((visit first).map (fun kv => mysql.fixDbName kv.1)) (first :: rest))[c]? =
          some kv.2) ∧
    (∀ s : String, mysql.fixDbName s = s ↔ (' ' ∉ s.data ∧ '-' ∉ s.data ∧ '/' ∉ s.data)) ∧
    mysql.Client.WriteToDbBatch.statement database visit table [] = none ∧
    mysql.Client.WriteToDbBatch exec table [] = (none, []) ∧
    mysql.Client.WriteToDbBatch.statement "metrics" id "t"
        [[("host name", Any.string "a"), ("cpu", Any.int 1)],
         [("host_name", Any.string "b"), ("cpu", Any.int 2)]] =
      some ("INSERT INTO metrics.t (host_name, cpu) VALUES (?, ?), (?, ?) " ++
          "ON DUPLICATE KEY UPDATE host_name = VALUES(host_name), cpu = VALUES(cpu)",
        [Any.nil, Any.int 1, Any.string "b", Any.int 2]) := by
  have hbind : ∀ (r c : Nat) (row : GoMap String Any) (kv : String × Any),
      (first :: rest)[r]? = some row → (visit first)[c]? = some kv →
      (mysql.Client.WriteToDbBatch.values
          ((visit first).map (fun kv => mysql.fixDbName kv.1))
          (first :: rest))[r * (visit first).length + c]? =
        some ((GoMap.get row (mysql.fixDbName kv.1)).getD Any.nil) := by
    intro r c row kv hr hc
    have := values_getElem? ((visit first).map (fun kv => mysql.fixDbName kv.1))
      (first :: rest) r c row (mysql.fixDbName kv.1) hr (by simp [hc])
    simpa using this
  refine ⟨?_, fun hp => hp.map _, ?_, ?_, ?_, fixDbName_eq_self_iff, rfl, rfl, by decide⟩
  · simp only [mysql.Client.WriteToDbBatch.statement, mysql.Client.WriteToDbBatch.columns,
      mysql.Client.WriteToDbBatch.placeholderGroups, mysql.Client.WriteToDbBatch.placeholders,
      mysql.Client.WriteToDbBatch.updates, List.map_map, Function.comp_def, List.map_const',
      List.length_map, List.length_cons]
  · unfold mysql.Client.WriteToDbBatch.values
    rw [flatten_uniform_length ((visit first).map (fun kv => mysql.fixDbName kv.1)).length]
    · simp
    · intro l hl
      obtain ⟨x, _, rfl⟩ := List.mem_map.mp hl
      exact rowValues_length _ x
  · intro r c row kv hr hc
    refine ⟨hbind r c row kv hr hc, ?_, ?_⟩
    · intro hfix
      rw [hbind r c row kv hr hc, hfix]
    · intro _ hnone
      rw [hbind r c row kv hr hc, hnone]
      rfl
  · intro hnd hperm c kv hc hfix
    have h0 := hbind 0 c first kv (by simp) hc
    simp only [Nat.zero_mul, Nat.zero_add] at h0
    have hmem : kv ∈ first := hperm.mem_iff.mp (List.mem_iff_getElem?.mpr ⟨c, hc⟩)
    rw [h0, hfix, GoMap.get_of_mem_nodup first kv.1 kv.2 hnd hmem]
    rfl

/-! ## `RequestBatch` partitions the batch by table -/

theorem RequestBatch_group_step (m : GoMap String (List (GoMap String Any)))
    (req : mysql.InsertRequest) (hnd : (m.map Prod.fst).Nodup) :
    ((GoMap.set
        (match GoMap.get m req.Table with
          | some _ => m
          | none => GoMap.set m req.Table [])
        req.Table
        (((GoMap.get
          (match GoMap.get m req.Table with
            | some _ => m
            | none => GoMap.set m req.Table []) req.Table).getD []) ++ [req.Data])).map
      Prod.fst).Nodup ∧
    (∀ t, t ∈ (GoMap.set
        (match GoMap.get m req.Table with
          | some _ => m
          | none => GoMap.set m req.Table [])
        req.Table
        (((GoMap.get
          (match GoMap.get m req.Table with
            | some _ => m
            | none => GoMap.set m req.Table []) req.Table).getD []) ++ [req.Data])).map
      Prod.fst ↔ (t ∈ m.map Prod.fst ∨ t = req.Table)) ∧
    (∀ t, GoMap.get (GoMap.set
        (match GoMap.get m req.Table with
          | some _ => m
          | none => GoMap.set m req.Table [])
        req.Table
        (((GoMap.get
          (match GoMap.get m req.Table with
            | some _ => m
            | none => GoMap.set m req.Table []) req.Table).getD []) ++ [req.Data])) t =
      if t = req.Table then some ((GoMap.get m t).getD [] ++ [req.Data]) else GoMap.get m t) := by
  cases hg : GoMap.get m req.Table with
  | some rows =>
    have hmem : req.Table ∈ m.map Prod.fst := by
      by_contra hno
      rw [(GoMap.get_eq_none_iff m req.Table).mpr hno] at hg
      cases hg
    simp only [hg, Option.getD_some]
    rw [GoMap.keys_set_present m req.Table _ hmem]
    refine ⟨hnd, ?_, ?_⟩
    · intro t
      constructor
      · exact Or.inl
      · rintro (h | h)
        · exact h
        · rw [h]; exact hmem
    · intro t
      by_cases ht : t = req.Table
      · subst ht
        rw [GoMap.get_set_self, if_pos rfl, hg]
        rfl
      · rw [GoMap.get_set_ne _ _ _ _ ht, if_neg ht]
  | none =>
    have hno := (GoMap.get_eq_none_iff m req.Table).mp hg
    simp only [GoMap.get_set_self, Option.getD_some, List.nil_append]
    have hk1 : (GoMap.set m req.Table ([] : List (GoMap String Any))).map Prod.fst =
        m.map Prod.fst ++ [req.Table] := by
      rw [GoMap.set_of_absent m req.Table [] hg]
      simp
    have hmem1 : req.Table ∈ (GoMap.set m req.Table ([] : List (GoMap String Any))).map
        Prod.fst := by
      rw [hk1]
      simp
    rw [GoMap.keys_set_present _ req.Table _ hmem1, hk1]
    refine ⟨?_, ?_, ?_⟩
    · rw [List.nodup_append]
      refine ⟨hnd, by simp, ?_⟩
      intro x hx hx2
      simp only [List.mem_singleton] at hx2
      exact hno (hx2 ▸ hx)
    · intro t
      simp
    · intro t
      by_cases ht : t = req.Table
      · subst ht
        rw [GoMap.get_set_self, if_pos rfl, hg]
        rfl
      · rw [GoMap.get_set_ne _ _ _ _ ht, GoMap.get_set_ne _ _ _ _ ht, if_neg ht]

theorem RequestBatch_group_fold (requests : List mysql.InsertRequest) :
    ∀ m : GoMap String (List (GoMap String Any)), (m.map Prod.fst).Nodup →
      ((requests.foldl (fun requestMap req =>
          let requestMap1 :=
            match GoMap.get requestMap req.Table with
            | some _ => requestMap
            | none => GoMap.set requestMap req.Table []
          GoMap.set requestMap1 req.Table
            (((GoMap.get requestMap1 req.Table).getD []) ++ [req.Data])) m).map
        Prod.fst).Nodup ∧
      (∀ t, t ∈ (requests.foldl (fun requestMap req =>
          let requestMap1 :=
            match GoMap.get requestMap req.Table with
            | some _ => requestMap
            | none => GoMap.set requestMap req.Table []
          GoMap.set requestMap1 req.Table
            (((GoMap.get requestMap1 req.Table).getD []) ++ [req.Data])) m).map
        Prod.fst ↔ (t ∈ m.map Prod.fst ∨ t ∈ requests.map (fun r => r.Table))) ∧
      (∀ t, t ∈ m.map Prod.fst ∨ t ∈ requests.map (fun r => r.Table) →
        GoMap.get (requests.foldl (fun requestMap req =>
          let requestMap1 :=
            match GoMap.get requestMap req.Table with
            | some _ => requestMap
            | none => GoMap.set requestMap req.Table []
          GoMap.set requestMap1 req.Table
            (((GoMap.get requestMap1 req.Table).getD []) ++ [req.Data])) m) t =
          some ((GoMap.get m t).getD [] ++
            (requests.filter (fun r => decide (r.Table = t))).map (fun r => r.Data))) := by
  induction requests with
  | nil =>
    intro m hnd
    refine ⟨hnd, by simp, ?_⟩
    intro t ht
    simp only [List.map_nil, List.not_mem_nil, or_false] at ht
    cases hg : GoMap.get m t with
    | none => exact absurd ht ((GoMap.get_eq_none_iff m t).mp hg)
    | some rows => simp [hg]
  | cons r rs ih =>
    intro m hnd
    obtain ⟨s1, s2, s3⟩ := RequestBatch_group_step m r hnd
    obtain ⟨f1, f2, f3⟩ := ih _ s1
    simp only [List.foldl_cons]
    refine ⟨f1, ?_, ?_⟩
    · intro t
      rw [f2 t, s2 t]
      simp only [List.map_cons, List.mem_cons]
      tauto
    · intro t ht
      have ht1 : t ∈ (GoMap.set
          (match GoMap.get m r.Table with
            | some _ => m
            | none => GoMap.set m r.Table [])
          r.Table
          (((GoMap.get
            (match GoMap.get m r.Table with
              | some _ => m
              | none => GoMap.set m r.Table []) r.Table).getD []) ++ [r.Data])).map Prod.fst ∨
          t ∈ rs.map (fun r => r.Table) := by
        rw [s2 t]
        simp only [List.map_cons, List.mem_cons] at ht
        tauto
      rw [f3 t ht1, s3 t]
      by_cases hrt : t = r.Table
      · subst hrt
        simp [List.filter_cons]
      · have hrt2 : ¬ r.Table = t := fun e => hrt e.symm
        simp [hrt, hrt2, List.filter_cons]

theorem RequestBatch_group_spec (requests : List mysql.InsertRequest) :
    ((mysql.Client.RequestBatch.group requests).map Prod.fst).Nodup ∧
    (∀ t, t ∈ (mysql.Client.RequestBatch.group requests).map Prod.fst ↔
      t ∈ requests.map (fun r => r.Table)) ∧
    (∀ t rows, (t, rows) ∈ mysql.Client.RequestBatch.group requests →
      rows = (requests.filter (fun r => decide (r.Table = t))).map (fun r => r.Data) ∧
      rows.length ≠ 0) := by
  have key : ((mysql.Client.RequestBatch.group requests).map Prod.fst).Nodup ∧
      (∀ t, t ∈ (mysql.Client.RequestBatch.group requests).map Prod.fst ↔
        (t ∈ (GoMap.empty : GoMap String (List (GoMap String Any))).map Prod.fst ∨
          t ∈ requests.map (fun r => r.Table))) ∧
      (∀ t, t ∈ (GoMap.empty : GoMap String (List (GoMap String Any))).map Prod.fst ∨
          t ∈ requests.map (fun r => r.Table) →
        GoMap.get (mysql.Client.RequestBatch.group requests) t =
          some ((GoMap.get (GoMap.empty : GoMap String (List (GoMap String Any))) t).getD [] ++
            (requests.filter (fun r => decide (r.Table = t))).map (fun r => r.Data))) :=
    RequestBatch_group_fold requests GoMap.empty (by simp [GoMap.empty])
  obtain ⟨f1, f2, f3⟩ := key
  have k2 : ∀ t, t ∈ (mysql.Client.RequestBatch.group requests).map Prod.fst ↔
      t ∈ requests.map (fun r => r.Table) := by
    intro t
    have := f2 t
    simpa [GoMap.empty] using this
  refine ⟨f1, k2, ?_⟩
  intro t rows hmem
  have hget := GoMap.get_of_mem_nodup _ t rows f1 hmem
  have ht : t ∈ requests.map (fun r => r.Table) :=
    (k2 t).mp (List.mem_map.mpr ⟨(t, rows), hmem, rfl⟩)
  have h3 := f3 t (Or.inr ht)
  have hrows : rows = (requests.filter (fun r => decide (r.Table = t))).map (fun r => r.Data) := by
    have e : GoMap.get (mysql.Client.RequestBatch.group requests) t =
        some ((requests.filter (fun r => decide (r.Table = t))).map (fun r => r.Data)) := by
      simpa [GoMap.empty, GoMap.get] using h3
    rw [hget] at e
    exact Option.some.inj e
  refine ⟨hrows, ?_⟩
  obtain ⟨r, hr, hrt⟩ := List.mem_map.mp ht
  have hin : r ∈ requests.filter (fun r => decide (r.Table = t)) :=
    List.mem_filter.mpr ⟨hr, by simpa using hrt⟩
  rw [hrows, List.length_map]
  intro h0
  rw [List.eq_nil_of_length_eq_zero h0] at hin
  cases hin

theorem RequestBatch_write_all_succeed (database : String)
    (exec : String → List (GoMap String Any) → GoError) (clear : String → GoError)
    (hexec : ∀ table rows, exec table rows = none)
    (entries : List (String × List (GoMap String Any)))
    (hne : ∀ e ∈ entries, e.2.length ≠ 0) :
    (mysql.Client.RequestBatch.write database exec clear entries).1 = none ∧
    mysql.inserts (mysql.Client.RequestBatch.write database exec clear entries).2 =
      entries.map (fun e => (e.1, e.2, none)) := by
  induction entries with
  | nil => simp [mysql.Client.RequestBatch.write, mysql.inserts]
  | cons entry rest ih =>
    obtain ⟨table, dataMaps⟩ := entry
    obtain ⟨i1, i2⟩ := ih (fun e he => hne e (List.mem_cons_of_mem _ he))
    have hlen : dataMaps.length ≠ 0 := hne (table, dataMaps) (List.mem_cons_self _ _)
    rcases WriteToDbBatch_cases exec table dataMaps with ⟨_, h0⟩ | ⟨hw, _⟩
    · exact absurd h0 hlen
    · rw [hexec table dataMaps] at hw
      simp only [mysql.Client.RequestBatch.write, hw, inserts_append,
        inserts_clearInvalidData, mysql.inserts, List.append_nil, List.singleton_append,
        List.map_cons]
      exact ⟨i1, by rw [i2]⟩

/-- C22: when every insert statement succeeds, `RequestBatch` returns nil and
makes exactly one `WriteToDbBatch` call for every table that has a request in
the batch and none for any other table, whatever the order in which the map
is ranged over; the call for a table is passed the data of exactly the
requests for that table, in their order in the batch, so the data of each
request is passed once, in the call for its own table. -/
theorem C22_requestBatch_writes_each_table_once_with_its_rows_in_order (database : String)
    (visit : GoMap String (List (GoMap String Any)) → List (String × List (GoMap String Any)))
    (exec : String → List (GoMap String Any) → GoError) (clear : String → GoError)
    (requests : List mysql.InsertRequest)
    (hvisit : (visit (mysql.Client.RequestBatch.group requests)).Perm
      (mysql.Client.RequestBatch.group requests))
    (hexec : ∀ table rows, exec table rows = none) :
    (mysql.Client.RequestBatch database visit exec clear requests).1 = none ∧
    ((mysql.inserts (mysql.Client.RequestBatch database visit exec clear requests).2).map
      (fun call => call.1)).Nodup ∧
    (∀ t, t ∈ (mysql.inserts (mysql.Client.RequestBatch database visit exec clear
        requests).2).map (fun call => call.1) ↔ t ∈ requests.map (fun r => r.Table)) ∧
    (∀ req ∈ requests,
      ((mysql.inserts (mysql.Client.RequestBatch database visit exec clear requests).2).map
        (fun call => call.1)).count req.Table = 1) ∧
    (∀ t rows e,
      (t, rows, e) ∈ mysql.inserts (mysql.Client.RequestBatch database visit exec clear
        requests).2 →
      rows = (requests.filter (fun r => decide (r.Table = t))).map (fun r => r.Data) ∧
      e = none) := by
  obtain ⟨g1, g2, g3⟩ := RequestBatch_group_spec requests
  have hne : ∀ e ∈ visit (mysql.Client.RequestBatch.group requests), e.2.length ≠ 0 := by
    intro e he
    exact (g3 e.1 e.2 (hvisit.mem_iff.mp he)).2
  obtain ⟨w1, w2⟩ := RequestBatch_write_all_succeed database exec clear hexec
    (visit (mysql.Client.RequestBatch.group requests)) hne
  have htab : (mysql.inserts (mysql.Client.RequestBatch database visit exec clear
      requests).2).map (fun call => call.1) =
      (visit (mysql.Client.RequestBatch.group requests)).map Prod.fst := by
    unfold mysql.Client.RequestBatch
    rw [w2, List.map_map]
    rfl
  have hperm := hvisit.map Prod.fst
  have hnd : ((mysql.inserts (mysql.Client.RequestBatch database visit exec clear
      requests).2).map (fun call => call.1)).Nodup := by
    rw [htab]
    exact hperm.nodup_iff.mpr g1
  have hmem : ∀ t, t ∈ (mysql.inserts (mysql.Client.RequestBatch database visit exec clear
      requests).2).map (fun call => call.1) ↔ t ∈ requests.map (fun r => r.Table) := by
    intro t
    rw [htab, hperm.mem_iff]
    exact g2 t
  refine ⟨w1, hnd, hmem, ?_, ?_⟩
  · intro req hreq
    exact List.count_eq_one_of_mem hnd
      ((hmem req.Table).mpr (List.mem_map.mpr ⟨req, hreq, rfl⟩))
  · intro t rows e hcall
    unfold mysql.Client.RequestBatch at hcall
    rw [w2] at hcall
    obtain ⟨entry, hentry, heq⟩ := List.mem_map.mp hcall
    simp only [Prod.mk.injEq] at heq
    obtain ⟨h1, h2, h3⟩ := heq
    subst h1 h2
    exact ⟨(g3 entry.1 entry.2 (hvisit.mem_iff.mp hentry)).1, h3.symm⟩

/-- C22 at a batch of three requests, for the tables `a`, `b` and `a`. -/
theorem C22_witness :
    mysql.Client.RequestBatch "metrics" id (fun _ _ => none) (fun _ => none)
        [{ Table := "a", Data := [("x", Any.int 1)] },
         { Table := "b", Data := [("y", Any.int 2)] },
         { Table := "a", Data := [("x", Any.int 3)] }] =
      (none,
        [mysql.DbCall.insert "a" [[("x", Any.int 1)], [("x", Any.int 3)]] none,
         mysql.DbCall.delete "a" none,
         mysql.DbCall.insert "b" [[("y", Any.int 2)]] none,
         mysql.DbCall.delete "b" none]) ∧
    ((mysql.inserts (mysql.Client.RequestBatch "metrics" id (fun _ _ => none) (fun _ => none)
        [{ Table := "a", Data := [("x", Any.int 1)] },
         { Table := "b", Data := [("y", Any.int 2)] },
         { Table := "a", Data := [("x", Any.int 3)] }]).2).map (fun call => call.1)).Nodup :=
  ⟨by decide,
    (C22_requestBatch_writes_each_table_once_with_its_rows_in_order "metrics" id
      (fun _ _ => none) (fun _ => none)
      [{ Table := "a", Data := [("x", Any.int 1)] },
       { Table := "b", Data := [("y", Any.int 2)] },
       { Table := "a", Data := [("x", Any.int 3)] }]
      (List.Perm.refl _) (fun _ _ => rfl)).2.1⟩

/-! ## The created set of the create consumer -/

theorem GoMap.mem_set {K V : Type} [DecidableEq K] (m : GoMap K V) (k : K) (v : V)
    (entry : K × V) (h : entry ∈ GoMap.set m k v) : entry = (k, v) ∨ entry ∈ m := by
  induction m with
  | nil =>
    simp only [GoMap.set, List.mem_singleton] at h
    exact Or.inl h
  | cons kv rest ih =>
    obtain ⟨k1, v1⟩ := kv
    by_cases hk : k1 = k
    · simp only [GoMap.set, hk, if_true, List.mem_cons] at h
      rcases h with h | h
      · exact Or.inl h
      · exact Or.inr (List.mem_cons_of_mem _ h)
    · simp only [GoMap.set, hk, if_false, List.mem_cons] at h
      rcases h with h | h
      · exact Or.inr (h ▸ List.mem_cons_self _ _)
      · rcases ih h with h2 | h2
        · exact Or.inl h2
        · exact Or.inr (List.mem_cons_of_mem _ h2)

theorem obtainHandler_of_allocated {α : Type} (p : Pool α) (h : Pool.Allocated p) :
    ∃ i p1, Pool.obtainHandler p = some (i, p1) ∧ i < p.dbHandlers.length ∧
      p1.dbHandlers = p.dbHandlers ∧ 0 ≤ p1.currentIndex := by
  obtain ⟨hlen, hcur⟩ := h
  unfold Pool.obtainHandler
  by_cases hge : p.currentIndex ≥ (p.dbHandlers.length : Int)
  · simp only [hge, if_true]
    have h2 : (0 : Int) ≤ 0 ∧ (0 : Int) < (p.dbHandlers.length : Int) := by omega
    rw [if_pos h2]
    exact ⟨_, _, rfl, by simpa using hlen, rfl, by simp⟩
  · simp only [hge, if_false]
    have h2 : 0 ≤ p.currentIndex ∧ p.currentIndex < (p.dbHandlers.length : Int) := by omega
    rw [if_pos h2]
    refine ⟨_, _, rfl, by omega, rfl, ?_⟩
    show 0 ≤ p.currentIndex + 1
    omega

theorem createTable_of_allocated {α : Type} (p : Pool α) (env : mysql.CreateEnv)
    (sqlStatement : String) (h : Pool.Allocated p) :
    ∃ p1 err calls, mysql.Pool.createTable p env sqlStatement = some (p1, err, calls) ∧
      Pool.Allocated p1 ∧ calls ≠ [] := by
  obtain ⟨i, q, hq, hi, hdb, hcur⟩ := obtainHandler_of_allocated p h
  have hi2 : i < q.dbHandlers.length := by rw [hdb]; exact hi
  obtain ⟨element, hel⟩ : ∃ element, q.dbHandlers[i]? = some element :=
    ⟨q.dbHandlers[i], List.getElem?_eq_getElem hi2⟩
  have hlen : 0 < q.dbHandlers.length := by omega
  unfold mysql.Pool.createTable
  rw [hq]
  simp only [hel]
  cases hir : (mysql.Client.Init element.client env.backend).err with
  | some e =>
    exact ⟨_, _, _, rfl, ⟨by simpa using hlen, hcur⟩, by simp⟩
  | none =>
    cases hce : env.createErr with
    | some e => exact ⟨_, _, _, rfl, ⟨by simpa using hlen, hcur⟩, by simp⟩
    | none => exact ⟨_, _, _, rfl, ⟨by simpa using hlen, hcur⟩, by simp⟩

theorem NewPool_allocated (db : String) : Pool.Allocated (mysql.NewPool mysql.poolSize db) := by
  refine ⟨?_, ?_⟩
  · simp [mysql.NewPool, mysql.poolSize]
  · simp [mysql.NewPool]

theorem handle_of_allocated (cc : mysql.CreateConsumer) (createTableOnceMap : GoMap String Bool)
    (env : mysql.CreateEnv) (msg : mysql.CreateTableMessage)
    (h : mysql.CreateConsumer.Allocated cc) :
    ∃ r, mysql.CreateConsumer.handle cc createTableOnceMap env msg = some r ∧
      mysql.CreateConsumer.Allocated r.consumer ∧
      r.createTableOnceMap = GoMap.set createTableOnceMap msg.TableName true ∧
      r.err = none ∧ r.calls ≠ [] := by
  unfold mysql.CreateConsumer.handle
  cases hget : GoMap.get cc.pools msg.DbName with
  | some pool =>
    obtain ⟨p1, err, calls, hc, hp1, hcalls⟩ :=
      createTable_of_allocated pool env msg.Sql (h _ (GoMap.mem_of_get _ _ _ hget))
    simp only [hc]
    refine ⟨_, rfl, ?_, rfl, rfl, hcalls⟩
    intro entry hentry
    rcases GoMap.mem_set _ _ _ _ hentry with h1 | h1
    · rw [h1]
      exact hp1
    · exact h _ h1
  | none =>
    obtain ⟨p1, err, calls, hc, hp1, hcalls⟩ :=
      createTable_of_allocated (mysql.NewPool mysql.poolSize msg.DbName) env msg.Sql
        (NewPool_allocated msg.DbName)
    simp only [hc]
    refine ⟨_, rfl, ?_, rfl, rfl, hcalls⟩
    intro entry hentry
    rcases GoMap.mem_set _ _ _ _ hentry with h1 | h1
    · rw [h1]
      exact hp1
    · rcases GoMap.mem_set _ _ _ _ h1 with h2 | h2
      · rw [h2]
        exact NewPool_allocated msg.DbName
      · exact h _ h2

theorem GoMap.get_set_ne_none {K V : Type} [DecidableEq K] (m : GoMap K V) (k k2 : K) (v : V)
    (h : GoMap.get m k2 ≠ none) : GoMap.get (GoMap.set m k v) k2 ≠ none := by
  by_cases hk : k2 = k
  · rw [hk, GoMap.get_set_self]
    simp
  · rw [GoMap.get_set_ne m k k2 v hk]
    exact h

theorem Consume_of_allocated (cc : mysql.CreateConsumer) (createTableOnceMap : GoMap String Bool)
    (env : mysql.CreateEnv) (decoded : Except String mysql.CreateTableMessage)
    (h : mysql.CreateConsumer.Allocated cc) :
    ∃ r, mysql.CreateConsumer.Consume cc createTableOnceMap env decoded = some r ∧
      mysql.CreateConsumer.Allocated r.consumer ∧
      (∀ t, GoMap.get createTableOnceMap t ≠ none → GoMap.get r.createTableOnceMap t ≠ none) ∧
      (∀ msg, decoded = .ok msg → GoMap.get r.createTableOnceMap msg.TableName ≠ none) := by
  cases decoded with
  | error e =>
    refine ⟨_, rfl, h, fun t ht => ht, ?_⟩
    intro msg hmsg
    cases hmsg
  | ok ctMsg =>
    cases hget : GoMap.get createTableOnceMap ctMsg.TableName with
    | some v =>
      refine ⟨{ consumer := cc, createTableOnceMap := createTableOnceMap, err := none,
                calls := [] }, ?_, h, fun t ht => ht, ?_⟩
      · simp [mysql.CreateConsumer.Consume, hget]
      · intro msg hmsg
        cases hmsg
        show GoMap.get createTableOnceMap ctMsg.TableName ≠ none
        rw [hget]
        simp
    | none =>
      obtain ⟨r, hr, hall, honce, _, _⟩ := handle_of_allocated cc createTableOnceMap env ctMsg h
      refine ⟨r, ?_, hall, ?_, ?_⟩
      · simp [mysql.CreateConsumer.Consume, hget, hr]
      · intro t ht
        rw [honce]
        exact GoMap.get_set_ne_none _ _ _ _ ht
      · intro msg hmsg
        cases hmsg
        rw [honce, GoMap.get_set_self]
        simp

theorem consumeAll_of_allocated
    (history : List (mysql.CreateEnv × Except String mysql.CreateTableMessage))
    (cc : mysql.CreateConsumer) (createTableOnceMap : GoMap String Bool)
    (h : mysql.CreateConsumer.Allocated cc) :
    ∃ s, mysql.CreateConsumer.consumeAll cc createTableOnceMap history = some s ∧
      mysql.CreateConsumer.Allocated s.1 ∧
      (∀ t, GoMap.get createTableOnceMap t ≠ none → GoMap.get s.2.1 t ≠ none) := by
  induction history generalizing cc createTableOnceMap with
  | nil => exact ⟨_, rfl, h, fun t ht => ht⟩
  | cons x rest ih =>
    obtain ⟨env, decoded⟩ := x
    obtain ⟨r, hr, hall, hmono, _⟩ := Consume_of_allocated cc createTableOnceMap env decoded h
    obtain ⟨s, hs, hsall, hsmono⟩ := ih r.consumer r.createTableOnceMap hall
    refine ⟨(s.1, s.2.1, r.calls ++ s.2.2), ?_, hsall, fun t ht => hsmono t (hmono t ht)⟩
    simp only [mysql.CreateConsumer.consumeAll, hr, hs]

/-- C23: on a consumer made by `NewCreateConsumer`, after any earlier messages,
`CreateConsumer.handle` of a create-table message for table T returns, makes a
call on a client and stores T in `createTableOnceMap`, whatever the server
answers (also when `Init` or the statement fails); and after any later
messages, `CreateConsumer.Consume` of a create-table message for T, for any
database name and any SQL text, returns nil, makes no call on any client and
changes nothing. The entry is the one `handle` writes for every consumer and
every outcome, under the table name alone. -/
theorem C23_handled_table_is_never_created_again
    (history later : List (mysql.CreateEnv × Except String mysql.CreateTableMessage))
    (createTableOnceMap : GoMap String Bool) (env env2 : mysql.CreateEnv)
    (msg : mysql.CreateTableMessage) (dbName2 sql2 : String) :
    (∀ (cc : mysql.CreateConsumer) (r : mysql.CreateResult),
      mysql.CreateConsumer.handle cc createTableOnceMap env msg = some r →
      r.createTableOnceMap = GoMap.set createTableOnceMap msg.TableName true ∧
      GoMap.get r.createTableOnceMap msg.TableName = some true) ∧
    (∃ s r s2,
      mysql.CreateConsumer.consumeAll mysql.NewCreateConsumer createTableOnceMap history =
        some s ∧
      mysql.CreateConsumer.handle s.1 s.2.1 env msg = some r ∧
      r.calls ≠ [] ∧
      GoMap.get r.createTableOnceMap msg.TableName = some true ∧
      mysql.CreateConsumer.consumeAll r.consumer r.createTableOnceMap later = some s2 ∧
      mysql.CreateConsumer.Consume s2.1 s2.2.1 env2
          (.ok { DbName := dbName2, TableName := msg.TableName, Sql := sql2 }) =
        some { consumer := s2.1, createTableOnceMap := s2.2.1, err := none, calls := [] }) ∧
    (mysql.CreateConsumer.consumeAll mysql.NewCreateConsumer GoMap.empty
        [(⟨⟨some 1, true, some 2, true⟩, some "syntax error"⟩,
            .ok { DbName := "d1", TableName := "t", Sql := "CREATE TABLE t (" }),
         (⟨⟨none, false, none, false⟩, none⟩,
            .ok { DbName := "d2", TableName := "u", Sql := "CREATE TABLE u (a INT)" }),
         (⟨⟨some 1, true, some 2, true⟩, none⟩,
            .ok { DbName := "d2", TableName := "t", Sql := "CREATE TABLE t (a INT)" }),
         (⟨⟨some 1, true, some 2, true⟩, none⟩,
            .ok { DbName := "d1", TableName := "u", Sql := "CREATE TABLE u (a INT)" })]).map
        (fun s => (s.2.1, s.2.2)) =
      some ([("t", true), ("u", true)],
        [mysql.DbCall.init none,
         mysql.DbCall.createTable "CREATE TABLE t (" (some "syntax error"),
         mysql.DbCall.init (some "mysqldb init error")]) := by
  refine ⟨?_, ?_, ?_⟩
  · intro cc r hr
    have hset : r.createTableOnceMap = GoMap.set createTableOnceMap msg.TableName true := by
      unfold mysql.CreateConsumer.handle at hr
      split at hr <;> dsimp only at hr <;> split at hr <;> first | (cases hr; rfl) | cases hr
    refine ⟨hset, ?_⟩
    rw [hset]
    exact GoMap.get_set_self _ _ _
  · have h0 : mysql.CreateConsumer.Allocated mysql.NewCreateConsumer := by
      intro entry hentry
      cases hentry
    obtain ⟨s, hs, hsall, _⟩ :=
      consumeAll_of_allocated history mysql.NewCreateConsumer createTableOnceMap h0
    obtain ⟨r, hr, hrall, hronce, _, hrcalls⟩ := handle_of_allocated s.1 s.2.1 env msg hsall
    have hmark : GoMap.get r.createTableOnceMap msg.TableName = some true := by
      rw [hronce]
      exact GoMap.get_set_self _ _ _
    obtain ⟨s2, hs2, _, hmono⟩ :=
      consumeAll_of_allocated later r.consumer r.createTableOnceMap hrall
    have hkept : GoMap.get s2.2.1 msg.TableName ≠ none := by
      apply hmono
      rw [hmark]
      simp
    refine ⟨s, r, s2, hs, hr, hrcalls, hmark, hs2, ?_⟩
    cases hget : GoMap.get s2.2.1 msg.TableName with
    | none => exact absurd hget hkept
    | some v => simp [mysql.CreateConsumer.Consume, hget]
  · decide

end KafkaConsumer
